import Mathlib

/-!
# Verification of the template-to-active-module sync engine

A shallow embedding of the synchronization logic of
`src/js/data-service-supabase.js` (class `DataServiceSupabase`): the
operations `getModule`, `getWeeks`, `getZoomInfo`, `updateModule`,
`updateZoomInfo`, `createPage`, `createWeekWithNumber`, `syncWeekContent`,
`syncToActiveModule` and `updateWeek`.

The Supabase store is modelled as an explicit record of tables (lists of
rows); every row id is a `Nat` drawn from a fresh-id counter `nextId`
(modelling `BIGSERIAL` columns).  Timestamp bookkeeping columns
(`created_at` / `updated_at`) and the audit table `error_logs` are not part
of the model; all storage operations are modelled as succeeding
(an error-free store), so the only error paths embedded are the ones the
JavaScript takes on its own data (precondition checks, `.single()`
misses).  Asynchronous `Promise.all` branches in the source touch disjoint
rows and are embedded sequentially in program order.
-/

namespace Lectern

/-- JavaScript `x || null` on a nullable string: `null`, `undefined` and the
empty string all collapse to `null`. -/
def jsOrNull : Option String → Option String
  | none => none
  | some s => if s = "" then none else some s

/-- JavaScript `x || d` with a string default (used for the zoom timezone). -/
def jsOrDefault (d : String) : Option String → String
  | none => d
  | some s => if s = "" then d else s

/-- Stable insertion of `a` into `l` by the numeric key `f`
(used to model JavaScript `Array.prototype.sort` on a numeric key). -/
def insertByKey (f : α → Nat) (a : α) : List α → List α
  | [] => [a]
  | b :: l => if f a ≤ f b then a :: b :: l else b :: insertByKey f a l

/-- Stable sort by a numeric key, modelling `.order(col, ascending)` and
JavaScript `.sort((a, b) => a.key - b.key)`. -/
def sortByKey (f : α → Nat) : List α → List α
  | [] => []
  | a :: l => insertByKey f a (sortByKey f l)

/-- Supabase `.single()`: the query must return exactly one row. -/
def singleRow : List α → Option α
  | [a] => some a
  | _ => none

/-- JavaScript `new Map(entries).get(k)`: on duplicate keys the later entry
wins, so lookup returns the last matching entry. -/
def jsMapGet (key : α → Nat) (k : Nat) (l : List α) : Option α :=
  (l.filter (fun a => key a = k)).getLast?

/-! ## Table rows (`BIGSERIAL` ids as `Nat`, nullable columns as `Option`) -/

/-- A row of the `modules` table. -/
structure ModuleRow where
  id : Nat
  title : String
  description : Option String
  instructor : Option String
  duration : Option String
  participation : Option String
  time_expectations : Option String
  status : String
  template_id : Option Nat
  launched_at : Option String
  archived_at : Option String
  deriving Repr, DecidableEq

/-- A row of the `module_zoom_info` table (`UNIQUE(module_id)`). -/
structure ZoomRow where
  module_id : Nat
  url : Option String
  meeting_id : Option String
  passcode : Option String
  day : Option String
  time : Option String
  timezone : Option String
  deriving Repr, DecidableEq

/-- A row of the `weeks` table (`UNIQUE(module_id, week_number)`). -/
structure WeekRow where
  id : Nat
  module_id : Nat
  week_number : Nat
  title : String
  description : Option String
  unlock_date : Option String
  deriving Repr, DecidableEq

/-- A row of the `pages` table (`UNIQUE(week_id, page_number)`). -/
structure PageRow where
  id : Nat
  week_id : Nat
  page_number : Nat
  title : String
  type : String
  content : Option String
  deriving Repr, DecidableEq

/-- A row of the `questions` table. -/
structure QuestionRow where
  id : Nat
  page_id : Nat
  question_number : Nat
  text : String
  deriving Repr, DecidableEq

/-- A row of the `resources` table. -/
structure ResourceRow where
  id : Nat
  page_id : Nat
  title : String
  url : Option String
  description : Option String
  sort_order : Nat
  deriving Repr, DecidableEq

/-- A row of the `videos` table (`url` is `NOT NULL`; `description` and
`duration` are nullable). -/
structure VideoRow where
  id : Nat
  page_id : Nat
  title : String
  url : String
  description : Option String
  duration : Option String
  sort_order : Nat
  deriving Repr, DecidableEq

/-- A row of the `discussion_posts` table (student data; sync never touches
it, so only the identity-bearing columns are modelled). -/
structure PostRow where
  id : Nat
  question_id : Nat
  user_id : Nat
  parent_id : Option Nat
  content : String
  is_deleted : Bool
  deriving Repr, DecidableEq

/-- A row of the `progress` table (student data; sync never touches it). -/
structure ProgressRow where
  id : Nat
  user_id : Nat
  week_id : Nat
  current_page : Nat
  completed : Bool
  completed_at : Option String
  deriving Repr, DecidableEq

/-- The store: one list per table, plus the fresh-id counter that models the
`BIGSERIAL` id sequences (a single shared sequence keeps the model simple;
only freshness of ids matters). -/
structure DB where
  modules : List ModuleRow
  zoom_info : List ZoomRow
  weeks : List WeekRow
  pages : List PageRow
  questions : List QuestionRow
  resources : List ResourceRow
  videos : List VideoRow
  discussion_posts : List PostRow
  progress : List ProgressRow
  nextId : Nat
  deriving Repr, DecidableEq

/-! ## View objects returned by the read operations -/

/-- The object `getModule` returns (camelCase view of a `modules` row). -/
structure ModuleView where
  id : Nat
  title : String
  description : Option String
  instructor : Option String
  duration : Option String
  participation : Option String
  timeExpectations : Option String
  status : String
  templateId : Option Nat
  launchedAt : Option String
  archivedAt : Option String
  deriving Repr, DecidableEq

/-- A question inside a `getWeeks` page view: `{ id: q.question_number, text: q.text }`. -/
structure QuestionView where
  id : Nat
  text : String
  deriving Repr, DecidableEq

/-- A resource inside a `getWeeks` page view. -/
structure ResourceView where
  id : Nat
  title : String
  url : Option String
  description : Option String
  deriving Repr, DecidableEq

/-- A video inside a `getWeeks` page view (note: `duration`, not `description`). -/
structure VideoView where
  id : Nat
  title : String
  url : String
  duration : Option String
  deriving Repr, DecidableEq

/-- A page inside a `getWeeks` week view. -/
structure PageView where
  title : String
  type : String
  content : Option String
  questions : List QuestionView
  resources : List ResourceView
  videos : List VideoView
  deriving Repr, DecidableEq

/-- The object `getWeeks` returns for each week: `id` is the ordinal
`week_number`, not the database row id. -/
structure WeekView where
  id : Nat
  moduleId : Nat
  title : String
  description : Option String
  unlockDate : Option String
  pages : List PageView
  deriving Repr, DecidableEq

/-- The object `getZoomInfo` returns when a row exists (the nested
`schedule: { day, time, timezone }` object is flattened here). -/
structure ZoomView where
  url : Option String
  meetingId : Option String
  passcode : Option String
  day : Option String
  time : Option String
  timezone : Option String
  deriving Repr, DecidableEq

/-! ## Read operations -/

/-- `getModule(moduleId)`: `.select('*').eq('id', moduleId).single()`,
mapped to the camelCase view; `null` on error. -/
def getModule (db : DB) (moduleId : Nat) : Option ModuleView :=
  match singleRow (db.modules.filter (fun m => m.id = moduleId)) with
  | none => none
  | some m => some
      { id := m.id, title := m.title, description := m.description,
        instructor := m.instructor, duration := m.duration,
        participation := m.participation,
        timeExpectations := m.time_expectations, status := m.status,
        templateId := m.template_id, launchedAt := m.launched_at,
        archivedAt := m.archived_at }

/-- `getWeeks(moduleId)`: weeks of the module ordered by `week_number`, with
nested pages (sorted by `page_number`), questions (by `question_number`),
resources and videos (by `sort_order`), mapped to view objects. -/
def getWeeks (db : DB) (moduleId : Nat) : List WeekView :=
  (sortByKey (fun w => w.week_number)
      (db.weeks.filter (fun w => w.module_id = moduleId))).map (fun week =>
    { id := week.week_number
      moduleId := week.module_id
      title := week.title
      description := week.description
      unlockDate := week.unlock_date
      pages := (sortByKey (fun p => p.page_number)
          (db.pages.filter (fun p => p.week_id = week.id))).map (fun page =>
        { title := page.title
          type := page.type
          content := page.content
          questions := (sortByKey (fun q => q.question_number)
              (db.questions.filter (fun q => q.page_id = page.id))).map
                (fun q => { id := q.question_number, text := q.text })
          resources := (sortByKey (fun r => r.sort_order)
              (db.resources.filter (fun r => r.page_id = page.id))).map
                (fun r => { id := r.id, title := r.title, url := r.url,
                            description := r.description })
          videos := (sortByKey (fun v => v.sort_order)
              (db.videos.filter (fun v => v.page_id = page.id))).map
                (fun v => { id := v.id, title := v.title, url := v.url,
                            duration := v.duration }) }) })

/-- `getZoomInfo(moduleId)`: `.eq('module_id', moduleId).maybeSingle()`;
returns `{}` (here `none`) when no row exists. -/
def getZoomInfo (db : DB) (moduleId : Nat) : Option ZoomView :=
  match db.zoom_info.find? (fun z => z.module_id = moduleId) with
  | none => none
  | some z => some
      { url := z.url, meetingId := z.meeting_id, passcode := z.passcode,
        day := z.day, time := z.time, timezone := z.timezone }

/-! ## Operation results

`this.success(data, message)` returns `{ success: true, data, message,
error: null }`; `this.error(message, code)` returns `{ success: false,
data: null, message, error: { code, message } }`.  Every return path of
`syncToActiveModule` and `updateWeek` passes `null` as the data payload, so
the payload is modelled as `Option Unit`. -/

/-- An operation result as produced by the `success` / `error` helpers. -/
structure SyncResult where
  success : Bool
  data : Option Unit
  message : String
  errorCode : Option String
  deriving Repr, DecidableEq

/-- `this.success(null, message)`. -/
def opSuccess (message : String) : SyncResult :=
  { success := true, data := none, message := message, errorCode := none }

/-- `this.error(message, code)`. -/
def opError (message code : String) : SyncResult :=
  { success := false, data := none, message := message, errorCode := some code }

/-! ## Write operations -/

/-- The `updates` argument of `updateModule`: an outer `none` means the key
is absent (`!== undefined` fails), so the column is not written. -/
structure ModuleUpdates where
  title : Option String := none
  description : Option (Option String) := none
  instructor : Option (Option String) := none
  duration : Option (Option String) := none
  participation : Option (Option String) := none
  timeExpectations : Option (Option String) := none
  status : Option String := none
  archivedAt : Option (Option String) := none
  deriving Repr, DecidableEq

/-- Apply the `dbUpdates` object built by `updateModule` to one row. -/
def applyModuleUpdates (u : ModuleUpdates) (m : ModuleRow) : ModuleRow :=
  { m with
    title := u.title.getD m.title
    description := u.description.getD m.description
    instructor := u.instructor.getD m.instructor
    duration := u.duration.getD m.duration
    participation := u.participation.getD m.participation
    time_expectations := u.timeExpectations.getD m.time_expectations
    status := u.status.getD m.status
    archived_at := u.archivedAt.getD m.archived_at }

/-- `updateModule(moduleId, updates)`: `.update(dbUpdates).eq('id', moduleId)`. -/
def updateModule (db : DB) (moduleId : Nat) (u : ModuleUpdates) : DB :=
  { db with modules := db.modules.map (fun m =>
      if m.id = moduleId then applyModuleUpdates u m else m) }

/-- `updateZoomInfo(moduleId, zoomData)`: `upsert` keyed on `module_id`,
with `|| null` on each field and `|| 'EST'` on the timezone. -/
def updateZoomInfo (db : DB) (moduleId : Nat) (zoomData : ZoomView) : DB :=
  let newRow : ZoomRow :=
    { module_id := moduleId
      url := jsOrNull zoomData.url
      meeting_id := jsOrNull zoomData.meetingId
      passcode := jsOrNull zoomData.passcode
      day := jsOrNull zoomData.day
      time := jsOrNull zoomData.time
      timezone := some (jsOrDefault "EST" zoomData.timezone) }
  if db.zoom_info.any (fun z => z.module_id = moduleId) then
    { db with zoom_info := db.zoom_info.map (fun z =>
        if z.module_id = moduleId then newRow else z) }
  else
    { db with zoom_info := db.zoom_info ++ [newRow] }

/-- Batch insert into `resources` with `sort_order: idx` (the mapping used by
`createPage`, `syncWeekContent` and `updateWeek` is identical). -/
def insertResources (db : DB) (pageId : Nat) (rs : List ResourceView) : DB :=
  { db with
    resources := db.resources ++ rs.enum.map (fun (idx, r) =>
      { id := db.nextId + idx, page_id := pageId, title := r.title,
        url := jsOrNull r.url, description := jsOrNull r.description,
        sort_order := idx })
    nextId := db.nextId + rs.length }

/-- Batch insert into `videos` as `createPage` and `updateWeek` do it:
`duration: v.duration || null`, no `description` key. -/
def insertVideosCreated (db : DB) (pageId : Nat) (vs : List VideoView) : DB :=
  { db with
    videos := db.videos ++ vs.enum.map (fun (idx, v) =>
      { id := db.nextId + idx, page_id := pageId, title := v.title,
        url := v.url, description := none,
        duration := jsOrNull v.duration, sort_order := idx })
    nextId := db.nextId + vs.length }

/-- Batch insert into `videos` as `syncWeekContent` does it: the insert maps
`description: v.description || null` — but the video view produced by
`getWeeks` has no `description` field, so this is always `null` — and has no
`duration` key at all, so the `duration` column is left `NULL`. -/
def insertVideosSynced (db : DB) (pageId : Nat) (vs : List VideoView) : DB :=
  { db with
    videos := db.videos ++ vs.enum.map (fun (idx, v) =>
      { id := db.nextId + idx, page_id := pageId, title := v.title,
        url := v.url, description := none,
        duration := none, sort_order := idx })
    nextId := db.nextId + vs.length }

/-- Batch insert into `questions` of the collected `questionInserts`
(each paired with its 0-based template index `qIdx`). -/
def insertQuestionRows (db : DB) (pageId : Nat)
    (qs : List (Nat × QuestionView)) : DB :=
  if qs.length > 0 then
    { db with
      questions := db.questions ++ qs.enum.map (fun (j, e) =>
        { id := db.nextId + j, page_id := pageId,
          question_number := e.1 + 1, text := e.2.text })
      nextId := db.nextId + qs.length }
  else db

/-- Insert one freshly numbered page row
(`.from('pages').insert({...}).select().single()`). -/
def insertPageRow (db : DB) (row : PageRow) : DB :=
  { db with pages := db.pages ++ [row], nextId := db.nextId + 1 }

/-- The questions insert of `createPage`: `question_number: idx + 1`. -/
def insertQuestionsAt (db : DB) (pageId : Nat) (qs : List QuestionView) : DB :=
  if qs.length > 0 then
    { db with
      questions := db.questions ++ qs.enum.map (fun e =>
        ⟨db.nextId + e.1, pageId, e.1 + 1, e.2.text⟩)
      nextId := db.nextId + qs.length }
  else db

/-- `createPage(weekId, pageNumber, pageData)`: insert the page row, then its
questions (`question_number: idx + 1`), resources and videos. -/
def createPage (db : DB) (weekId pageNumber : Nat) (pageData : PageView) : DB :=
  let pageId := db.nextId
  let db1 := insertPageRow db
    ⟨pageId, weekId, pageNumber, pageData.title, pageData.type,
     jsOrNull pageData.content⟩
  let db2 := insertQuestionsAt db1 pageId pageData.questions
  let db3 := if pageData.resources.length > 0 then
      insertResources db2 pageId pageData.resources
    else db2
  if pageData.videos.length > 0 then
    insertVideosCreated db3 pageId pageData.videos
  else db3

/-- The `weekData` argument of `createWeekWithNumber` (the caller passes
`{ title, description, unlockDate, pages }`). -/
structure WeekData where
  title : String
  description : Option String
  unlockDate : Option String
  pages : List PageView
  deriving Repr, DecidableEq

/-- `createWeekWithNumber(moduleId, weekNumber, weekData)`: insert a week row
with the given `week_number`, then create its pages at `page_number i + 1`. -/
def createWeekWithNumber (db : DB) (moduleId weekNumber : Nat)
    (weekData : WeekData) : DB :=
  let weekRowId := db.nextId
  let weekRow : WeekRow :=
    { id := weekRowId, module_id := moduleId, week_number := weekNumber,
      title := weekData.title, description := jsOrNull weekData.description,
      unlock_date := jsOrNull weekData.unlockDate }
  let db1 : DB := { db with
    weeks := db.weeks ++ [weekRow]
    nextId := db.nextId + 1 }
  weekData.pages.enum.foldl
    (fun db e => createPage db weekRowId (e.1 + 1) e.2) db1

/-! ## The sync engine -/

/-- `.from('pages').update({ title, type, content }).eq('id', pageId)`.
`syncWeekContent` passes `templatePage.content` unchanged; `updateWeek`
passes `pageData.content || null`. -/
def updatePageRow (db : DB) (pageId : Nat) (title ty : String)
    (content : Option String) : DB :=
  { db with pages := db.pages.map (fun p =>
      if p.id = pageId then
        { p with title := title, type := ty, content := content }
      else p) }

/-- The "Sync resources - delete then insert" block: delete every resource
of the page, then insert the template's resources when there are any. -/
def syncResourcesOfPage (db : DB) (pageId : Nat) (rs : List ResourceView) : DB :=
  let db1 : DB :=
    { db with resources := db.resources.filter (fun r =>
        ¬ r.page_id = pageId) }
  if rs.length > 0 then insertResources db1 pageId rs else db1

/-- The "Sync videos - delete then insert" block of `syncWeekContent`
(insert without a `duration` key — see `insertVideosSynced`). -/
def syncVideosOfPage (db : DB) (pageId : Nat) (vs : List VideoView) : DB :=
  let db1 : DB :=
    { db with videos := db.videos.filter (fun v => ¬ v.page_id = pageId) }
  if vs.length > 0 then insertVideosSynced db1 pageId vs else db1

/-- The videos block of `updateWeek` (insert with `duration: v.duration || null`). -/
def replaceVideosOfPage (db : DB) (pageId : Nat) (vs : List VideoView) : DB :=
  let db1 : DB :=
    { db with videos := db.videos.filter (fun v => ¬ v.page_id = pageId) }
  if vs.length > 0 then insertVideosCreated db1 pageId vs else db1

/-- `.from('questions').update({ text }).eq('id', qid)`. -/
def updateQuestionText (db : DB) (qid : Nat) (text : String) : DB :=
  { db with questions := db.questions.map (fun q =>
      if q.id = qid then { q with text := text } else q) }

/-- The question update/insert phase shared by `syncWeekContent` and
`updateWeek`, against a previously read `existingQuestions` list: update the
questions matched by `question_number = qIdx + 1`, then batch-insert the
unmatched template questions. -/
def reconcileQuestionsWith (db : DB) (pageId : Nat)
    (existingQList : List QuestionRow)
    (templateQuestions : List QuestionView) : DB :=
  let db1 := templateQuestions.enum.foldl (fun db e =>
    match existingQList.find? (fun q => q.question_number = e.1 + 1) with
    | some existingQ => updateQuestionText db existingQ.id e.2.text
    | none => db) db
  insertQuestionRows db1 pageId (templateQuestions.enum.filter (fun e =>
    (existingQList.find? (fun q => q.question_number = e.1 + 1)).isNone))

/-- Question reconciliation as `syncWeekContent` performs it: the existing
questions are read (ordered by `question_number`) at this point and never
deleted. -/
def reconcileQuestions (db : DB) (pageId : Nat)
    (templateQuestions : List QuestionView) : DB :=
  reconcileQuestionsWith db pageId
    (sortByKey (fun q => q.question_number)
      (db.questions.filter (fun q => q.page_id = pageId)))
    templateQuestions

/-- The body of the `templateWeek.pages.map((templatePage, i) => ...)`
callback in `syncWeekContent`, for a template page matched (by position)
to the active page row `activePage`: update the page's content columns,
replace its resources and videos wholesale, then reconcile its questions
(update matched, insert missing, delete nothing). -/
def syncPageContent (db : DB) (templatePage : PageView)
    (activePage : PageRow) : DB :=
  let db1 := updatePageRow db activePage.id templatePage.title
    templatePage.type templatePage.content
  let db2 := syncResourcesOfPage db1 activePage.id templatePage.resources
  let db3 := syncVideosOfPage db2 activePage.id templatePage.videos
  reconcileQuestions db3 activePage.id templatePage.questions

/-- The week-level update of `syncWeekContent`:
`.from('weeks').update({ title, description, unlock_date })
.eq('module_id', activeModuleId).eq('week_number', activeWeek.id)`. -/
def updateActiveWeekRow (db : DB) (activeModuleId weekNumber : Nat)
    (templateWeek : WeekView) : DB :=
  { db with weeks := db.weeks.map (fun w =>
      if w.module_id = activeModuleId ∧ w.week_number = weekNumber then
        { w with title := templateWeek.title,
                 description := templateWeek.description,
                 unlock_date := templateWeek.unlockDate }
      else w) }

/-- `syncWeekContent(templateWeek, activeWeek, activeModuleId)`: update the
active week row matched by `(module_id, week_number)`, look the week row up
again (`.single()`), list its pages ordered by `page_number`, and process
each template page against the active page at the same index; a template
page with no active page at its index is skipped (`if (!activePage) return`).
Throws only on storage errors, which the error-free store never produces. -/
def syncWeekContent (db : DB) (templateWeek activeWeek : WeekView)
    (activeModuleId : Nat) : DB :=
  let db0 := updateActiveWeekRow db activeModuleId activeWeek.id templateWeek
  match singleRow (db0.weeks.filter (fun w =>
      w.module_id = activeModuleId ∧ w.week_number = activeWeek.id)) with
  | none => db0
  | some weekRecord =>
    let activePagesList := sortByKey (fun p => p.page_number)
      (db0.pages.filter (fun p => p.week_id = weekRecord.id))
    templateWeek.pages.enum.foldl (fun db e =>
      match activePagesList[e.1]? with
      | none => db
      | some activePage => syncPageContent db e.2 activePage) db0

/-- Step 1 of `syncToActiveModule`: "`Update module info (but preserve
status, launchedAt, templateId)`" — `updateModule` called with exactly the
six template-owned fields. -/
def syncModuleInfoStep (db : DB) (activeModuleId : Nat)
    (template : ModuleView) : DB :=
  updateModule db activeModuleId
    { title := some template.title
      description := some template.description
      instructor := some template.instructor
      duration := some template.duration
      participation := some template.participation
      timeExpectations := some template.timeExpectations }

/-- Step 2 of `syncToActiveModule`: copy the template's zoom info onto the
active module when the template has any. -/
def syncZoomStep (db : DB) (templateId activeModuleId : Nat) : DB :=
  match getZoomInfo db templateId with
  | some templateZoom => updateZoomInfo db activeModuleId templateZoom
  | none => db

/-- Step 3 of `syncToActiveModule`: walk the template weeks (the active-week
map was built before the loop), syncing each week matched by week number and
creating the unmatched ones with `createWeekWithNumber`. -/
def syncWeeksStep (db : DB) (activeModuleId : Nat)
    (templateWeeks activeWeeks : List WeekView) : DB :=
  templateWeeks.foldl (fun db templateWeek =>
    match jsMapGet (fun aw => aw.id) templateWeek.id activeWeeks with
    | some activeWeek =>
        syncWeekContent db templateWeek activeWeek activeModuleId
    | none =>
        createWeekWithNumber db activeModuleId templateWeek.id
          { title := templateWeek.title
            description := templateWeek.description
            unlockDate := templateWeek.unlockDate
            pages := templateWeek.pages }) db

/-- The mutation pipeline of `syncToActiveModule` once the preconditions
have passed. -/
def syncModuleContent (db : DB) (templateId activeModuleId : Nat)
    (template : ModuleView) : DB :=
  let db1 := syncModuleInfoStep db activeModuleId template
  let db2 := syncZoomStep db1 templateId activeModuleId
  syncWeeksStep db2 activeModuleId (getWeeks db2 templateId)
    (getWeeks db2 activeModuleId)

/-- `syncToActiveModule(templateId, activeModuleId)`: check the
preconditions (template exists and is a draft, active module exists and is
launched), then merge the module-level fields, upsert the zoom info, and
reconcile the weeks. -/
def syncToActiveModule (db : DB) (templateId activeModuleId : Nat) :
    SyncResult × DB :=
  match getModule db templateId with
  | none => (opError "Template not found" "NOT_FOUND", db)
  | some template =>
    if template.status ≠ "draft" then
      (opError "Source must be a template (draft module)" "INVALID_STATUS", db)
    else
      match getModule db activeModuleId with
      | none => (opError "Active module not found" "NOT_FOUND", db)
      | some activeModule =>
        if activeModule.status ≠ "launched" then
          (opError "Target must be a launched module" "INVALID_STATUS", db)
        else
          (opSuccess "Template synced to active module successfully",
           syncModuleContent db templateId activeModuleId template)

/-! ## The admin editing path `updateWeek` (contrast case for sync) -/

/-- The `updates` argument of `updateWeek`.  An outer `none` marks an absent
key.  Optimistic locking via `expectedUpdatedAt` compares `updated_at`
timestamps, which are outside this model, so it is not embedded. -/
structure WeekUpdates where
  title : Option String := none
  description : Option (Option String) := none
  unlockDate : Option (Option String) := none
  pages : Option (List PageView) := none
  deriving Repr, DecidableEq

/-- The body of the `updates.pages.map((pageData, i) => ...)` callback in
`updateWeek`: a page matched by `page_number` is updated in place (resources
and videos replaced, questions updated/inserted by `question_number` and the
excess ones deleted); an unmatched page is created with `createPage`. -/
def updateWeekPage (db : DB) (existingPages : List PageRow)
    (weekRecordId : Nat) (i : Nat) (pageData : PageView) : DB :=
  let pageNumber := i + 1
  match existingPages.find? (fun p => p.page_number = pageNumber) with
  | none => createPage db weekRecordId pageNumber pageData
  | some existingPage =>
    let db1 := updatePageRow db existingPage.id pageData.title
      pageData.type (jsOrNull pageData.content)
    let db2 := syncResourcesOfPage db1 existingPage.id pageData.resources
    let db3 := replaceVideosOfPage db2 existingPage.id pageData.videos
    let existingQList := sortByKey (fun q => q.question_number)
      (db3.questions.filter (fun q => q.page_id = existingPage.id))
    let db4 := reconcileQuestionsWith db3 existingPage.id existingQList
      pageData.questions
    if existingQList.length > pageData.questions.length then
      { db4 with questions := db4.questions.filter (fun q =>
          ¬ existingQList.any (fun exq =>
            exq.question_number > pageData.questions.length ∧ exq.id = q.id)) }
    else db4

/-- `updateWeek(moduleId, weekId, updates)`: resolve the week row by
`(module_id, week_number)`, update its basic columns, reconcile the provided
page list against the existing pages by `page_number`, and finally delete the
excess pages (`page_number > updates.pages.length`). -/
def updateWeek (db : DB) (moduleId weekId : Nat) (updates : WeekUpdates) :
    SyncResult × DB :=
  match singleRow (db.weeks.filter (fun w =>
      w.module_id = moduleId ∧ w.week_number = weekId)) with
  | none => (opError "Week not found" "NOT_FOUND", db)
  | some weekRecord =>
    let db0 : DB :=
      if updates.title.isSome ∨ updates.description.isSome ∨
          updates.unlockDate.isSome then
        { db with weeks := db.weeks.map (fun w =>
            if w.id = weekRecord.id then
              { w with title := updates.title.getD w.title,
                       description := updates.description.getD w.description,
                       unlock_date := updates.unlockDate.getD w.unlock_date }
            else w) }
      else db
    match updates.pages with
    | none => (opSuccess "Week updated successfully", db0)
    | some newPages =>
      let existingPages := sortByKey (fun p => p.page_number)
        (db0.pages.filter (fun p => p.week_id = weekRecord.id))
      let db1 := newPages.enum.foldl (fun db e =>
        updateWeekPage db existingPages weekRecord.id e.1 e.2) db0
      let db2 :=
        if existingPages.length > newPages.length then
          { db1 with pages := db1.pages.filter (fun p =>
              ¬ existingPages.any (fun ep =>
                ep.page_number > newPages.length ∧ ep.id = p.id)) }
        else db1
      (opSuccess "Week updated successfully", db2)

/-! ## Frame relations

`ContentFrame db db'` captures what a `syncWeekContent` run may do to the
store: it never touches the `modules`, `zoom_info`, `discussion_posts` or
`progress` tables, never inserts or deletes `weeks` or `pages` rows (their
id sequences are exactly preserved), and every pre-existing question row
survives with its identity (`id`, `page_id`, `question_number`) intact.
`StudentFrame` is the part of this that survives week creation as well, and
therefore holds of the whole `syncToActiveModule` run. -/

/-- Pre-existing question rows survive with identity intact. -/
def QuestionsKept (db db' : DB) : Prop :=
  ∀ q ∈ db.questions, ∃ q' ∈ db'.questions,
    q'.id = q.id ∧ q'.page_id = q.page_id ∧
    q'.question_number = q.question_number

/-- What `syncWeekContent` preserves. -/
def ContentFrame (db db' : DB) : Prop :=
  db'.discussion_posts = db.discussion_posts ∧
  db'.progress = db.progress ∧
  db'.modules = db.modules ∧
  db'.zoom_info = db.zoom_info ∧
  db'.weeks.map (fun w => w.id) = db.weeks.map (fun w => w.id) ∧
  db'.pages.map (fun p => p.id) = db.pages.map (fun p => p.id) ∧
  QuestionsKept db db'

/-- What `syncToActiveModule` preserves of student data. -/
def StudentFrame (db db' : DB) : Prop :=
  db'.discussion_posts = db.discussion_posts ∧
  db'.progress = db.progress ∧
  QuestionsKept db db'

theorem QuestionsKept.qkrefl (db : DB) : QuestionsKept db db :=
  fun q hq => ⟨q, hq, rfl, rfl, rfl⟩

theorem QuestionsKept.qktrans {a b c : DB}
    (h1 : QuestionsKept a b) (h2 : QuestionsKept b c) : QuestionsKept a c := by
  intro q hq
  obtain ⟨q1, hq1, e1, e2, e3⟩ := h1 q hq
  obtain ⟨q2, hq2, f1, f2, f3⟩ := h2 q1 hq1
  exact ⟨q2, hq2, by omega, by omega, by omega⟩

theorem ContentFrame.cfrefl (db : DB) : ContentFrame db db :=
  ⟨rfl, rfl, rfl, rfl, rfl, rfl, QuestionsKept.qkrefl db⟩

theorem ContentFrame.cftrans {a b c : DB}
    (h1 : ContentFrame a b) (h2 : ContentFrame b c) : ContentFrame a c := by
  obtain ⟨p1, p2, p3, p4, p5, p6, p7⟩ := h1
  obtain ⟨q1, q2, q3, q4, q5, q6, q7⟩ := h2
  exact ⟨q1.trans p1, q2.trans p2, q3.trans p3, q4.trans p4,
         q5.trans p5, q6.trans p6, p7.qktrans q7⟩

theorem StudentFrame.sfrefl (db : DB) : StudentFrame db db :=
  ⟨rfl, rfl, QuestionsKept.qkrefl db⟩

theorem StudentFrame.sftrans {a b c : DB}
    (h1 : StudentFrame a b) (h2 : StudentFrame b c) : StudentFrame a c := by
  obtain ⟨p1, p2, p3⟩ := h1
  obtain ⟨q1, q2, q3⟩ := h2
  exact ⟨q1.trans p1, q2.trans p2, p3.qktrans q3⟩

theorem ContentFrame.toStudent {a b : DB} (h : ContentFrame a b) :
    StudentFrame a b :=
  ⟨h.1, h.2.1, h.2.2.2.2.2.2⟩

/-- A reflexive-transitive invariant holds of a `foldl` whenever each step
preserves it. -/
theorem foldl_invariant {α β : Type} (R : β → β → Prop)
    (hrefl : ∀ b, R b b) (htrans : ∀ a b c, R a b → R b c → R a c)
    (f : β → α → β) (l : List α) (b : β)
    (step : ∀ b a, a ∈ l → R b (f b a)) : R b (l.foldl f b) := by
  induction l generalizing b with
  | nil => exact hrefl b
  | cons x xs ih =>
    exact htrans _ _ _ (step b x (by simp))
      (ih _ (fun b a h => step b a (by simp [h])))

/-! ## Frame lemmas for the individual storage operations -/

theorem insertResources_frame (db : DB) (pid : Nat) (rs : List ResourceView) :
    ContentFrame db (insertResources db pid rs) :=
  ⟨rfl, rfl, rfl, rfl, rfl, rfl, QuestionsKept.qkrefl db⟩

theorem insertVideosSynced_frame (db : DB) (pid : Nat) (vs : List VideoView) :
    ContentFrame db (insertVideosSynced db pid vs) :=
  ⟨rfl, rfl, rfl, rfl, rfl, rfl, QuestionsKept.qkrefl db⟩

theorem insertVideosCreated_frame (db : DB) (pid : Nat) (vs : List VideoView) :
    ContentFrame db (insertVideosCreated db pid vs) :=
  ⟨rfl, rfl, rfl, rfl, rfl, rfl, QuestionsKept.qkrefl db⟩

theorem insertQuestionRows_frame (db : DB) (pid : Nat)
    (qs : List (Nat × QuestionView)) :
    ContentFrame db (insertQuestionRows db pid qs) := by
  unfold insertQuestionRows
  split
  · exact ⟨rfl, rfl, rfl, rfl, rfl, rfl, fun q hq => ⟨q, by simp [hq], rfl, rfl, rfl⟩⟩
  · exact ContentFrame.cfrefl db

theorem updatePageRow_frame (db : DB) (pageId : Nat) (title ty : String)
    (content : Option String) :
    ContentFrame db (updatePageRow db pageId title ty content) := by
  refine ⟨rfl, rfl, rfl, rfl, rfl, ?_, QuestionsKept.qkrefl db⟩
  show (db.pages.map _).map _ = _
  rw [List.map_map]
  apply List.map_congr_left
  intro p _
  by_cases h : p.id = pageId <;> simp [h]

theorem syncResourcesOfPage_frame (db : DB) (pageId : Nat)
    (rs : List ResourceView) :
    ContentFrame db (syncResourcesOfPage db pageId rs) := by
  unfold syncResourcesOfPage
  have base : ContentFrame db
      { db with resources := db.resources.filter (fun r =>
          ¬ r.page_id = pageId) } :=
    ⟨rfl, rfl, rfl, rfl, rfl, rfl, QuestionsKept.qkrefl db⟩
  split
  · exact base.cftrans (insertResources_frame _ _ _)
  · exact base

theorem syncVideosOfPage_frame (db : DB) (pageId : Nat)
    (vs : List VideoView) :
    ContentFrame db (syncVideosOfPage db pageId vs) := by
  unfold syncVideosOfPage
  have base : ContentFrame db
      { db with videos := db.videos.filter (fun v =>
          ¬ v.page_id = pageId) } :=
    ⟨rfl, rfl, rfl, rfl, rfl, rfl, QuestionsKept.qkrefl db⟩
  split
  · exact base.cftrans (insertVideosSynced_frame _ _ _)
  · exact base

theorem updateQuestionText_frame (db : DB) (qid : Nat) (text : String) :
    ContentFrame db (updateQuestionText db qid text) := by
  refine ⟨rfl, rfl, rfl, rfl, rfl, rfl, ?_⟩
  intro q hq
  refine ⟨if q.id = qid then { q with text := text } else q, ?_, ?_⟩
  · show _ ∈ db.questions.map _
    exact List.mem_map_of_mem _ hq
  · by_cases h : q.id = qid <;> simp [h]

theorem reconcileQuestionsWith_frame (db : DB) (pageId : Nat)
    (exqs : List QuestionRow) (tqs : List QuestionView) :
    ContentFrame db (reconcileQuestionsWith db pageId exqs tqs) := by
  unfold reconcileQuestionsWith
  refine ContentFrame.cftrans ?_ (insertQuestionRows_frame _ _ _)
  apply foldl_invariant ContentFrame ContentFrame.cfrefl
    (fun a b c => ContentFrame.cftrans)
  intro b e _
  cases exqs.find? (fun q => q.question_number = e.1 + 1) with
  | none => exact ContentFrame.cfrefl b
  | some existingQ => exact updateQuestionText_frame b existingQ.id e.2.text

theorem reconcileQuestions_frame (db : DB) (pageId : Nat)
    (tqs : List QuestionView) :
    ContentFrame db (reconcileQuestions db pageId tqs) :=
  reconcileQuestionsWith_frame db pageId _ tqs

theorem syncPageContent_frame (db : DB) (tp : PageView) (ap : PageRow) :
    ContentFrame db (syncPageContent db tp ap) :=
  (((updatePageRow_frame db ap.id tp.title tp.type tp.content).cftrans
    (syncResourcesOfPage_frame _ ap.id tp.resources)).cftrans
    (syncVideosOfPage_frame _ ap.id tp.videos)).cftrans
    (reconcileQuestions_frame _ ap.id tp.questions)

theorem updateActiveWeekRow_frame (db : DB) (mid wn : Nat) (tw : WeekView) :
    ContentFrame db (updateActiveWeekRow db mid wn tw) := by
  refine ⟨rfl, rfl, rfl, rfl, ?_, rfl, QuestionsKept.qkrefl db⟩
  show (db.weeks.map _).map _ = _
  rw [List.map_map]
  apply List.map_congr_left
  intro w _
  by_cases h : w.module_id = mid ∧ w.week_number = wn <;> simp [h]

/-- The central frame property of `syncWeekContent`: it never touches
`modules`, `zoom_info`, `discussion_posts` or `progress`, never creates or
deletes a week or page row, and every pre-existing question row survives
with its identity. -/
theorem syncWeekContent_frame (db : DB) (tw aw : WeekView) (mid : Nat) :
    ContentFrame db (syncWeekContent db tw aw mid) := by
  unfold syncWeekContent
  refine ContentFrame.cftrans (updateActiveWeekRow_frame db mid aw.id tw) ?_
  dsimp only
  split
  · exact ContentFrame.cfrefl _
  · apply foldl_invariant ContentFrame ContentFrame.cfrefl
      (fun a b c => ContentFrame.cftrans)
    intro b e _
    cases h : (sortByKey (fun p => p.page_number)
        (List.filter _ (updateActiveWeekRow db mid aw.id tw).pages))[e.1]? with
    | none => simp [h]; exact ContentFrame.cfrefl b
    | some activePage => simp [h]; exact syncPageContent_frame b e.2 activePage

theorem updateModule_frame (db : DB) (mid : Nat) (u : ModuleUpdates) :
    StudentFrame db (updateModule db mid u) :=
  ⟨rfl, rfl, QuestionsKept.qkrefl db⟩

theorem updateZoomInfo_frame (db : DB) (mid : Nat) (z : ZoomView) :
    StudentFrame db (updateZoomInfo db mid z) := by
  unfold updateZoomInfo
  split
  · exact ⟨rfl, rfl, QuestionsKept.qkrefl db⟩
  · exact ⟨rfl, rfl, QuestionsKept.qkrefl db⟩

/-- `StudentFrame` from the three component facts, with question rows kept
verbatim. -/
theorem StudentFrame.of_eq {a b : DB}
    (hp : b.discussion_posts = a.discussion_posts)
    (hg : b.progress = a.progress)
    (hq : ∀ q ∈ a.questions, q ∈ b.questions) : StudentFrame a b :=
  ⟨hp, hg, fun q hq' => ⟨q, hq q hq', rfl, rfl, rfl⟩⟩

theorem createPage_frame (db : DB) (weekId pageNumber : Nat)
    (pageData : PageView) :
    StudentFrame db (createPage db weekId pageNumber pageData) := by
  unfold createPage insertPageRow insertQuestionsAt insertResources
    insertVideosCreated
  dsimp only
  split <;> split <;> split <;>
    exact StudentFrame.of_eq rfl rfl (fun q h => by simp [h])

theorem weekAppend_frame (db : DB) (w : WeekRow) (n : Nat) :
    StudentFrame db { db with weeks := db.weeks ++ [w], nextId := n } :=
  StudentFrame.of_eq rfl rfl (fun _ h => h)

theorem createWeekWithNumber_frame (db : DB) (mid wn : Nat) (wd : WeekData) :
    StudentFrame db (createWeekWithNumber db mid wn wd) := by
  unfold createWeekWithNumber
  dsimp only
  refine StudentFrame.sftrans (weekAppend_frame db
    { id := db.nextId, module_id := mid, week_number := wn,
      title := wd.title, description := jsOrNull wd.description,
      unlock_date := jsOrNull wd.unlockDate } (db.nextId + 1)) ?_
  apply foldl_invariant StudentFrame StudentFrame.sfrefl
    (fun a b c => StudentFrame.sftrans)
  intro b e _
  exact createPage_frame b _ _ e.2

theorem syncZoomStep_frame (db : DB) (t a : Nat) :
    StudentFrame db (syncZoomStep db t a) := by
  unfold syncZoomStep
  cases getZoomInfo db t with
  | none => exact StudentFrame.sfrefl db
  | some tz => exact updateZoomInfo_frame db a tz

theorem syncWeeksStep_frame (db : DB) (a : Nat)
    (tws aws : List WeekView) : StudentFrame db (syncWeeksStep db a tws aws) := by
  apply foldl_invariant StudentFrame StudentFrame.sfrefl
    (fun a b c => StudentFrame.sftrans)
  intro b tw _
  cases jsMapGet (fun aw => aw.id) tw.id aws with
  | some aw => exact (syncWeekContent_frame b tw aw a).toStudent
  | none => exact createWeekWithNumber_frame b a tw.id _

theorem syncModuleContent_frame (db : DB) (t a : Nat) (tv : ModuleView) :
    StudentFrame db (syncModuleContent db t a tv) :=
  StudentFrame.sftrans (updateModule_frame db a _)
    (StudentFrame.sftrans (syncZoomStep_frame _ t a)
      (syncWeeksStep_frame _ a _ _))

/-- `syncToActiveModule` never writes the `discussion_posts` or `progress`
tables, and every pre-existing question row survives with its identity
(`id`, `page_id`, `question_number`). -/
theorem syncToActiveModule_frame (db : DB) (t a : Nat) :
    StudentFrame db (syncToActiveModule db t a).2 := by
  unfold syncToActiveModule
  cases getModule db t with
  | none => exact StudentFrame.sfrefl db
  | some template =>
    dsimp only
    split
    · exact StudentFrame.sfrefl db
    · cases getModule db a with
      | none => exact StudentFrame.sfrefl db
      | some activeModule =>
        dsimp only
        split
        · exact StudentFrame.sfrefl db
        · exact syncModuleContent_frame db t a template

/-! ## A concrete store

`dbEx` realises the spec's concrete scenario: a draft template (module 1)
with weeks 1 "Intro" and 2 "Ethics", and a launched active module (module 2)
with only week 1, titled "Intro (old)".  The template's week-1 page carries a
question, a resource and a video with a duration; the active week-1 page has
its own question with one discussion post, an old resource and an old video,
and one progress row. -/

def dbEx : DB :=
  { modules := [
      { id := 1, title := "Intro", description := some "td",
        instructor := some "ti", duration := some "4w",
        participation := some "tp", time_expectations := some "tt",
        status := "draft", template_id := none, launched_at := none,
        archived_at := none },
      { id := 2, title := "Old title", description := some "ad",
        instructor := none, duration := none, participation := none,
        time_expectations := none, status := "launched",
        template_id := some 1, launched_at := some "LA",
        archived_at := none } ]
    zoom_info := [
      { module_id := 1, url := some "zoom.example/t", meeting_id := some "123",
        passcode := none, day := some "Mon", time := some "10:00",
        timezone := none } ]
    weeks := [
      { id := 10, module_id := 1, week_number := 1, title := "Intro",
        description := some "wd1", unlock_date := none },
      { id := 11, module_id := 1, week_number := 2, title := "Ethics",
        description := none, unlock_date := some "2026-01-01" },
      { id := 20, module_id := 2, week_number := 1, title := "Intro (old)",
        description := some "old wd", unlock_date := none } ]
    pages := [
      { id := 30, week_id := 10, page_number := 1, title := "TP1",
        type := "discussion", content := some "tc" },
      { id := 31, week_id := 11, page_number := 1, title := "TP2",
        type := "reading", content := none },
      { id := 40, week_id := 20, page_number := 1, title := "AP1",
        type := "intro", content := some "ac" } ]
    questions := [
      { id := 50, page_id := 30, question_number := 1, text := "TQ1" },
      { id := 51, page_id := 31, question_number := 1, text := "TQ2" },
      { id := 60, page_id := 40, question_number := 1, text := "AQ1 old" } ]
    resources := [
      { id := 70, page_id := 30, title := "TR", url := some "tu",
        description := some "trd", sort_order := 0 },
      { id := 80, page_id := 40, title := "AR old", url := none,
        description := none, sort_order := 0 } ]
    videos := [
      { id := 71, page_id := 30, title := "TV", url := "tvu",
        description := none, duration := some "12:00", sort_order := 0 },
      { id := 81, page_id := 40, title := "AV old", url := "au",
        description := none, duration := some "old", sort_order := 0 } ]
    discussion_posts := [
      { id := 90, question_id := 60, user_id := 7, parent_id := none,
        content := "a post", is_deleted := false } ]
    progress := [
      { id := 91, user_id := 7, week_id := 20, current_page := 1,
        completed := false, completed_at := none } ]
    nextId := 100 }

/-- The `getModule` view of `dbEx`'s template module. -/
def dbExTemplateView : ModuleView :=
  { id := 1, title := "Intro", description := some "td",
    instructor := some "ti", duration := some "4w",
    participation := some "tp", timeExpectations := some "tt",
    status := "draft", templateId := none, launchedAt := none,
    archivedAt := none }

/-- The `getModule` view of `dbEx`'s active module. -/
def dbExActiveView : ModuleView :=
  { id := 2, title := "Old title", description := some "ad",
    instructor := none, duration := none, participation := none,
    timeExpectations := none, status := "launched", templateId := some 1,
    launchedAt := some "LA", archivedAt := none }

/-- A store for the page-reconciliation counterexample: the template
(module 1) has week 1 (row 10, one page, row 30) and week 2 (row 11, one
page, row 31); the active module 2 has week 1 (row 20, NO pages) and week 2
(row 21, TWO pages, rows 40 and 41). -/
def dbC1 : DB :=
  { modules := [
      { id := 1, title := "T", description := none, instructor := none,
        duration := none, participation := none, time_expectations := none,
        status := "draft", template_id := none, launched_at := none,
        archived_at := none },
      { id := 2, title := "A", description := none, instructor := none,
        duration := none, participation := none, time_expectations := none,
        status := "launched", template_id := some 1,
        launched_at := some "LA", archived_at := none } ]
    zoom_info := []
    weeks := [
      { id := 10, module_id := 1, week_number := 1, title := "T1",
        description := none, unlock_date := none },
      { id := 11, module_id := 1, week_number := 2, title := "T2",
        description := none, unlock_date := none },
      { id := 20, module_id := 2, week_number := 1, title := "A1",
        description := none, unlock_date := none },
      { id := 21, module_id := 2, week_number := 2, title := "A2",
        description := none, unlock_date := none } ]
    pages := [
      { id := 30, week_id := 10, page_number := 1, title := "TP1",
        type := "reading", content := none },
      { id := 31, week_id := 11, page_number := 1, title := "TP2",
        type := "reading", content := none },
      { id := 40, week_id := 21, page_number := 1, title := "AP1",
        type := "reading", content := none },
      { id := 41, week_id := 21, page_number := 2, title := "AP2 extra",
        type := "intro", content := some "kept" } ]
    questions := []
    resources := []
    videos := []
    discussion_posts := []
    progress := []
    nextId := 100 }

/-- C1, counterexample.  In `dbC1` the template week 1 has a page at index 0
while the matched active week 1 (week row 20) has no page at index 0, yet
after a successful sync the active week still has zero pages — no page was
created.  And the matched active week 2 (week row 21) has two pages while
the template week 2 has only one, yet both active pages survive — the excess
page was not deleted.  This refutes both halves of the claim. -/
theorem C1_counterexample :
    (syncToActiveModule dbC1 1 2).1.success = true ∧
    (dbC1.pages.filter (fun p => p.week_id = 10)).length = 1 ∧
    (dbC1.pages.filter (fun p => p.week_id = 20)).length = 0 ∧
    ((syncToActiveModule dbC1 1 2).2.pages.filter
        (fun p => p.week_id = 20)).length = 0 ∧
    (dbC1.pages.filter (fun p => p.week_id = 11)).length = 1 ∧
    (dbC1.pages.filter (fun p => p.week_id = 21)).length = 2 ∧
    ((syncToActiveModule dbC1 1 2).2.pages.filter
        (fun p => p.week_id = 21)).length = 2 := by decide

/-- C1, amended.  `syncWeekContent` neither creates nor deletes page rows:
the active `pages` table keeps exactly the same row ids in the same order
(a template page whose index has no active page is skipped, and active
pages beyond the template's page-list length are left in place); only
fields of existing pages are updated. -/
theorem C1_sync_pages_update_only (db : DB) (tw aw : WeekView) (mid : Nat) :
    (syncWeekContent db tw aw mid).pages.map (fun p => p.id) =
      db.pages.map (fun p => p.id) :=
  (syncWeekContent_frame db tw aw mid).2.2.2.2.2.1

/-- C2, counterexample.  A successful `syncToActiveModule` run returns
`success(null, message)`: the `data` payload is `null`, so the returned
value contains no summary of per-type updated/created counts and no list of
collected sub-operation errors. -/
theorem C2_counterexample :
    (syncToActiveModule dbEx 1 2).1 =
      opSuccess "Template synced to active module successfully" ∧
    (syncToActiveModule dbEx 1 2).1.data = none := by decide

/-- C2, amended.  Whenever the preconditions pass, `syncToActiveModule`
returns exactly `success(null, 'Template synced to active module
successfully')` — a success flag and a message, with no per-entity-type
counts and no collected error list in the result. -/
theorem C2_success_result_shape (db : DB) (t a : Nat) (tv av : ModuleView)
    (h1 : getModule db t = some tv) (h2 : tv.status = "draft")
    (h3 : getModule db a = some av) (h4 : av.status = "launched") :
    (syncToActiveModule db t a).1 =
      opSuccess "Template synced to active module successfully" := by
  unfold syncToActiveModule
  rw [h1]
  dsimp only
  rw [if_neg (by simp [h2])]
  rw [h3]
  dsimp only
  rw [if_neg (by simp [h4])]

/-- Witness for C2's amended theorem at the concrete store `dbEx`. -/
theorem C2_success_result_shape_witness :
    (syncToActiveModule dbEx 1 2).1 =
      opSuccess "Template synced to active module successfully" :=
  C2_success_result_shape dbEx 1 2 dbExTemplateView dbExActiveView
    (by decide) rfl (by decide) rfl

/-- C3, counterexample.  Both runs succeed, yet the second run does not
keep the same row identities: the resource rows of the active page are
deleted and re-inserted, so their ids change between the first and the
second run (and likewise for videos). -/
theorem C3_counterexample :
    (syncToActiveModule dbEx 1 2).1.success = true ∧
    (syncToActiveModule (syncToActiveModule dbEx 1 2).2 1 2).1.success = true ∧
    (syncToActiveModule (syncToActiveModule dbEx 1 2).2 1 2).2.resources.map
        (fun r => r.id) ≠
      (syncToActiveModule dbEx 1 2).2.resources.map (fun r => r.id) := by decide

/-- Concrete complement to the idempotence analysis (the general statement
is the C3 theorem below).  Sync never mutates the `discussion_posts` or
`progress` tables on any run (first part, fully general), and at the store
`dbEx` re-running sync reproduces the same field values and the same row
identities for modules, weeks, pages, questions and zoom info and identical
resource/video row contents — but the resource and video rows themselves
are re-created, so their row identities are not preserved. -/
theorem C3_idempotent_except_media_rows :
    (∀ (db : DB) (t a : Nat),
        (syncToActiveModule db t a).2.discussion_posts =
          db.discussion_posts ∧
        (syncToActiveModule db t a).2.progress = db.progress) ∧
    ((syncToActiveModule (syncToActiveModule dbEx 1 2).2 1 2).2.modules =
        (syncToActiveModule dbEx 1 2).2.modules ∧
      (syncToActiveModule (syncToActiveModule dbEx 1 2).2 1 2).2.weeks =
        (syncToActiveModule dbEx 1 2).2.weeks ∧
      (syncToActiveModule (syncToActiveModule dbEx 1 2).2 1 2).2.pages =
        (syncToActiveModule dbEx 1 2).2.pages ∧
      (syncToActiveModule (syncToActiveModule dbEx 1 2).2 1 2).2.questions =
        (syncToActiveModule dbEx 1 2).2.questions ∧
      (syncToActiveModule (syncToActiveModule dbEx 1 2).2 1 2).2.zoom_info =
        (syncToActiveModule dbEx 1 2).2.zoom_info ∧
      (syncToActiveModule (syncToActiveModule dbEx 1 2).2 1 2).2.resources.map
          (fun r => (r.page_id, r.title, r.url, r.description, r.sort_order)) =
        (syncToActiveModule dbEx 1 2).2.resources.map
          (fun r => (r.page_id, r.title, r.url, r.description, r.sort_order)) ∧
      (syncToActiveModule (syncToActiveModule dbEx 1 2).2 1 2).2.videos.map
          (fun v => (v.page_id, v.title, v.url, v.description, v.duration,
            v.sort_order)) =
        (syncToActiveModule dbEx 1 2).2.videos.map
          (fun v => (v.page_id, v.title, v.url, v.description, v.duration,
            v.sort_order))) := by
  constructor
  · intro db t a
    exact ⟨(syncToActiveModule_frame db t a).1,
           (syncToActiveModule_frame db t a).2.1⟩
  · exact ⟨by decide, by decide, by decide, by decide, by decide,
           by decide, by decide⟩

/-- C9 (code bug).  The template page (row 30) carries a video with duration
"12:00"; after a successful sync the matched active page (row 40) has its
resources replaced by an exact copy of the template's, but its video row,
although freshly inserted from the template, has `duration = null`: the
insert in `syncWeekContent` maps `v.description` (a field the video view
does not have) and omits `duration`, so the synced videos are not exactly
the template page's videos. -/
theorem C9_video_duration_dropped :
    (syncToActiveModule dbEx 1 2).1.success = true ∧
    ((syncToActiveModule dbEx 1 2).2.resources.filter
        (fun r => r.page_id = 40)).map
        (fun r => (r.title, r.url, r.description, r.sort_order)) =
      (dbEx.resources.filter (fun r => r.page_id = 30)).map
        (fun r => (r.title, r.url, r.description, r.sort_order)) ∧
    (dbEx.videos.filter (fun v => v.page_id = 30)).map
        (fun v => (v.title, v.url, v.duration)) =
      [("TV", "tvu", some "12:00")] ∧
    ((syncToActiveModule dbEx 1 2).2.videos.filter
        (fun v => v.page_id = 40)).map
        (fun v => (v.title, v.url, v.duration)) =
      [("TV", "tvu", none)] := by decide

/-- C4.  Sync never mutates student data: for every question row of the
store that has at least one discussion post, after `syncToActiveModule` a
question row with the same row id, the same `question_number` (ordinal
identity) and the same page still exists; the `discussion_posts` table is
unchanged (so the posts are still attached to that question row), and the
`progress` table is byte-identical — sync never writes to either table. -/
theorem C4_student_data_preserved (db : DB) (t a : Nat) (q : QuestionRow)
    (hq : q ∈ db.questions)
    (_hpost : ∃ p ∈ db.discussion_posts, p.question_id = q.id) :
    (∃ q' ∈ (syncToActiveModule db t a).2.questions,
        q'.id = q.id ∧ q'.question_number = q.question_number ∧
        q'.page_id = q.page_id) ∧
    (syncToActiveModule db t a).2.discussion_posts = db.discussion_posts ∧
    (syncToActiveModule db t a).2.progress = db.progress := by
  obtain ⟨hp, hg, hk⟩ := syncToActiveModule_frame db t a
  obtain ⟨q', hmem, e1, e2, e3⟩ := hk q hq
  exact ⟨⟨q', hmem, e1, e3, e2⟩, hp, hg⟩

/-- Witness for C4 at `dbEx`: the active question row 60 (which has a
discussion post) survives the sync with its identity, posts and progress
intact. -/
theorem C4_student_data_preserved_witness :
    (∃ q' ∈ (syncToActiveModule dbEx 1 2).2.questions,
        q'.id = 60 ∧ q'.question_number = 1 ∧ q'.page_id = 40) ∧
    (syncToActiveModule dbEx 1 2).2.discussion_posts =
      dbEx.discussion_posts ∧
    (syncToActiveModule dbEx 1 2).2.progress = dbEx.progress :=
  C4_student_data_preserved dbEx 1 2
    { id := 60, page_id := 40, question_number := 1, text := "AQ1 old" }
    (by decide)
    ⟨{ id := 90, question_id := 60, user_id := 7, parent_id := none,
       content := "a post", is_deleted := false }, by decide, rfl⟩

/-- C5.  If the template does not exist, the template is not a draft, the
active module does not exist, or the active module is not launched, then
`syncToActiveModule` returns a typed failure (`NOT_FOUND` or
`INVALID_STATUS`) and the store is completely unchanged — the precondition
checks run before any write. -/
theorem C5_preconditions_fail_fast (db : DB) (t a : Nat)
    (h : ¬ ((getModule db t).map (fun m => m.status) = some "draft" ∧
            (getModule db a).map (fun m => m.status) = some "launched")) :
    (syncToActiveModule db t a).1.success = false ∧
    ((syncToActiveModule db t a).1.errorCode = some "NOT_FOUND" ∨
     (syncToActiveModule db t a).1.errorCode = some "INVALID_STATUS") ∧
    (syncToActiveModule db t a).2 = db := by
  unfold syncToActiveModule
  cases h1 : getModule db t with
  | none => exact ⟨rfl, Or.inl rfl, rfl⟩
  | some tv =>
    dsimp only
    by_cases h2 : tv.status = "draft"
    · rw [if_neg (by simp [h2])]
      cases h3 : getModule db a with
      | none => exact ⟨rfl, Or.inl rfl, rfl⟩
      | some av =>
        dsimp only
        by_cases h4 : av.status = "launched"
        · exact absurd ⟨by rw [h1]; simp [h2], by rw [h3]; simp [h4]⟩ h
        · rw [if_pos (by simp [h4])]
          exact ⟨rfl, Or.inr rfl, rfl⟩
    · rw [if_pos (by simp [h2])]
      exact ⟨rfl, Or.inr rfl, rfl⟩

/-- Witness for C5: syncing with the launched module 2 as the source fails
the draft check, returns `INVALID_STATUS` and leaves `dbEx` untouched. -/
theorem C5_preconditions_fail_fast_witness :
    (syncToActiveModule dbEx 2 2).1.success = false ∧
    ((syncToActiveModule dbEx 2 2).1.errorCode = some "NOT_FOUND" ∨
     (syncToActiveModule dbEx 2 2).1.errorCode = some "INVALID_STATUS") ∧
    (syncToActiveModule dbEx 2 2).2 = dbEx :=
  C5_preconditions_fail_fast dbEx 2 2 (by decide)

/-- C6.  `dbEx` is exactly the spec's concrete scenario: the template has
weeks 1 "Intro" and 2 "Ethics"; the active module has only week 1, titled
"Intro (old)" (different title, different row id — row 20 versus the
template's row 10).  After sync the active module has exactly two weeks;
its week 1 is the SAME row 20 (matched purely by week number), now titled
"Intro"; and week 2 is a newly created row (an id no pre-existing week had)
titled "Ethics", with no progress row and no discussion post anywhere under
it. -/
theorem C6_weeks_matched_by_number :
    (syncToActiveModule dbEx 1 2).1.success = true ∧
    ((syncToActiveModule dbEx 1 2).2.weeks.filter
        (fun w => w.module_id = 2)).length = 2 ∧
    (∃ w ∈ (syncToActiveModule dbEx 1 2).2.weeks,
        w.id = 20 ∧ w.module_id = 2 ∧ w.week_number = 1 ∧
        w.title = "Intro") ∧
    (∃ w ∈ (syncToActiveModule dbEx 1 2).2.weeks,
        w.module_id = 2 ∧ w.week_number = 2 ∧ w.title = "Ethics" ∧
        ¬ w.id ∈ dbEx.weeks.map (fun x => x.id) ∧
        (syncToActiveModule dbEx 1 2).2.progress.filter
          (fun pr => pr.week_id = w.id) = [] ∧
        ∀ p ∈ (syncToActiveModule dbEx 1 2).2.pages, p.week_id = w.id →
          ∀ q ∈ (syncToActiveModule dbEx 1 2).2.questions, q.page_id = p.id →
            (syncToActiveModule dbEx 1 2).2.discussion_posts.filter
              (fun po => po.question_id = q.id) = []) := by
  refine ⟨by decide, by decide, by decide, ?_⟩
  decide

/-! Module-table preservation lemmas: nothing in the week pipeline ever
writes the `modules` table. -/

theorem createPage_modules (db : DB) (w n : Nat) (p : PageView) :
    (createPage db w n p).modules = db.modules := by
  unfold createPage insertPageRow insertQuestionsAt insertResources
    insertVideosCreated
  dsimp only
  split <;> split <;> split <;> rfl

theorem createWeekWithNumber_modules (db : DB) (mid wn : Nat)
    (wd : WeekData) :
    (createWeekWithNumber db mid wn wd).modules = db.modules := by
  unfold createWeekWithNumber
  dsimp only
  exact foldl_invariant (fun a b : DB => b.modules = a.modules) (fun _ => rfl)
    (fun a b c h1 h2 => by exact h2.trans h1) _ wd.pages.enum _
    (fun b e _ => createPage_modules b _ _ e.2)

theorem syncZoomStep_modules (db : DB) (t a : Nat) :
    (syncZoomStep db t a).modules = db.modules := by
  unfold syncZoomStep
  cases getZoomInfo db t with
  | none => rfl
  | some tz =>
    show (updateZoomInfo db a tz).modules = db.modules
    unfold updateZoomInfo
    dsimp only
    split <;> rfl

theorem syncWeeksStep_modules (db : DB) (a : Nat)
    (tws aws : List WeekView) :
    (syncWeeksStep db a tws aws).modules = db.modules := by
  unfold syncWeeksStep
  apply foldl_invariant (fun a b : DB => b.modules = a.modules) (fun _ => rfl)
    (fun a b c h1 h2 => by exact h2.trans h1)
  intro b tw _
  cases jsMapGet (fun aw => aw.id) tw.id aws with
  | some aw => exact (syncWeekContent_frame b tw aw a).2.2.1
  | none => exact createWeekWithNumber_modules b a tw.id _

/-- C7.  The module-level merge of `syncToActiveModule` rewrites the active
module row with exactly the six template-owned fields set to the template's
values; its `status`, `template_id`, `launched_at`, `archived_at` and row
identity are untouched (they are carried over by the `{ m with ... }`
update), and every other module row is untouched — and nothing later in the
sync pipeline writes the `modules` table. -/
theorem C7_module_merge (db : DB) (t a : Nat) (tv av : ModuleView)
    (h1 : getModule db t = some tv) (h2 : tv.status = "draft")
    (h3 : getModule db a = some av) (h4 : av.status = "launched") :
    (syncToActiveModule db t a).2.modules = db.modules.map (fun m =>
      if m.id = a then
        { m with title := tv.title, description := tv.description,
                 instructor := tv.instructor, duration := tv.duration,
                 participation := tv.participation,
                 time_expectations := tv.timeExpectations }
      else m) := by
  unfold syncToActiveModule
  rw [h1]
  dsimp only
  rw [if_neg (by simp [h2])]
  rw [h3]
  dsimp only
  rw [if_neg (by simp [h4])]
  show (syncModuleContent db t a tv).modules = _
  unfold syncModuleContent
  dsimp only
  rw [syncWeeksStep_modules, syncZoomStep_modules]
  unfold syncModuleInfoStep updateModule
  dsimp only
  apply List.map_congr_left
  intro m _
  by_cases h : m.id = a <;> simp [h, applyModuleUpdates]

/-- Witness for C7 at `dbEx`. -/
theorem C7_module_merge_witness :
    (syncToActiveModule dbEx 1 2).2.modules = dbEx.modules.map (fun m =>
      if m.id = 2 then
        { m with title := dbExTemplateView.title,
                 description := dbExTemplateView.description,
                 instructor := dbExTemplateView.instructor,
                 duration := dbExTemplateView.duration,
                 participation := dbExTemplateView.participation,
                 time_expectations := dbExTemplateView.timeExpectations }
      else m) :=
  C7_module_merge dbEx 1 2 dbExTemplateView dbExActiveView
    (by decide) rfl (by decide) rfl

/-- A store for the shrink contrast: the template page (row 30) has ONE
question; the matched active page (row 40) has TWO (rows 60 and 61, the
second with a discussion post), and the active week also has an extra page
(row 41) beyond the template's single page. -/
def dbC10 : DB :=
  { modules := [
      { id := 1, title := "T", description := none, instructor := none,
        duration := none, participation := none, time_expectations := none,
        status := "draft", template_id := none, launched_at := none,
        archived_at := none },
      { id := 2, title := "A", description := none, instructor := none,
        duration := none, participation := none, time_expectations := none,
        status := "launched", template_id := some 1,
        launched_at := some "LA", archived_at := none } ]
    zoom_info := []
    weeks := [
      { id := 10, module_id := 1, week_number := 1, title := "T1",
        description := none, unlock_date := none },
      { id := 20, module_id := 2, week_number := 1, title := "A1",
        description := none, unlock_date := none } ]
    pages := [
      { id := 30, week_id := 10, page_number := 1, title := "TP1",
        type := "discussion", content := none },
      { id := 40, week_id := 20, page_number := 1, title := "AP1",
        type := "discussion", content := none },
      { id := 41, week_id := 20, page_number := 2, title := "AP2 extra",
        type := "intro", content := none } ]
    questions := [
      { id := 50, page_id := 30, question_number := 1, text := "TQ1 new" },
      { id := 60, page_id := 40, question_number := 1, text := "AQ1" },
      { id := 61, page_id := 40, question_number := 2, text := "extra Q" } ]
    resources := []
    videos := []
    discussion_posts := [
      { id := 90, question_id := 61, user_id := 7, parent_id := none,
        content := "post on extra question", is_deleted := false } ]
    progress := []
    nextId := 100 }

/-- The `updateWeek` payload used for the C10 contrast: one page with one
question, against an active week that has two pages and a two-question
first page. -/
def c10Update : WeekUpdates :=
  { pages := some [
      { title := "NP", type := "reading", content := none,
        questions := [{ id := 1, text := "NQ" }], resources := [],
        videos := [] }] }

/-- C10.  First (general): `syncWeekContent` never deletes week, page or
question rows — week and page id sequences are preserved exactly, every
question row survives with its identity, and `discussion_posts` is
untouched (its only deletes target `resources` and `videos`).  Second (at
`dbC10`): when the template page has fewer questions than the matched
active page, the excess active question (row 61, `question_number` 2 with
its discussion post) survives a full sync verbatim, and the extra active
page (row 41) survives too.  Third: the admin editing path `updateWeek`,
given the same single-page/single-question shape, DOES delete the excess
page row 41 and the excess question row 61. -/
theorem C10_sync_deletes_only_media :
    (∀ (db : DB) (tw aw : WeekView) (mid : Nat),
        (syncWeekContent db tw aw mid).weeks.map (fun w => w.id) =
          db.weeks.map (fun w => w.id) ∧
        (syncWeekContent db tw aw mid).pages.map (fun p => p.id) =
          db.pages.map (fun p => p.id) ∧
        QuestionsKept db (syncWeekContent db tw aw mid) ∧
        (syncWeekContent db tw aw mid).discussion_posts =
          db.discussion_posts) ∧
    ((syncToActiveModule dbC10 1 2).1.success = true ∧
      (∃ q ∈ (syncToActiveModule dbC10 1 2).2.questions,
        q.id = 61 ∧ q.question_number = 2 ∧ q.page_id = 40 ∧
        q.text = "extra Q") ∧
      (∃ p ∈ (syncToActiveModule dbC10 1 2).2.pages,
        p.id = 41 ∧ p.week_id = 20) ∧
      (syncToActiveModule dbC10 1 2).2.discussion_posts =
        dbC10.discussion_posts) ∧
    ((updateWeek dbC10 2 1 c10Update).2.pages.map (fun p => p.id) =
        [30, 40] ∧
      ¬ 61 ∈ (updateWeek dbC10 2 1 c10Update).2.questions.map
          (fun q => q.id)) := by
  refine ⟨?_, ⟨by decide, by decide, by decide, by decide⟩,
    by decide, by decide⟩
  intro db tw aw mid
  have h := syncWeekContent_frame db tw aw mid
  exact ⟨h.2.2.2.2.1, h.2.2.2.2.2.1, h.2.2.2.2.2.2, h.1⟩

/-! ## Structural well-formedness

The `BIGSERIAL` id columns make row ids unique within each table and larger
ids fresh.  `DBWF` captures the part of this the preservation proofs need:
unique ids in `weeks`, `pages` and `questions`, all below the id counter. -/

/-- Well-formedness of the store. -/
def DBWF (db : DB) : Prop :=
  (db.weeks.map (fun w => w.id)).Nodup ∧
  (db.pages.map (fun p => p.id)).Nodup ∧
  (db.questions.map (fun q => q.id)).Nodup ∧
  (∀ w ∈ db.weeks, w.id < db.nextId) ∧
  (∀ p ∈ db.pages, p.id < db.nextId) ∧
  (∀ q ∈ db.questions, q.id < db.nextId)

theorem nodup_map_mem_inj {α β : Type} {l : List α} {f : α → β}
    (h : (l.map f).Nodup) {x y : α} (hx : x ∈ l) (hy : y ∈ l)
    (hf : f x = f y) : x = y := by
  induction l with
  | nil => cases hx
  | cons a l ih =>
    rw [List.map_cons, List.nodup_cons] at h
    rcases List.mem_cons.mp hx with rfl | hx'
    · rcases List.mem_cons.mp hy with rfl | hy'
      · rfl
      · exact absurd (hf ▸ List.mem_map_of_mem f hy') h.1
    · rcases List.mem_cons.mp hy with rfl | hy'
      · exact absurd (hf ▸ List.mem_map_of_mem f hx') h.1
      · exact ih h.2 hx' hy'

theorem mem_insertByKey {α : Type} {f : α → Nat} {a x : α} {l : List α} :
    x ∈ insertByKey f a l ↔ x = a ∨ x ∈ l := by
  induction l with
  | nil => simp [insertByKey]
  | cons b l ih =>
    unfold insertByKey
    split
    · simp [List.mem_cons]
    · simp only [List.mem_cons, ih]
      tauto

theorem mem_sortByKey {α : Type} {f : α → Nat} {x : α} {l : List α} :
    x ∈ sortByKey f l ↔ x ∈ l := by
  induction l with
  | nil => simp [sortByKey]
  | cons a l ih =>
    unfold sortByKey
    rw [mem_insertByKey, ih, List.mem_cons]

/-- A mapped update that fixes every row a filter selects, and does not
change the filter's verdict on any row, leaves the filtered view unchanged. -/
theorem filter_map_invariant {α : Type} (l : List α) (f : α → α)
    (p : α → Bool) (hfix : ∀ x ∈ l, p x = true → f x = x)
    (hsame : ∀ x ∈ l, p (f x) = p x) :
    (l.map f).filter p = l.filter p := by
  induction l with
  | nil => rfl
  | cons a l ih =>
    rw [List.map_cons, List.filter_cons, List.filter_cons]
    have hs := hsame a (by simp)
    by_cases hp : p a = true
    · rw [hp, hfix a (by simp) hp, hp]
      simp only [if_true]
      rw [ih (fun x hx => hfix x (by simp [hx]))
          (fun x hx => hsame x (by simp [hx]))]
    · rw [Bool.not_eq_true] at hp
      rw [hp, hs, hp]
      simp only [Bool.false_eq_true, if_false]
      exact ih (fun x hx => hfix x (by simp [hx]))
        (fun x hx => hsame x (by simp [hx]))

/-- Appending rows that all fail the filter leaves the filtered view
unchanged. -/
theorem filter_append_none {α : Type} {l news : List α} {p : α → Bool}
    (h : ∀ x ∈ news, p x = false) :
    (l ++ news).filter p = l.filter p := by
  rw [List.filter_append]
  have : news.filter p = [] := List.filter_eq_nil_iff.mpr (by
    intro x hx
    simp [h x hx])
  rw [this, List.append_nil]

/-- Removing rows the filter does not select anyway leaves the filtered
view unchanged. -/
theorem filter_filter_subset {α : Type} {l : List α} {p q : α → Bool}
    (h : ∀ x ∈ l, p x = true → q x = true) :
    (l.filter q).filter p = l.filter p := by
  induction l with
  | nil => rfl
  | cons a l ih =>
    rw [List.filter_cons]
    by_cases hq : q a = true
    · rw [hq]
      simp only [if_true]
      rw [List.filter_cons, List.filter_cons,
        ih (fun x hx => h x (by simp [hx]))]
    · rw [Bool.not_eq_true] at hq
      rw [hq]
      simp only [Bool.false_eq_true, if_false]
      rw [ih (fun x hx => h x (by simp [hx])), List.filter_cons]
      have hp : p a = false := by
        by_contra hc
        rw [Bool.not_eq_false] at hc
        rw [h a (by simp) hc] at hq
        cases hq
      rw [hp]
      simp

theorem map_id_eq {α : Type} (l : List α) (f : α → α) (g : α → Nat)
    (hf : ∀ x, g (f x) = g x) : (l.map f).map g = l.map g := by
  rw [List.map_map]
  exact List.map_congr_left (fun x _ => hf x)

/-- `DBWF` transfers along any rewrite that keeps the three structural
tables and does not decrease the id counter. -/
theorem DBWF_of {db db' : DB} (h : DBWF db)
    (hw : db'.weeks = db.weeks) (hp : db'.pages = db.pages)
    (hq : db'.questions = db.questions) (hn : db.nextId ≤ db'.nextId) :
    DBWF db' := by
  obtain ⟨n1, n2, n3, b1, b2, b3⟩ := h
  refine ⟨hw ▸ n1, hp ▸ n2, hq ▸ n3, ?_, ?_, ?_⟩
  · intro w hw'
    exact lt_of_lt_of_le (b1 w (hw ▸ hw')) hn
  · intro p hp'
    exact lt_of_lt_of_le (b2 p (hp ▸ hp')) hn
  · intro q hq'
    exact lt_of_lt_of_le (b3 q (hq ▸ hq')) hn

/-- Well-formedness is preserved, and the id counter is monotone. -/
def WFMono (x y : DB) : Prop := (DBWF x → DBWF y) ∧ x.nextId ≤ y.nextId

theorem WFMono.wfrefl (db : DB) : WFMono db db := ⟨id, Nat.le_refl _⟩

theorem WFMono.wftrans {a b c : DB} (h1 : WFMono a b) (h2 : WFMono b c) :
    WFMono a c := ⟨fun h => h2.1 (h1.1 h), h1.2.trans h2.2⟩

theorem DBWF_weeks_map {db : DB} (h : DBWF db) (f : WeekRow → WeekRow)
    (hf : ∀ w, (f w).id = w.id) :
    DBWF { db with weeks := db.weeks.map f } := by
  obtain ⟨n1, n2, n3, b1, b2, b3⟩ := h
  refine ⟨?_, n2, n3, ?_, b2, b3⟩
  · show ((db.weeks.map f).map _).Nodup
    rw [map_id_eq _ f _ hf]
    exact n1
  · intro w' hw'
    show w'.id < db.nextId
    obtain ⟨x, hx, rfl⟩ := List.mem_map.mp hw'
    rw [hf x]
    exact b1 x hx

theorem DBWF_pages_map {db : DB} (h : DBWF db) (f : PageRow → PageRow)
    (hf : ∀ p, (f p).id = p.id) :
    DBWF { db with pages := db.pages.map f } := by
  obtain ⟨n1, n2, n3, b1, b2, b3⟩ := h
  refine ⟨n1, ?_, n3, b1, ?_, b3⟩
  · show ((db.pages.map f).map _).Nodup
    rw [map_id_eq _ f _ hf]
    exact n2
  · intro p' hp'
    show p'.id < db.nextId
    obtain ⟨x, hx, rfl⟩ := List.mem_map.mp hp'
    rw [hf x]
    exact b2 x hx

theorem DBWF_questions_map {db : DB} (h : DBWF db) (f : QuestionRow → QuestionRow)
    (hf : ∀ q, (f q).id = q.id) :
    DBWF { db with questions := db.questions.map f } := by
  obtain ⟨n1, n2, n3, b1, b2, b3⟩ := h
  refine ⟨n1, n2, ?_, b1, b2, ?_⟩
  · show ((db.questions.map f).map _).Nodup
    rw [map_id_eq _ f _ hf]
    exact n3
  · intro q' hq'
    show q'.id < db.nextId
    obtain ⟨x, hx, rfl⟩ := List.mem_map.mp hq'
    rw [hf x]
    exact b3 x hx

theorem updateActiveWeekRow_wfm (db : DB) (mid wn : Nat) (tw : WeekView) :
    WFMono db (updateActiveWeekRow db mid wn tw) := by
  refine ⟨fun h => ?_, Nat.le_refl _⟩
  exact DBWF_weeks_map h _ (fun w => by
    by_cases hc : w.module_id = mid ∧ w.week_number = wn <;> simp [hc])

theorem updatePageRow_wfm (db : DB) (pid : Nat) (title ty : String)
    (content : Option String) :
    WFMono db (updatePageRow db pid title ty content) := by
  refine ⟨fun h => ?_, Nat.le_refl _⟩
  exact DBWF_pages_map h _ (fun p => by
    by_cases hc : p.id = pid <;> simp [hc])

theorem updateQuestionText_wfm (db : DB) (qid : Nat) (text : String) :
    WFMono db (updateQuestionText db qid text) := by
  refine ⟨fun h => ?_, Nat.le_refl _⟩
  exact DBWF_questions_map h _ (fun q => by
    by_cases hc : q.id = qid <;> simp [hc])

theorem syncResourcesOfPage_wfm (db : DB) (pid : Nat)
    (rs : List ResourceView) : WFMono db (syncResourcesOfPage db pid rs) := by
  unfold syncResourcesOfPage insertResources
  dsimp only
  split
  · exact ⟨fun h => DBWF_of h rfl rfl rfl (Nat.le_add_right _ _),
      Nat.le_add_right _ _⟩
  · exact ⟨fun h => DBWF_of h rfl rfl rfl (Nat.le_refl _), Nat.le_refl _⟩

theorem syncVideosOfPage_wfm (db : DB) (pid : Nat) (vs : List VideoView) :
    WFMono db (syncVideosOfPage db pid vs) := by
  unfold syncVideosOfPage insertVideosSynced
  dsimp only
  split
  · exact ⟨fun h => DBWF_of h rfl rfl rfl (Nat.le_add_right _ _),
      Nat.le_add_right _ _⟩
  · exact ⟨fun h => DBWF_of h rfl rfl rfl (Nat.le_refl _), Nat.le_refl _⟩

theorem replaceVideosOfPage_wfm (db : DB) (pid : Nat) (vs : List VideoView) :
    WFMono db (replaceVideosOfPage db pid vs) := by
  unfold replaceVideosOfPage insertVideosCreated
  dsimp only
  split
  · exact ⟨fun h => DBWF_of h rfl rfl rfl (Nat.le_add_right _ _),
      Nat.le_add_right _ _⟩
  · exact ⟨fun h => DBWF_of h rfl rfl rfl (Nat.le_refl _), Nat.le_refl _⟩

/-- Ids of a batch of freshly numbered rows: strictly increasing from the
counter, hence nodup and all at least the counter. -/
theorem fresh_ids_facts {γ α : Type} (qs : List γ) (g : Nat × γ → α)
    (f : α → Nat) (n : Nat) (hg : ∀ e, f (g e) = n + e.1) :
    ((qs.enum.map g).map f).Nodup ∧ (∀ x ∈ qs.enum.map g, n ≤ f x) := by
  constructor
  · rw [List.map_map]
    have he : f ∘ g = fun e => n + e.1 := funext hg
    rw [he]
    have : (fun (e : Nat × γ) => n + e.1) = (fun j => n + j) ∘ Prod.fst :=
      rfl
    rw [this, ← List.map_map, List.enum_map_fst]
    exact (List.nodup_range _).map (fun a b h => by omega)
  · intro x hx
    obtain ⟨e, _, rfl⟩ := List.mem_map.mp hx
    rw [hg e]
    exact Nat.le_add_right _ _

theorem nodup_append_fresh {α : Type} {l news : List α} {f : α → Nat}
    {n : Nat} (hl : (l.map f).Nodup) (hb : ∀ x ∈ l, f x < n)
    (hnew : ∀ x ∈ news, n ≤ f x) (hnewnd : (news.map f).Nodup) :
    ((l ++ news).map f).Nodup := by
  rw [List.map_append, List.nodup_append]
  refine ⟨hl, hnewnd, ?_⟩
  intro a ha hb'
  obtain ⟨x, hx, rfl⟩ := List.mem_map.mp ha
  obtain ⟨y, hy, he⟩ := List.mem_map.mp hb'
  have h1 := hb x hx
  have h2 := hnew y hy
  omega

theorem insertQuestionRows_wfm (db : DB) (pid : Nat)
    (qs : List (Nat × QuestionView)) :
    WFMono db (insertQuestionRows db pid qs) := by
  unfold insertQuestionRows
  split
  · refine ⟨fun h => ?_, Nat.le_add_right _ _⟩
    obtain ⟨n1, n2, n3, b1, b2, b3⟩ := h
    obtain ⟨hnd, hge⟩ := fresh_ids_facts qs
      (fun e => (⟨db.nextId + e.1, pid, e.2.1 + 1, e.2.2.text⟩ :
        QuestionRow))
      (fun q => q.id) db.nextId (fun e => rfl)
    refine ⟨n1, n2, ?_, ?_, ?_, ?_⟩
    · exact nodup_append_fresh n3 b3 hge hnd
    · intro w hw
      exact lt_of_lt_of_le (b1 w hw) (Nat.le_add_right _ _)
    · intro p hp
      exact lt_of_lt_of_le (b2 p hp) (Nat.le_add_right _ _)
    · intro q hq
      rcases List.mem_append.mp hq with hq' | hq'
      · exact lt_of_lt_of_le (b3 q hq') (Nat.le_add_right _ _)
      · obtain ⟨e, he, rfl⟩ := List.mem_map.mp hq'
        have : e ∈ qs.enum := he
        have hlt : e.1 < qs.length := by
          have := List.fst_lt_of_mem_enum this
          exact this
        simp only
        omega
  · exact WFMono.wfrefl db

theorem reconcileQuestionsWith_wfm (db : DB) (pid : Nat)
    (exqs : List QuestionRow) (tqs : List QuestionView) :
    WFMono db (reconcileQuestionsWith db pid exqs tqs) := by
  unfold reconcileQuestionsWith
  refine WFMono.wftrans ?_ (insertQuestionRows_wfm _ _ _)
  apply foldl_invariant WFMono WFMono.wfrefl (fun a b c => WFMono.wftrans)
  intro b e _
  cases exqs.find? (fun q => q.question_number = e.1 + 1) with
  | none => exact WFMono.wfrefl b
  | some existingQ => exact updateQuestionText_wfm b existingQ.id e.2.text

theorem reconcileQuestions_wfm (db : DB) (pid : Nat)
    (tqs : List QuestionView) : WFMono db (reconcileQuestions db pid tqs) :=
  reconcileQuestionsWith_wfm db pid _ tqs

theorem syncPageContent_wfm (db : DB) (tp : PageView) (ap : PageRow) :
    WFMono db (syncPageContent db tp ap) :=
  (((updatePageRow_wfm db ap.id tp.title tp.type tp.content).wftrans
    (syncResourcesOfPage_wfm _ ap.id tp.resources)).wftrans
    (syncVideosOfPage_wfm _ ap.id tp.videos)).wftrans
    (reconcileQuestions_wfm _ ap.id tp.questions)

theorem syncWeekContent_wfm (db : DB) (tw aw : WeekView) (mid : Nat) :
    WFMono db (syncWeekContent db tw aw mid) := by
  unfold syncWeekContent
  refine WFMono.wftrans (updateActiveWeekRow_wfm db mid aw.id tw) ?_
  dsimp only
  split
  · exact WFMono.wfrefl _
  · apply foldl_invariant WFMono WFMono.wfrefl (fun a b c => WFMono.wftrans)
    intro b e _
    cases (sortByKey (fun p => p.page_number)
        (List.filter _ (updateActiveWeekRow db mid aw.id tw).pages))[e.1]? with
    | none => exact WFMono.wfrefl b
    | some activePage => exact syncPageContent_wfm b e.2 activePage

theorem insertPageRow_wfm (db : DB) (row : PageRow)
    (hid : row.id = db.nextId) : WFMono db (insertPageRow db row) := by
  unfold insertPageRow
  refine ⟨fun h => ?_, by show db.nextId ≤ db.nextId + 1; omega⟩
  obtain ⟨n1, n2, n3, b1, b2, b3⟩ := h
  refine ⟨n1, ?_, n3, ?_, ?_, ?_⟩
  · show ((db.pages ++ [row]).map _).Nodup
    refine nodup_append_fresh n2 b2 ?_ (by simp)
    intro x hx
    rw [List.mem_singleton] at hx
    subst hx
    omega
  · intro w hw
    show w.id < db.nextId + 1
    have := b1 w hw
    omega
  · intro p hp
    show p.id < db.nextId + 1
    rcases List.mem_append.mp hp with hp' | hp'
    · have := b2 p hp'
      omega
    · rw [List.mem_singleton] at hp'
      subst hp'
      omega
  · intro q hq
    show q.id < db.nextId + 1
    have := b3 q hq
    omega

theorem insertQuestionsAt_wfm (db : DB) (pid : Nat)
    (qs : List QuestionView) : WFMono db (insertQuestionsAt db pid qs) := by
  unfold insertQuestionsAt
  split
  · refine ⟨fun h => ?_, Nat.le_add_right _ _⟩
    obtain ⟨n1, n2, n3, b1, b2, b3⟩ := h
    obtain ⟨hnd, hge⟩ := fresh_ids_facts qs
      (fun e => (⟨db.nextId + e.1, pid, e.1 + 1, e.2.text⟩ : QuestionRow))
      (fun q => q.id) db.nextId (fun e => rfl)
    refine ⟨n1, n2, nodup_append_fresh n3 b3 hge hnd, ?_, ?_, ?_⟩
    · intro w hw
      exact lt_of_lt_of_le (b1 w hw) (Nat.le_add_right _ _)
    · intro p hp
      exact lt_of_lt_of_le (b2 p hp) (Nat.le_add_right _ _)
    · intro q hq
      rcases List.mem_append.mp hq with hq' | hq'
      · exact lt_of_lt_of_le (b3 q hq') (Nat.le_add_right _ _)
      · obtain ⟨e, he, rfl⟩ := List.mem_map.mp hq'
        have hlt := List.fst_lt_of_mem_enum he
        simp only
        omega
  · exact WFMono.wfrefl db

theorem insertResources_wfm (db : DB) (pid : Nat) (rs : List ResourceView) :
    WFMono db (insertResources db pid rs) :=
  ⟨fun h => DBWF_of h rfl rfl rfl (Nat.le_add_right _ _),
   Nat.le_add_right _ _⟩

theorem insertVideosCreated_wfm (db : DB) (pid : Nat) (vs : List VideoView) :
    WFMono db (insertVideosCreated db pid vs) :=
  ⟨fun h => DBWF_of h rfl rfl rfl (Nat.le_add_right _ _),
   Nat.le_add_right _ _⟩

theorem createPage_wfm (db : DB) (weekId pageNumber : Nat)
    (pageData : PageView) :
    WFMono db (createPage db weekId pageNumber pageData) := by
  unfold createPage
  dsimp only
  refine WFMono.wftrans (WFMono.wftrans (insertPageRow_wfm db
    ⟨db.nextId, weekId, pageNumber, pageData.title, pageData.type,
     jsOrNull pageData.content⟩ rfl)
    (insertQuestionsAt_wfm _ db.nextId pageData.questions)) ?_
  split
  · split
    · exact (insertResources_wfm _ _ _).wftrans (insertVideosCreated_wfm _ _ _)
    · exact insertVideosCreated_wfm _ _ _
  · split
    · exact insertResources_wfm _ _ _
    · exact WFMono.wfrefl _

theorem insertWeekRow_wfm (db : DB) (row : WeekRow)
    (hid : row.id = db.nextId) :
    WFMono db { db with weeks := db.weeks ++ [row], nextId := db.nextId + 1 } := by
  refine ⟨fun h => ?_, by show db.nextId ≤ db.nextId + 1; omega⟩
  obtain ⟨n1, n2, n3, b1, b2, b3⟩ := h
  refine ⟨?_, n2, n3, ?_, ?_, ?_⟩
  · show ((db.weeks ++ [row]).map _).Nodup
    refine nodup_append_fresh n1 b1 ?_ (by simp)
    intro x hx
    rw [List.mem_singleton] at hx
    subst hx
    omega
  · intro w hw
    show w.id < db.nextId + 1
    rcases List.mem_append.mp hw with hw' | hw'
    · have := b1 w hw'
      omega
    · rw [List.mem_singleton] at hw'
      subst hw'
      omega
  · intro p hp
    show p.id < db.nextId + 1
    have := b2 p hp
    omega
  · intro q hq
    show q.id < db.nextId + 1
    have := b3 q hq
    omega

theorem createWeekWithNumber_wfm (db : DB) (mid wn : Nat) (wd : WeekData) :
    WFMono db (createWeekWithNumber db mid wn wd) := by
  unfold createWeekWithNumber
  dsimp only
  refine WFMono.wftrans (insertWeekRow_wfm db
    { id := db.nextId, module_id := mid, week_number := wn,
      title := wd.title, description := jsOrNull wd.description,
      unlock_date := jsOrNull wd.unlockDate } rfl) ?_
  apply foldl_invariant WFMono WFMono.wfrefl (fun a b c => WFMono.wftrans)
  intro b e _
  exact createPage_wfm b _ _ e.2

theorem updateModule_wfm (db : DB) (mid : Nat) (u : ModuleUpdates) :
    WFMono db (updateModule db mid u) :=
  ⟨fun h => DBWF_of h rfl rfl rfl (Nat.le_refl _), Nat.le_refl _⟩

theorem syncZoomStep_wfm (db : DB) (t a : Nat) :
    WFMono db (syncZoomStep db t a) := by
  unfold syncZoomStep
  cases getZoomInfo db t with
  | none => exact WFMono.wfrefl db
  | some tz =>
    show WFMono db (updateZoomInfo db a tz)
    unfold updateZoomInfo
    dsimp only
    split
    · exact ⟨fun h => DBWF_of h rfl rfl rfl (Nat.le_refl _), Nat.le_refl _⟩
    · exact ⟨fun h => DBWF_of h rfl rfl rfl (Nat.le_refl _), Nat.le_refl _⟩

theorem syncWeeksStep_wfm (db : DB) (a : Nat) (tws aws : List WeekView) :
    WFMono db (syncWeeksStep db a tws aws) := by
  unfold syncWeeksStep
  apply foldl_invariant WFMono WFMono.wfrefl (fun a b c => WFMono.wftrans)
  intro b tw _
  cases jsMapGet (fun aw => aw.id) tw.id aws with
  | some aw => exact syncWeekContent_wfm b tw aw a
  | none => exact createWeekWithNumber_wfm b a tw.id _

theorem syncModuleContent_wfm (db : DB) (t a : Nat) (tv : ModuleView) :
    WFMono db (syncModuleContent db t a tv) :=
  WFMono.wftrans (updateModule_wfm db a _)
    (WFMono.wftrans (syncZoomStep_wfm _ t a) (syncWeeksStep_wfm _ a _ _))

/-! ## The protected-week invariant for C8

Relative to an original store `db`, `UntouchedWeek db w cur` says the week
row `w` is still present verbatim in `cur`, its page set is unchanged, and
under each of its original pages the question, resource and video sets are
unchanged. -/

/-- The week `w` of `db` and everything under it are untouched in `cur`. -/
def UntouchedWeek (db : DB) (w : WeekRow) (cur : DB) : Prop :=
  w ∈ cur.weeks ∧
  cur.pages.filter (fun p => p.week_id = w.id) =
    db.pages.filter (fun p => p.week_id = w.id) ∧
  ∀ p ∈ db.pages, p.week_id = w.id →
    (cur.questions.filter (fun q => q.page_id = p.id) =
       db.questions.filter (fun q => q.page_id = p.id) ∧
     cur.resources.filter (fun r => r.page_id = p.id) =
       db.resources.filter (fun r => r.page_id = p.id) ∧
     cur.videos.filter (fun v => v.page_id = p.id) =
       db.videos.filter (fun v => v.page_id = p.id))

theorem UntouchedWeek.uwrefl (db : DB) (w : WeekRow) (hw : w ∈ db.weeks) :
    UntouchedWeek db w db :=
  ⟨hw, rfl, fun p _ _ => ⟨rfl, rfl, rfl⟩⟩

theorem updateActiveWeekRow_untouched {db : DB} {w : WeekRow} {cur : DB}
    (h : UntouchedWeek db w cur) (mid wn : Nat) (tw : WeekView)
    (hd : w.module_id ≠ mid ∨ wn ≠ w.week_number) :
    UntouchedWeek db w (updateActiveWeekRow cur mid wn tw) := by
  obtain ⟨h1, h2, h3⟩ := h
  refine ⟨?_, h2, h3⟩
  have he : (if w.module_id = mid ∧ w.week_number = wn then
      { w with title := tw.title, description := tw.description,
               unlock_date := tw.unlockDate } else w) = w := by
    rw [if_neg]
    intro hc
    rcases hd with hm | hn
    · exact hm hc.1
    · exact hn hc.2.symm
  show w ∈ cur.weeks.map _
  rw [← he]
  exact List.mem_map_of_mem _ h1

theorem updatePageRow_untouched {db : DB} {w : WeekRow} {cur : DB}
    (h : UntouchedWeek db w cur) (pid : Nat) (title ty : String)
    (content : Option String)
    (hpid : ∀ p ∈ db.pages, p.week_id = w.id → p.id ≠ pid) :
    UntouchedWeek db w (updatePageRow cur pid title ty content) := by
  obtain ⟨h1, h2, h3⟩ := h
  refine ⟨h1, ?_, h3⟩
  show ((cur.pages.map _).filter _) = _
  refine (filter_map_invariant _ _ _ ?_ ?_).trans h2
  · intro x hx hpx
    have hxf : x ∈ cur.pages.filter (fun p => p.week_id = w.id) :=
      List.mem_filter.mpr ⟨hx, hpx⟩
    rw [h2] at hxf
    obtain ⟨hxdb, hxw⟩ := List.mem_filter.mp hxf
    rw [if_neg (hpid x hxdb (by simpa using hxw))]
  · intro x hx
    by_cases hc : x.id = pid <;> simp [hc]

theorem syncResourcesOfPage_untouched {db : DB} {w : WeekRow} {cur : DB}
    (h : UntouchedWeek db w cur) (pid : Nat) (rs : List ResourceView)
    (hpid : ∀ p ∈ db.pages, p.week_id = w.id → p.id ≠ pid) :
    UntouchedWeek db w (syncResourcesOfPage cur pid rs) := by
  obtain ⟨h1, h2, h3⟩ := h
  unfold syncResourcesOfPage insertResources
  dsimp only
  have hdel : ∀ p ∈ db.pages, p.week_id = w.id →
      (cur.resources.filter (fun r => ¬ r.page_id = pid)).filter
        (fun r => r.page_id = p.id) =
      db.resources.filter (fun r => r.page_id = p.id) := by
    intro p hp hpw
    refine (filter_filter_subset ?_).trans (h3 p hp hpw).2.1
    intro x _ hx
    simpa using fun hc => hpid p hp hpw (by
      have := of_decide_eq_true hx
      omega)
  split
  · refine ⟨h1, h2, ?_⟩
    intro p hp hpw
    refine ⟨(h3 p hp hpw).1, ?_, (h3 p hp hpw).2.2⟩
    refine (filter_append_none ?_).trans (hdel p hp hpw)
    intro x hx
    obtain ⟨e, _, rfl⟩ := List.mem_map.mp hx
    have hne : pid ≠ p.id := Ne.symm (hpid p hp hpw)
    simpa using hne
  · refine ⟨h1, h2, ?_⟩
    intro p hp hpw
    exact ⟨(h3 p hp hpw).1, hdel p hp hpw, (h3 p hp hpw).2.2⟩

theorem syncVideosOfPage_untouched {db : DB} {w : WeekRow} {cur : DB}
    (h : UntouchedWeek db w cur) (pid : Nat) (vs : List VideoView)
    (hpid : ∀ p ∈ db.pages, p.week_id = w.id → p.id ≠ pid) :
    UntouchedWeek db w (syncVideosOfPage cur pid vs) := by
  obtain ⟨h1, h2, h3⟩ := h
  unfold syncVideosOfPage insertVideosSynced
  dsimp only
  have hdel : ∀ p ∈ db.pages, p.week_id = w.id →
      (cur.videos.filter (fun v => ¬ v.page_id = pid)).filter
        (fun v => v.page_id = p.id) =
      db.videos.filter (fun v => v.page_id = p.id) := by
    intro p hp hpw
    refine (filter_filter_subset ?_).trans (h3 p hp hpw).2.2
    intro x _ hx
    simpa using fun hc => hpid p hp hpw (by
      have := of_decide_eq_true hx
      omega)
  split
  · refine ⟨h1, h2, ?_⟩
    intro p hp hpw
    refine ⟨(h3 p hp hpw).1, (h3 p hp hpw).2.1, ?_⟩
    refine (filter_append_none ?_).trans (hdel p hp hpw)
    intro x hx
    obtain ⟨e, _, rfl⟩ := List.mem_map.mp hx
    have hne : pid ≠ p.id := Ne.symm (hpid p hp hpw)
    simpa using hne
  · refine ⟨h1, h2, ?_⟩
    intro p hp hpw
    exact ⟨(h3 p hp hpw).1, (h3 p hp hpw).2.1, hdel p hp hpw⟩

theorem updateQuestionText_untouched {db : DB} {w : WeekRow} {cur : DB}
    (h : UntouchedWeek db w cur) (eid : Nat) (text : String)
    (heid : ∀ p ∈ db.pages, p.week_id = w.id →
      ∀ q' ∈ db.questions, q'.page_id = p.id → q'.id ≠ eid) :
    UntouchedWeek db w (updateQuestionText cur eid text) := by
  obtain ⟨h1, h2, h3⟩ := h
  refine ⟨h1, h2, ?_⟩
  intro p hp hpw
  obtain ⟨hq, hr, hv⟩ := h3 p hp hpw
  refine ⟨?_, hr, hv⟩
  show ((cur.questions.map _).filter _) = _
  refine (filter_map_invariant _ _ _ ?_ ?_).trans hq
  · intro x hx hpx
    have hxf : x ∈ cur.questions.filter (fun q => q.page_id = p.id) :=
      List.mem_filter.mpr ⟨hx, hpx⟩
    rw [hq] at hxf
    obtain ⟨hxdb, hxp⟩ := List.mem_filter.mp hxf
    rw [if_neg (heid p hp hpw x hxdb (by simpa using hxp))]
  · intro x hx
    by_cases hc : x.id = eid <;> simp [hc]

theorem insertQuestionRows_untouched {db : DB} {w : WeekRow} {cur : DB}
    (h : UntouchedWeek db w cur) (pid : Nat)
    (qs : List (Nat × QuestionView))
    (hpid : ∀ p ∈ db.pages, p.week_id = w.id → p.id ≠ pid) :
    UntouchedWeek db w (insertQuestionRows cur pid qs) := by
  obtain ⟨h1, h2, h3⟩ := h
  unfold insertQuestionRows
  split
  · refine ⟨h1, h2, ?_⟩
    intro p hp hpw
    obtain ⟨hq, hr, hv⟩ := h3 p hp hpw
    refine ⟨(filter_append_none ?_).trans hq, hr, hv⟩
    intro x hx
    obtain ⟨e, _, rfl⟩ := List.mem_map.mp hx
    have hne : pid ≠ p.id := Ne.symm (hpid p hp hpw)
    simpa using hne
  · exact ⟨h1, h2, h3⟩

theorem reconcileQuestionsWith_untouched {db : DB} {w : WeekRow} {cur : DB}
    (h : UntouchedWeek db w cur) (pid : Nat)
    (exqs : List QuestionRow) (tqs : List QuestionView)
    (hpid : ∀ p ∈ db.pages, p.week_id = w.id → p.id ≠ pid)
    (hexq : ∀ e ∈ exqs, ∀ p ∈ db.pages, p.week_id = w.id →
      ∀ q' ∈ db.questions, q'.page_id = p.id → q'.id ≠ e.id) :
    UntouchedWeek db w (reconcileQuestionsWith cur pid exqs tqs) := by
  unfold reconcileQuestionsWith
  refine insertQuestionRows_untouched ?_ pid _ hpid
  refine foldl_invariant
    (fun x y => UntouchedWeek db w x → UntouchedWeek db w y)
    (fun b hb => hb) (fun a b c h1 h2 hb => h2 (h1 hb)) _ tqs.enum cur
    ?_ h
  intro b e _
  cases hfind : exqs.find? (fun q => q.question_number = e.1 + 1) with
  | none => exact fun hb => hb
  | some existingQ =>
    intro hb
    exact updateQuestionText_untouched hb existingQ.id e.2.text
      (fun p hp hpw q' hq' hqp =>
        hexq existingQ (List.mem_of_find?_eq_some hfind) p hp hpw q' hq' hqp)

theorem syncPageContent_untouched {db : DB} {w : WeekRow} {cur : DB}
    (hwf : DBWF cur) (h : UntouchedWeek db w cur)
    (tp : PageView) (ap : PageRow)
    (hap : ∀ p ∈ db.pages, p.week_id = w.id → p.id ≠ ap.id) :
    UntouchedWeek db w (syncPageContent cur tp ap) := by
  unfold syncPageContent
  dsimp only
  have h1 := updatePageRow_untouched h ap.id tp.title tp.type tp.content hap
  have h2 := syncResourcesOfPage_untouched h1 ap.id tp.resources hap
  have h3 := syncVideosOfPage_untouched h2 ap.id tp.videos hap
  have hwf3 : DBWF (syncVideosOfPage
      (syncResourcesOfPage
        (updatePageRow cur ap.id tp.title tp.type tp.content)
        ap.id tp.resources) ap.id tp.videos) :=
    (syncVideosOfPage_wfm _ _ _).1 ((syncResourcesOfPage_wfm _ _ _).1
      ((updatePageRow_wfm _ _ _ _ _).1 hwf))
  unfold reconcileQuestions
  refine reconcileQuestionsWith_untouched h3 ap.id _ tp.questions hap ?_
  intro e he p hp hpw q' hq' hqp heq
  have he' := mem_sortByKey.mp he
  obtain ⟨heMem, heP⟩ := List.mem_filter.mp he'
  have hqcur : q' ∈ (syncVideosOfPage
      (syncResourcesOfPage
        (updatePageRow cur ap.id tp.title tp.type tp.content)
        ap.id tp.resources) ap.id tp.videos).questions := by
    have hq'f : q' ∈ db.questions.filter (fun q => q.page_id = p.id) :=
      List.mem_filter.mpr ⟨hq', by simpa using hqp⟩
    rw [← (h3.2.2 p hp hpw).1] at hq'f
    exact (List.mem_filter.mp hq'f).1
  have : q' = e := nodup_map_mem_inj hwf3.2.2.1 hqcur heMem (by
    show q'.id = e.id
    omega)
  subst this
  have : q'.page_id = ap.id := by simpa using heP
  exact hap p hp hpw (by omega)

theorem singleRow_mem {α : Type} {l : List α} {x : α}
    (h : singleRow l = some x) : x ∈ l := by
  cases l with
  | nil => simp [singleRow] at h
  | cons a rest =>
    cases rest with
    | nil =>
      simp [singleRow] at h
      subst h
      simp
    | cons b rest2 => simp [singleRow] at h

theorem syncWeekContent_untouched {db : DB} {w : WeekRow} {cur : DB}
    (hwf : DBWF cur) (h : UntouchedWeek db w cur)
    (tw aw : WeekView) (a : Nat)
    (hd : w.module_id ≠ a ∨ aw.id ≠ w.week_number) :
    UntouchedWeek db w (syncWeekContent cur tw aw a) := by
  unfold syncWeekContent
  dsimp only
  have h0 := updateActiveWeekRow_untouched h a aw.id tw hd
  have hwf0 : DBWF (updateActiveWeekRow cur a aw.id tw) :=
    (updateActiveWeekRow_wfm cur a aw.id tw).1 hwf
  split
  · exact h0
  next weekRecord heq =>
    obtain ⟨wrMem, wrProp⟩ := List.mem_filter.mp (singleRow_mem heq)
    have hwk : weekRecord.week_number = aw.id :=
      (of_decide_eq_true wrProp).2
    have wNe : weekRecord.id ≠ w.id := by
      intro hid
      have hww : weekRecord = w := nodup_map_mem_inj hwf0.1 wrMem h0.1 hid
      rcases hd with hm | hn
      · exact hm (by rw [← hww]; exact (of_decide_eq_true wrProp).1)
      · exact hn (hww ▸ hwk).symm
    have hapAll : ∀ ap ∈ sortByKey (fun p => p.page_number)
        ((updateActiveWeekRow cur a aw.id tw).pages.filter
          (fun p => p.week_id = weekRecord.id)),
        ∀ p ∈ db.pages, p.week_id = w.id → p.id ≠ ap.id := by
      intro ap hap p hp hpw hid
      obtain ⟨hapMem, hapProp⟩ := List.mem_filter.mp (mem_sortByKey.mp hap)
      have hpMem : p ∈ (updateActiveWeekRow cur a aw.id tw).pages := by
        have hpf : p ∈ db.pages.filter (fun p => p.week_id = w.id) :=
          List.mem_filter.mpr ⟨hp, by simpa using hpw⟩
        rw [← h0.2.1] at hpf
        exact (List.mem_filter.mp hpf).1
      have : p = ap := nodup_map_mem_inj hwf0.2.1 hpMem hapMem hid
      subst this
      have hpwr : p.week_id = weekRecord.id := by simpa using hapProp
      exact wNe (by omega)
    refine (foldl_invariant
      (fun x y => (DBWF x ∧ UntouchedWeek db w x) →
        (DBWF y ∧ UntouchedWeek db w y))
      (fun b hb => hb) (fun a b c h1 h2 hb => h2 (h1 hb)) _ tw.pages.enum _
      ?_ ⟨hwf0, h0⟩).2
    intro b e _
    cases hget : (sortByKey (fun p => p.page_number)
        ((updateActiveWeekRow cur a aw.id tw).pages.filter
          (fun p => p.week_id = weekRecord.id)))[e.1]? with
    | none => exact fun hb => hb
    | some activePage =>
      intro hb
      refine ⟨(syncPageContent_wfm b e.2 activePage).1 hb.1, ?_⟩
      exact syncPageContent_untouched hb.1 hb.2 e.2 activePage
        (hapAll activePage (List.getElem?_mem hget))

theorem insertPageRow_untouched {db : DB} {w : WeekRow} {cur : DB}
    (h : UntouchedWeek db w cur) (row : PageRow)
    (hrow : row.week_id ≠ w.id) :
    UntouchedWeek db w (insertPageRow cur row) := by
  obtain ⟨h1, h2, h3⟩ := h
  refine ⟨h1, ?_, h3⟩
  show ((cur.pages ++ [row]).filter _) = _
  refine (filter_append_none ?_).trans h2
  intro x hx
  rw [List.mem_singleton] at hx
  subst hx
  simpa using hrow

theorem insertQuestionsAt_untouched {db : DB} {w : WeekRow} {cur : DB}
    (h : UntouchedWeek db w cur) (pid : Nat) (qs : List QuestionView)
    (hpid : ∀ p ∈ db.pages, p.week_id = w.id → p.id ≠ pid) :
    UntouchedWeek db w (insertQuestionsAt cur pid qs) := by
  obtain ⟨h1, h2, h3⟩ := h
  unfold insertQuestionsAt
  split
  · refine ⟨h1, h2, ?_⟩
    intro p hp hpw
    obtain ⟨hq, hr, hv⟩ := h3 p hp hpw
    refine ⟨(filter_append_none ?_).trans hq, hr, hv⟩
    intro x hx
    obtain ⟨e, _, rfl⟩ := List.mem_map.mp hx
    have hne : pid ≠ p.id := Ne.symm (hpid p hp hpw)
    simpa using hne
  · exact ⟨h1, h2, h3⟩

theorem insertResources_untouched {db : DB} {w : WeekRow} {cur : DB}
    (h : UntouchedWeek db w cur) (pid : Nat) (rs : List ResourceView)
    (hpid : ∀ p ∈ db.pages, p.week_id = w.id → p.id ≠ pid) :
    UntouchedWeek db w (insertResources cur pid rs) := by
  obtain ⟨h1, h2, h3⟩ := h
  refine ⟨h1, h2, ?_⟩
  intro p hp hpw
  obtain ⟨hq, hr, hv⟩ := h3 p hp hpw
  refine ⟨hq, ?_, hv⟩
  show ((cur.resources ++ _).filter _) = _
  refine (filter_append_none ?_).trans hr
  intro x hx
  obtain ⟨e, _, rfl⟩ := List.mem_map.mp hx
  have hne : pid ≠ p.id := Ne.symm (hpid p hp hpw)
  simpa using hne

theorem insertVideosCreated_untouched {db : DB} {w : WeekRow} {cur : DB}
    (h : UntouchedWeek db w cur) (pid : Nat) (vs : List VideoView)
    (hpid : ∀ p ∈ db.pages, p.week_id = w.id → p.id ≠ pid) :
    UntouchedWeek db w (insertVideosCreated cur pid vs) := by
  obtain ⟨h1, h2, h3⟩ := h
  refine ⟨h1, h2, ?_⟩
  intro p hp hpw
  obtain ⟨hq, hr, hv⟩ := h3 p hp hpw
  refine ⟨hq, hr, ?_⟩
  show ((cur.videos ++ _).filter _) = _
  refine (filter_append_none ?_).trans hv
  intro x hx
  obtain ⟨e, _, rfl⟩ := List.mem_map.mp hx
  have hne : pid ≠ p.id := Ne.symm (hpid p hp hpw)
  simpa using hne

theorem createPage_untouched {db : DB} {w : WeekRow} {cur : DB}
    (h : UntouchedWeek db w cur) (weekId pageNumber : Nat) (pd : PageView)
    (hweek : weekId ≠ w.id)
    (hpid : ∀ p ∈ db.pages, p.week_id = w.id → p.id ≠ cur.nextId) :
    UntouchedWeek db w (createPage cur weekId pageNumber pd) := by
  unfold createPage
  dsimp only
  have h1 := insertPageRow_untouched h
    ⟨cur.nextId, weekId, pageNumber, pd.title, pd.type,
     jsOrNull pd.content⟩ hweek
  have h2 := insertQuestionsAt_untouched h1 cur.nextId pd.questions hpid
  split <;> split
  · exact insertVideosCreated_untouched
      (insertResources_untouched h2 _ _ hpid) _ _ hpid
  · exact insertVideosCreated_untouched h2 _ _ hpid
  · exact insertResources_untouched h2 _ _ hpid
  · exact h2

theorem createWeekWithNumber_untouched {db : DB} {w : WeekRow} {cur : DB}
    (hWForig : DBWF db) (hw : w ∈ db.weeks)
    (h : UntouchedWeek db w cur) (hnext : db.nextId ≤ cur.nextId)
    (mid wn : Nat) (wd : WeekData) :
    UntouchedWeek db w (createWeekWithNumber cur mid wn wd) := by
  unfold createWeekWithNumber
  dsimp only
  have hwid : w.id < db.nextId := hWForig.2.2.2.1 w hw
  have h1 : UntouchedWeek db w { cur with
      weeks := cur.weeks ++
        [⟨cur.nextId, mid, wn, wd.title, jsOrNull wd.description,
          jsOrNull wd.unlockDate⟩]
      nextId := cur.nextId + 1 } :=
    ⟨List.mem_append_left _ h.1, h.2.1, h.2.2⟩
  refine (foldl_invariant
    (fun x y => (db.nextId ≤ x.nextId ∧ UntouchedWeek db w x) →
      (db.nextId ≤ y.nextId ∧ UntouchedWeek db w y))
    (fun b hb => hb) (fun a b c g1 g2 hb => g2 (g1 hb)) _ wd.pages.enum _
    ?_ ⟨by show db.nextId ≤ cur.nextId + 1; omega, h1⟩).2
  intro b e _
  intro hb
  constructor
  · exact hb.1.trans (createPage_wfm b cur.nextId (e.1 + 1) e.2).2
  · refine createPage_untouched hb.2 cur.nextId (e.1 + 1) e.2 ?_ ?_
    · omega
    · intro p hp hpw
      have := hWForig.2.2.2.2.1 p hp
      have := hb.1
      omega

theorem updateModule_untouched {db : DB} {w : WeekRow} {cur : DB}
    (h : UntouchedWeek db w cur) (mid : Nat) (u : ModuleUpdates) :
    UntouchedWeek db w (updateModule cur mid u) :=
  ⟨h.1, h.2.1, h.2.2⟩

theorem syncZoomStep_untouched {db : DB} {w : WeekRow} {cur : DB}
    (h : UntouchedWeek db w cur) (t a : Nat) :
    UntouchedWeek db w (syncZoomStep cur t a) := by
  unfold syncZoomStep
  cases getZoomInfo cur t with
  | none => exact h
  | some tz =>
    show UntouchedWeek db w (updateZoomInfo cur a tz)
    unfold updateZoomInfo
    dsimp only
    split
    · exact ⟨h.1, h.2.1, h.2.2⟩
    · exact ⟨h.1, h.2.1, h.2.2⟩

theorem updateModule_weeks (db : DB) (mid : Nat) (u : ModuleUpdates) :
    (updateModule db mid u).weeks = db.weeks := rfl

theorem syncZoomStep_weeks (db : DB) (t a : Nat) :
    (syncZoomStep db t a).weeks = db.weeks := by
  unfold syncZoomStep
  cases getZoomInfo db t with
  | none => rfl
  | some tz =>
    show (updateZoomInfo db a tz).weeks = db.weeks
    unfold updateZoomInfo
    dsimp only
    split <;> rfl

theorem getWeeks_mem {db : DB} {mid : Nat} {tv : WeekView}
    (h : tv ∈ getWeeks db mid) :
    ∃ wr ∈ db.weeks, wr.module_id = mid ∧ wr.week_number = tv.id := by
  unfold getWeeks at h
  obtain ⟨row, hrow, rfl⟩ := List.mem_map.mp h
  obtain ⟨hmem, hprop⟩ := List.mem_filter.mp (mem_sortByKey.mp hrow)
  exact ⟨row, hmem, of_decide_eq_true hprop, rfl⟩

theorem jsMapGet_key {α : Type} {key : α → Nat} {k : Nat} {l : List α}
    {x : α} (h : jsMapGet key k l = some x) : key x = k := by
  unfold jsMapGet at h
  have hx := List.mem_of_mem_getLast? h
  exact of_decide_eq_true (List.mem_filter.mp hx).2

theorem syncWeeksStep_untouched {db : DB} {w : WeekRow} {cur : DB}
    (hWForig : DBWF db) (hw : w ∈ db.weeks)
    (hcur : DBWF cur ∧ db.nextId ≤ cur.nextId ∧ UntouchedWeek db w cur)
    (a : Nat) (tws aws : List WeekView)
    (htws : ∀ tv ∈ tws, tv.id ≠ w.week_number) :
    UntouchedWeek db w (syncWeeksStep cur a tws aws) := by
  unfold syncWeeksStep
  refine (foldl_invariant
    (fun x y => (DBWF x ∧ db.nextId ≤ x.nextId ∧ UntouchedWeek db w x) →
      (DBWF y ∧ db.nextId ≤ y.nextId ∧ UntouchedWeek db w y))
    (fun b hb => hb) (fun p q r g1 g2 hb => g2 (g1 hb)) _ tws cur
    ?_ hcur).2.2
  intro b tw htw hb
  cases hm : jsMapGet (fun aw => aw.id) tw.id aws with
  | some aw =>
    refine ⟨(syncWeekContent_wfm b tw aw a).1 hb.1,
      hb.2.1.trans (syncWeekContent_wfm b tw aw a).2, ?_⟩
    exact syncWeekContent_untouched hb.1 hb.2.2 tw aw a
      (Or.inr (by rw [jsMapGet_key hm]; exact htws tw htw))
  | none =>
    refine ⟨(createWeekWithNumber_wfm b a tw.id _).1 hb.1,
      hb.2.1.trans (createWeekWithNumber_wfm b a tw.id _).2, ?_⟩
    exact createWeekWithNumber_untouched hWForig hw hb.2.2 hb.2.1 a tw.id _

/-- Sync never deletes a week row: every id survives. -/
def WeeksKept (x y : DB) : Prop :=
  ∀ w' ∈ x.weeks, ∃ w'' ∈ y.weeks, w''.id = w'.id

theorem WeeksKept.wkrefl (db : DB) : WeeksKept db db :=
  fun w' hw' => ⟨w', hw', rfl⟩

theorem WeeksKept.wktrans {a b c : DB} (h1 : WeeksKept a b)
    (h2 : WeeksKept b c) : WeeksKept a c := by
  intro w' hw'
  obtain ⟨x, hx, e1⟩ := h1 w' hw'
  obtain ⟨y, hy, e2⟩ := h2 x hx
  exact ⟨y, hy, by omega⟩

theorem weeksKept_of_map_eq {x y : DB}
    (h : y.weeks.map (fun w => w.id) = x.weeks.map (fun w => w.id)) :
    WeeksKept x y := by
  intro w' hw'
  have : w'.id ∈ y.weeks.map (fun w => w.id) := by
    rw [h]
    exact List.mem_map_of_mem _ hw'
  obtain ⟨w'', hw'', he⟩ := List.mem_map.mp this
  exact ⟨w'', hw'', he⟩

theorem createPage_weeks (db : DB) (wid n : Nat) (pd : PageView) :
    (createPage db wid n pd).weeks = db.weeks := by
  unfold createPage insertPageRow insertQuestionsAt insertResources
    insertVideosCreated
  dsimp only
  split <;> split <;> split <;> rfl

theorem createWeekWithNumber_weeksKept (db : DB) (mid wn : Nat)
    (wd : WeekData) : WeeksKept db (createWeekWithNumber db mid wn wd) := by
  unfold createWeekWithNumber
  dsimp only
  refine WeeksKept.wktrans (?_ : WeeksKept db { db with
      weeks := db.weeks ++
        [⟨db.nextId, mid, wn, wd.title, jsOrNull wd.description,
          jsOrNull wd.unlockDate⟩]
      nextId := db.nextId + 1 }) ?_
  · exact fun w' hw' => ⟨w', List.mem_append_left _ hw', rfl⟩
  · apply foldl_invariant WeeksKept WeeksKept.wkrefl
      (fun p q r => WeeksKept.wktrans)
    intro b e _
    exact fun w' hw' => ⟨w', by rw [createPage_weeks]; exact hw', rfl⟩

theorem syncToActiveModule_weeksKept (db : DB) (t a : Nat) :
    WeeksKept db (syncToActiveModule db t a).2 := by
  unfold syncToActiveModule
  cases getModule db t with
  | none => exact WeeksKept.wkrefl db
  | some template =>
    dsimp only
    split
    · exact WeeksKept.wkrefl db
    · cases getModule db a with
      | none => exact WeeksKept.wkrefl db
      | some activeModule =>
        dsimp only
        split
        · exact WeeksKept.wkrefl db
        · show WeeksKept db (syncModuleContent db t a template)
          unfold syncModuleContent
          dsimp only
          have k1 : WeeksKept db (syncModuleInfoStep db a template) :=
            fun w' hw' => ⟨w', hw', rfl⟩
          have k2 : WeeksKept (syncModuleInfoStep db a template)
              (syncZoomStep (syncModuleInfoStep db a template) t a) :=
            fun w' hw' => ⟨w', by rw [syncZoomStep_weeks]; exact hw', rfl⟩
          refine (k1.wktrans k2).wktrans ?_
          unfold syncWeeksStep
          apply foldl_invariant WeeksKept WeeksKept.wkrefl
            (fun p q r => WeeksKept.wktrans)
          intro b tw _
          cases jsMapGet (fun aw => aw.id) tw.id
              (getWeeks (syncZoomStep (syncModuleInfoStep db a template) t a)
                a) with
          | some aw =>
            exact weeksKept_of_map_eq
              (syncWeekContent_frame b tw aw a).2.2.2.2.1
          | none => exact createWeekWithNumber_weeksKept b a tw.id _

theorem syncModuleInfoStep_wfm (db : DB) (a : Nat) (tv : ModuleView) :
    WFMono db (syncModuleInfoStep db a tv) :=
  updateModule_wfm db a _

/-- C8.  An active week whose week number has no counterpart in the
template survives `syncToActiveModule` completely unchanged: the week row
itself is still present verbatim, its page set, and the questions,
resources and videos under each of its pages are all untouched, and the
`progress` table is byte-identical; moreover sync never deletes any week
row (every pre-existing week id survives).  Uniqueness of row ids
(`DBWF`, the `BIGSERIAL` invariant) is assumed. -/
theorem C8_extra_weeks_preserved (db : DB) (t a : Nat) (w : WeekRow)
    (hWF : DBWF db) (hw : w ∈ db.weeks) (_hma : w.module_id = a)
    (hnone : ∀ x ∈ db.weeks, x.module_id = t →
      x.week_number ≠ w.week_number) :
    (w ∈ (syncToActiveModule db t a).2.weeks ∧
     (syncToActiveModule db t a).2.pages.filter (fun p => p.week_id = w.id) =
       db.pages.filter (fun p => p.week_id = w.id) ∧
     (∀ p ∈ db.pages, p.week_id = w.id →
       ((syncToActiveModule db t a).2.questions.filter
           (fun q => q.page_id = p.id) =
         db.questions.filter (fun q => q.page_id = p.id) ∧
        (syncToActiveModule db t a).2.resources.filter
           (fun r => r.page_id = p.id) =
         db.resources.filter (fun r => r.page_id = p.id) ∧
        (syncToActiveModule db t a).2.videos.filter
           (fun v => v.page_id = p.id) =
         db.videos.filter (fun v => v.page_id = p.id))) ∧
     (syncToActiveModule db t a).2.progress = db.progress) ∧
    (∀ w' ∈ db.weeks, ∃ w'' ∈ (syncToActiveModule db t a).2.weeks,
      w''.id = w'.id) := by
  have hunt : UntouchedWeek db w (syncToActiveModule db t a).2 := by
    unfold syncToActiveModule
    cases getModule db t with
    | none => exact UntouchedWeek.uwrefl db w hw
    | some template =>
      dsimp only
      split
      · exact UntouchedWeek.uwrefl db w hw
      · cases getModule db a with
        | none => exact UntouchedWeek.uwrefl db w hw
        | some activeModule =>
          dsimp only
          split
          · exact UntouchedWeek.uwrefl db w hw
          · show UntouchedWeek db w (syncModuleContent db t a template)
            unfold syncModuleContent
            dsimp only
            have h1 : UntouchedWeek db w (syncModuleInfoStep db a template) :=
              ⟨hw, rfl, fun p _ _ => ⟨rfl, rfl, rfl⟩⟩
            have h2 := syncZoomStep_untouched h1 t a
            have hwf2 : DBWF (syncZoomStep (syncModuleInfoStep db a template)
                t a) :=
              (syncZoomStep_wfm _ t a).1 ((syncModuleInfoStep_wfm db a
                template).1 hWF)
            have hnext2 : db.nextId ≤ (syncZoomStep
                (syncModuleInfoStep db a template) t a).nextId :=
              (syncModuleInfoStep_wfm db a template).2.trans
                (syncZoomStep_wfm _ t a).2
            refine syncWeeksStep_untouched hWF hw ⟨hwf2, hnext2, h2⟩ a _ _ ?_
            intro tv htv
            obtain ⟨wr, hwr, hwrm, hwrn⟩ := getWeeks_mem htv
            rw [syncZoomStep_weeks] at hwr
            have hwr' : wr ∈ db.weeks := hwr
            rw [← hwrn]
            exact hnone wr hwr' hwrm
  refine ⟨⟨hunt.1, hunt.2.1, hunt.2.2, (syncToActiveModule_frame db t a).2.1⟩,
    syncToActiveModule_weeksKept db t a⟩

/-- A store with an extra active-only week: the template (module 1) has
only week 1; the active module 2 has week 1 and an admin-added week 6
(row 21) with a page, question, resource, video and a progress row. -/
def dbC8 : DB :=
  { modules := [
      { id := 1, title := "T", description := none, instructor := none,
        duration := none, participation := none, time_expectations := none,
        status := "draft", template_id := none, launched_at := none,
        archived_at := none },
      { id := 2, title := "A", description := none, instructor := none,
        duration := none, participation := none, time_expectations := none,
        status := "launched", template_id := some 1,
        launched_at := some "LA", archived_at := none } ]
    zoom_info := []
    weeks := [
      { id := 10, module_id := 1, week_number := 1, title := "T1",
        description := none, unlock_date := none },
      { id := 20, module_id := 2, week_number := 1, title := "A1",
        description := none, unlock_date := none },
      { id := 21, module_id := 2, week_number := 6, title := "extra week",
        description := some "manual", unlock_date := none } ]
    pages := [
      { id := 30, week_id := 10, page_number := 1, title := "TP1",
        type := "reading", content := some "t" },
      { id := 40, week_id := 20, page_number := 1, title := "AP1",
        type := "reading", content := none },
      { id := 41, week_id := 21, page_number := 1, title := "XP1",
        type := "discussion", content := some "x" } ]
    questions := [
      { id := 60, page_id := 41, question_number := 1, text := "XQ1" } ]
    resources := [
      { id := 80, page_id := 41, title := "XR", url := some "xu",
        description := none, sort_order := 0 } ]
    videos := [
      { id := 81, page_id := 41, title := "XV", url := "xvu",
        description := none, duration := some "3:00", sort_order := 0 } ]
    discussion_posts := [
      { id := 90, question_id := 60, user_id := 7, parent_id := none,
        content := "a post", is_deleted := false } ]
    progress := [
      { id := 91, user_id := 7, week_id := 21, current_page := 1,
        completed := false, completed_at := none } ]
    nextId := 100 }

/-- The extra active-only week row of `dbC8`. -/
def c8w : WeekRow :=
  { id := 21, module_id := 2, week_number := 6, title := "extra week",
    description := some "manual", unlock_date := none }

/-- Witness for C8 at `dbC8`: active week 6 (row 21) has no counterpart in
the one-week template and survives the sync untouched with all its
contents. -/
theorem C8_extra_weeks_preserved_witness :
    (c8w ∈ (syncToActiveModule dbC8 1 2).2.weeks ∧
     (syncToActiveModule dbC8 1 2).2.pages.filter
        (fun p => p.week_id = c8w.id) =
       dbC8.pages.filter (fun p => p.week_id = c8w.id) ∧
     (∀ p ∈ dbC8.pages, p.week_id = c8w.id →
       ((syncToActiveModule dbC8 1 2).2.questions.filter
           (fun q => q.page_id = p.id) =
         dbC8.questions.filter (fun q => q.page_id = p.id) ∧
        (syncToActiveModule dbC8 1 2).2.resources.filter
           (fun r => r.page_id = p.id) =
         dbC8.resources.filter (fun r => r.page_id = p.id) ∧
        (syncToActiveModule dbC8 1 2).2.videos.filter
           (fun v => v.page_id = p.id) =
         dbC8.videos.filter (fun v => v.page_id = p.id))) ∧
     (syncToActiveModule dbC8 1 2).2.progress = dbC8.progress) ∧
    (∀ w' ∈ dbC8.weeks, ∃ w'' ∈ (syncToActiveModule dbC8 1 2).2.weeks,
      w''.id = w'.id) :=
  C8_extra_weeks_preserved dbC8 1 2 c8w (by unfold DBWF; decide)
    (by decide) rfl (by decide)

/-! ## Further list utilities (for the idempotence analysis) -/

/-- Prefix-tracking induction principle for `foldl`. -/
theorem foldl_establish {α β : Type} (P : List α → β → Prop) (f : β → α → β)
    (l : List α) (b : β) (h0 : P [] b)
    (step : ∀ done x todo b', l = done ++ x :: todo → P done b' →
      P (done ++ [x]) (f b' x)) :
    P l (l.foldl f b) := by
  suffices h : ∀ todo done b', l = done ++ todo → P done b' →
      P (done ++ todo) (todo.foldl f b') by
    have := h l [] b rfl h0
    simpa using this
  intro todo
  induction todo with
  | nil =>
    intro done b' _ hP
    simpa using hP
  | cons x xs ih =>
    intro done b' hl hP
    have h1 := step done x xs b' hl hP
    have h2 := ih (done ++ [x]) (f b' x) (by simpa using hl) h1
    simpa using h2

/-- A mapped rewrite that fixes every element is the identity. -/
theorem map_eq_self {α : Type} {l : List α} {f : α → α}
    (h : ∀ x ∈ l, f x = x) : l.map f = l :=
  (List.map_congr_left (fun x hx => (h x hx).trans rfl)).trans (List.map_id l)

/-- `find?` is unchanged by a map that fixes all hits and preserves the
predicate. -/
theorem find?_map_invariant {α : Type} (l : List α) (f : α → α)
    (p : α → Bool) (hfix : ∀ x ∈ l, p x = true → f x = x)
    (hsame : ∀ x ∈ l, p (f x) = p x) :
    (l.map f).find? p = l.find? p := by
  induction l with
  | nil => rfl
  | cons a l ih =>
    rw [List.map_cons, List.find?_cons, List.find?_cons]
    have hs := hsame a (by simp)
    by_cases hp : p a = true
    · rw [hfix a (by simp) hp]
      simp only [hp]
    · rw [Bool.not_eq_true] at hp
      rw [hs, hp]
      simp only [Bool.false_eq_true]
      exact ih (fun x hx => hfix x (by simp [hx]))
        (fun x hx => hsame x (by simp [hx]))

/-- Appending rows that all fail the predicate does not change `find?`. -/
theorem find?_append_none {α : Type} {l news : List α} {p : α → Bool}
    (h : ∀ x ∈ news, p x = false) :
    (l ++ news).find? p = l.find? p := by
  rw [List.find?_append]
  have hn : news.find? p = none := List.find?_eq_none.mpr (by
    intro x hx
    simp [h x hx])
  rw [hn]
  cases l.find? p <;> rfl

/-- On a duplicate-free list with a unique hit, `filter` returns exactly
that hit. -/
theorem filter_eq_single {α : Type} {l : List α} {p : α → Bool} {x : α}
    (hnd : l.Nodup) (hx : x ∈ l) (hpx : p x = true)
    (huniq : ∀ y ∈ l, p y = true → y = x) : l.filter p = [x] := by
  induction l with
  | nil => cases hx
  | cons a l ih =>
    rw [List.nodup_cons] at hnd
    rw [List.filter_cons]
    rcases List.mem_cons.mp hx with rfl | hx'
    · rw [hpx]
      simp only [if_true]
      have : l.filter p = [] := List.filter_eq_nil_iff.mpr (by
        intro y hy hpy
        have := huniq y (by simp [hy]) hpy
        subst this
        exact hnd.1 hy)
      rw [this]
    · have hpa : p a = false := by
        by_contra hc
        rw [Bool.not_eq_false] at hc
        have := huniq a (by simp) hc
        subst this
        exact hnd.1 hx'
      rw [hpa]
      simp only [Bool.false_eq_true, if_false]
      exact ih hnd.2 hx' (fun y hy hpy => huniq y (by simp [hy]) hpy)

/-- Sorting an already-sorted list is the identity. -/
theorem sortByKey_eq_self {α : Type} {f : α → Nat} {l : List α}
    (h : l.Pairwise (fun a b => f a ≤ f b)) : sortByKey f l = l := by
  induction l with
  | nil => rfl
  | cons a l ih =>
    rw [List.pairwise_cons] at h
    unfold sortByKey
    rw [ih h.2]
    cases l with
    | nil => rfl
    | cons b l2 =>
      unfold insertByKey
      rw [if_pos (h.1 b (by simp))]

/-- `jsMapGet` on a duplicate-free list with a unique key hit. -/
theorem jsMapGet_eq_single {α : Type} {key : α → Nat} {k : Nat} {l : List α}
    {x : α} (hnd : l.Nodup) (hx : x ∈ l) (hk : key x = k)
    (huniq : ∀ y ∈ l, key y = k → y = x) :
    jsMapGet key k l = some x := by
  unfold jsMapGet
  rw [filter_eq_single hnd hx (by simpa using hk)
    (fun y hy hpy => huniq y hy (by simpa using hpy))]
  rfl

/-- `jsMapGet` misses exactly when no element carries the key. -/
theorem jsMapGet_none {α : Type} {key : α → Nat} {k : Nat} {l : List α}
    (h : jsMapGet key k l = none) : ∀ y ∈ l, key y ≠ k := by
  unfold jsMapGet at h
  have : l.filter (fun a => key a = k) = [] :=
    List.getLast?_eq_none_iff.mp h
  intro y hy hk
  have : y ∈ l.filter (fun a => key a = k) :=
    List.mem_filter.mpr ⟨hy, by simpa using hk⟩
  rw [List.getLast?_eq_none_iff.mp h] at this
  cases this

/-- Every week row of a module appears in its `getWeeks` view. -/
theorem mem_getWeeks_of_row {db : DB} {mid : Nat} {wr : WeekRow}
    (h : wr ∈ db.weeks) (hm : wr.module_id = mid) :
    ∃ tv ∈ getWeeks db mid, tv.id = wr.week_number := by
  unfold getWeeks
  refine ⟨_, List.mem_map_of_mem _ (mem_sortByKey.mpr
    (List.mem_filter.mpr ⟨h, by simpa using hm⟩)), rfl⟩

/-! ## Exactness of the `weeks` and `zoom_info` tables under page-level ops -/

theorem syncResourcesOfPage_weeks (db : DB) (pid : Nat)
    (rs : List ResourceView) :
    (syncResourcesOfPage db pid rs).weeks = db.weeks := by
  unfold syncResourcesOfPage insertResources
  dsimp only
  split <;> rfl

theorem syncVideosOfPage_weeks (db : DB) (pid : Nat) (vs : List VideoView) :
    (syncVideosOfPage db pid vs).weeks = db.weeks := by
  unfold syncVideosOfPage insertVideosSynced
  dsimp only
  split <;> rfl

theorem insertQuestionRows_weeks (db : DB) (pid : Nat)
    (qs : List (Nat × QuestionView)) :
    (insertQuestionRows db pid qs).weeks = db.weeks := by
  unfold insertQuestionRows
  split <;> rfl

theorem reconcileQuestionsWith_weeks (db : DB) (pid : Nat)
    (exqs : List QuestionRow) (tqs : List QuestionView) :
    (reconcileQuestionsWith db pid exqs tqs).weeks = db.weeks := by
  unfold reconcileQuestionsWith
  rw [insertQuestionRows_weeks]
  apply foldl_invariant (fun a b : DB => b.weeks = a.weeks) (fun _ => rfl)
    (fun a b c h1 h2 => by exact h2.trans h1)
  intro b e _
  cases exqs.find? (fun q => q.question_number = e.1 + 1) with
  | none => rfl
  | some existingQ => rfl

theorem syncPageContent_weeks (db : DB) (tp : PageView) (ap : PageRow) :
    (syncPageContent db tp ap).weeks = db.weeks := by
  unfold syncPageContent reconcileQuestions
  dsimp only
  rw [reconcileQuestionsWith_weeks, syncVideosOfPage_weeks,
    syncResourcesOfPage_weeks]
  rfl

theorem syncWeekContent_weeks (db : DB) (tw aw : WeekView) (a : Nat) :
    (syncWeekContent db tw aw a).weeks =
      (updateActiveWeekRow db a aw.id tw).weeks := by
  unfold syncWeekContent
  dsimp only
  split
  · rfl
  · apply foldl_invariant (fun x y : DB => y.weeks = x.weeks) (fun _ => rfl)
      (fun x y z h1 h2 => by exact h2.trans h1)
    intro b e _
    cases (sortByKey (fun p => p.page_number)
        (List.filter _ (updateActiveWeekRow db a aw.id tw).pages))[e.1]? with
    | none => rfl
    | some activePage => exact syncPageContent_weeks b e.2 activePage

theorem createPage_zoom (db : DB) (wid n : Nat) (pd : PageView) :
    (createPage db wid n pd).zoom_info = db.zoom_info := by
  unfold createPage insertPageRow insertQuestionsAt insertResources
    insertVideosCreated
  dsimp only
  split <;> split <;> split <;> rfl

theorem createWeekWithNumber_zoom (db : DB) (mid wn : Nat) (wd : WeekData) :
    (createWeekWithNumber db mid wn wd).zoom_info = db.zoom_info := by
  unfold createWeekWithNumber
  dsimp only
  apply foldl_invariant (fun a b : DB => b.zoom_info = a.zoom_info)
    (fun _ => rfl) (fun x y z h1 h2 => by exact h2.trans h1)
  intro b e _
  exact createPage_zoom b _ _ e.2

theorem createWeekWithNumber_weeks (db : DB) (mid wn : Nat) (wd : WeekData) :
    (createWeekWithNumber db mid wn wd).weeks =
      db.weeks ++ [⟨db.nextId, mid, wn, wd.title, jsOrNull wd.description,
        jsOrNull wd.unlockDate⟩] := by
  unfold createWeekWithNumber
  dsimp only
  exact foldl_invariant (fun a b : DB => b.weeks = a.weeks) (fun _ => rfl)
    (fun x y z h1 h2 => by exact h2.trans h1) _ wd.pages.enum _
    (fun b e _ => createPage_weeks b _ _ e.2)

/-! ## The template zone is untouched by a sync run -/

/-- Everything belonging to the template module `t` — its module row, its
zoom row, its week rows and everything under them — reads identically in
`cur` and in the original `db`. -/
def UntouchedTpl (db : DB) (t : Nat) (cur : DB) : Prop :=
  cur.modules.filter (fun m => m.id = t) =
    db.modules.filter (fun m => m.id = t) ∧
  cur.zoom_info.find? (fun z => z.module_id = t) =
    db.zoom_info.find? (fun z => z.module_id = t) ∧
  cur.weeks.filter (fun w => w.module_id = t) =
    db.weeks.filter (fun w => w.module_id = t) ∧
  ∀ w ∈ db.weeks, w.module_id = t → UntouchedWeek db w cur

theorem UntouchedTpl.refl (db : DB) (t : Nat) : UntouchedTpl db t db :=
  ⟨rfl, rfl, rfl, fun w hw _ => UntouchedWeek.uwrefl db w hw⟩

theorem updateModule_tpl {db : DB} {t : Nat} {cur : DB}
    (h : UntouchedTpl db t cur) (a : Nat) (u : ModuleUpdates)
    (hta : t ≠ a) : UntouchedTpl db t (updateModule cur a u) := by
  obtain ⟨h1, h2, h3, h4⟩ := h
  refine ⟨?_, h2, h3, fun w hw hm => updateModule_untouched (h4 w hw hm) a u⟩
  show ((cur.modules.map _).filter _) = _
  refine (filter_map_invariant _ _ _ ?_ ?_).trans h1
  · intro x _ hpx
    have hxt : x.id = t := of_decide_eq_true hpx
    rw [if_neg (by omega)]
  · intro x _
    by_cases hc : x.id = a <;> simp [hc, applyModuleUpdates]

theorem syncZoomStep_tpl {db : DB} {t : Nat} {cur : DB}
    (h : UntouchedTpl db t cur) (t' a : Nat) (hta : t ≠ a) :
    UntouchedTpl db t (syncZoomStep cur t' a) := by
  obtain ⟨h1, h2, h3, h4⟩ := h
  unfold syncZoomStep
  cases getZoomInfo cur t' with
  | none => exact ⟨h1, h2, h3, h4⟩
  | some tz =>
    show UntouchedTpl db t (updateZoomInfo cur a tz)
    unfold updateZoomInfo
    dsimp only
    split
    · refine ⟨h1, ?_, h3, ?_⟩
      · show ((cur.zoom_info.map _).find? _) = _
        refine (find?_map_invariant _ _ _ ?_ ?_).trans h2
        · intro x _ hpx
          have hxt : x.module_id = t := of_decide_eq_true hpx
          rw [if_neg (by omega)]
        · intro x _
          by_cases hc : x.module_id = a <;> simp [hc, hta.symm]
      · intro w hw hm
        obtain ⟨u1, u2, u3⟩ := h4 w hw hm
        exact ⟨u1, u2, u3⟩
    · refine ⟨h1, ?_, h3, ?_⟩
      · show ((cur.zoom_info ++ _).find? _) = _
        refine (find?_append_none ?_).trans h2
        intro x hx
        rw [List.mem_singleton] at hx
        subst hx
        simpa using hta.symm
      · intro w hw hm
        obtain ⟨u1, u2, u3⟩ := h4 w hw hm
        exact ⟨u1, u2, u3⟩

theorem syncWeekContent_tpl {db : DB} {t : Nat} {cur : DB}
    (hwf : DBWF cur) (h : UntouchedTpl db t cur)
    (tw aw : WeekView) (a : Nat) (hta : t ≠ a) :
    UntouchedTpl db t (syncWeekContent cur tw aw a) := by
  obtain ⟨h1, h2, h3, h4⟩ := h
  have hfr := syncWeekContent_frame cur tw aw a
  refine ⟨hfr.2.2.1 ▸ h1, hfr.2.2.2.1 ▸ h2, ?_, ?_⟩
  · rw [syncWeekContent_weeks]
    show ((cur.weeks.map _).filter _) = _
    refine (filter_map_invariant _ _ _ ?_ ?_).trans h3
    · intro x _ hpx
      have hxt : x.module_id = t := of_decide_eq_true hpx
      rw [if_neg (by
        intro hc
        exact hta (by omega))]
    · intro x _
      by_cases hc : x.module_id = a ∧ x.week_number = aw.id <;> simp [hc]
  · intro w hw hm
    exact syncWeekContent_untouched hwf (h4 w hw hm) tw aw a
      (Or.inl (by omega))

theorem createWeekWithNumber_tpl {db : DB} {t : Nat} {cur : DB}
    (hWForig : DBWF db) (h : UntouchedTpl db t cur)
    (hnext : db.nextId ≤ cur.nextId)
    (a wn : Nat) (wd : WeekData) (hta : t ≠ a) :
    UntouchedTpl db t (createWeekWithNumber cur a wn wd) := by
  obtain ⟨h1, h2, h3, h4⟩ := h
  refine ⟨?_, ?_, ?_, ?_⟩
  · rw [createWeekWithNumber_modules]
    exact h1
  · rw [createWeekWithNumber_zoom]
    exact h2
  · rw [createWeekWithNumber_weeks]
    refine (filter_append_none ?_).trans h3
    intro x hx
    rw [List.mem_singleton] at hx
    subst hx
    simpa using hta.symm
  · intro w hw hm
    exact createWeekWithNumber_untouched hWForig hw (h4 w hw hm) hnext a wn wd

theorem syncWeeksStep_tpl {db : DB} {t : Nat} {cur : DB}
    (hWForig : DBWF db)
    (hcur : DBWF cur ∧ db.nextId ≤ cur.nextId ∧ UntouchedTpl db t cur)
    (a : Nat) (tws aws : List WeekView) (hta : t ≠ a) :
    UntouchedTpl db t (syncWeeksStep cur a tws aws) := by
  unfold syncWeeksStep
  refine (foldl_invariant
    (fun x y => (DBWF x ∧ db.nextId ≤ x.nextId ∧ UntouchedTpl db t x) →
      (DBWF y ∧ db.nextId ≤ y.nextId ∧ UntouchedTpl db t y))
    (fun b hb => hb) (fun p q r g1 g2 hb => g2 (g1 hb)) _ tws cur
    ?_ hcur).2.2
  intro b tw _ hb
  cases jsMapGet (fun aw => aw.id) tw.id aws with
  | some aw =>
    exact ⟨(syncWeekContent_wfm b tw aw a).1 hb.1,
      hb.2.1.trans (syncWeekContent_wfm b tw aw a).2,
      syncWeekContent_tpl hb.1 hb.2.2 tw aw a hta⟩
  | none =>
    exact ⟨(createWeekWithNumber_wfm b a tw.id _).1 hb.1,
      hb.2.1.trans (createWeekWithNumber_wfm b a tw.id _).2,
      createWeekWithNumber_tpl hWForig hb.2.2 hb.2.1 a tw.id _ hta⟩

/-! ## General idempotence of sync: further list machinery -/

/-- `filter` commutes with a `map` that does not change the predicate. -/
theorem filter_map_comm {α : Type} {l : List α} {f : α → α} {p : α → Bool}
    (hsame : ∀ x ∈ l, p (f x) = p x) :
    (l.map f).filter p = (l.filter p).map f := by
  induction l with
  | nil => rfl
  | cons a l ih =>
    rw [List.map_cons, List.filter_cons, List.filter_cons]
    rw [hsame a (by simp)]
    by_cases hp : p a = true
    · rw [hp]
      simp only [if_true]
      rw [List.map_cons, ih (fun x hx => hsame x (by simp [hx]))]
    · rw [Bool.not_eq_true] at hp
      rw [hp]
      simp only [Bool.false_eq_true, if_false]
      exact ih (fun x hx => hsame x (by simp [hx]))

theorem insertByKey_perm {α : Type} (f : α → Nat) (a : α) (l : List α) :
    List.Perm (insertByKey f a l) (a :: l) := by
  induction l with
  | nil => exact List.Perm.refl _
  | cons b l ih =>
    unfold insertByKey
    split
    · exact List.Perm.refl _
    · exact (List.Perm.cons b ih).trans (List.Perm.swap a b l)

theorem sortByKey_perm {α : Type} (f : α → Nat) (l : List α) :
    List.Perm (sortByKey f l) l := by
  induction l with
  | nil => exact List.Perm.refl _
  | cons a l ih =>
    unfold sortByKey
    exact (insertByKey_perm f a (sortByKey f l)).trans (List.Perm.cons a ih)

theorem insertByKey_map_comm {α : Type} {f : α → α} {key : α → Nat}
    (hk : ∀ x, key (f x) = key x) (a : α) (l : List α) :
    insertByKey key (f a) (l.map f) = (insertByKey key a l).map f := by
  induction l with
  | nil => rfl
  | cons b l ih =>
    show insertByKey key (f a) (f b :: l.map f) = _
    unfold insertByKey
    rw [hk a, hk b]
    by_cases hc : key a ≤ key b
    · rw [if_pos hc, if_pos hc, List.map_cons, List.map_cons]
    · rw [if_neg hc, if_neg hc, List.map_cons, ih]

theorem sortByKey_map_comm {α : Type} {f : α → α} {key : α → Nat}
    (hk : ∀ x, key (f x) = key x) (l : List α) :
    sortByKey key (l.map f) = (sortByKey key l).map f := by
  induction l with
  | nil => rfl
  | cons a l ih =>
    show sortByKey key (f a :: l.map f) = _
    unfold sortByKey
    rw [ih]
    exact insertByKey_map_comm hk a (sortByKey key l)

/-- If the image under `g` is duplicate free and `f` separates at least as
much as `g` on the list, the image under `f` is duplicate free too. -/
theorem nodup_map_of_nodup_map {α β γ : Type} {l : List α} {f : α → β}
    {g : α → γ} (h : (l.map g).Nodup)
    (hfg : ∀ x ∈ l, ∀ y ∈ l, f x = f y → g x = g y) : (l.map f).Nodup := by
  induction l with
  | nil => exact List.nodup_nil
  | cons a l ih =>
    rw [List.map_cons, List.nodup_cons] at h ⊢
    refine ⟨?_, ih h.2 (fun x hx y hy => hfg x (by simp [hx]) y (by simp [hy]))⟩
    intro hmem
    obtain ⟨x, hx, hfx⟩ := List.mem_map.mp hmem
    have hgx : g x = g a := hfg x (by simp [hx]) a (by simp) hfx
    exact h.1 (hgx ▸ List.mem_map_of_mem g hx)

theorem nodup_getElem_ne {α : Type} {l : List α} (h : l.Nodup) {i j : Nat}
    (hij : i ≠ j) {x y : α} (hx : l[i]? = some x) (hy : l[j]? = some y) :
    x ≠ y := by
  intro hxy
  subst hxy
  have hi : i < l.length := by
    by_contra hc
    rw [List.getElem?_eq_none (by omega)] at hx
    cases hx
  have hj : j < l.length := by
    by_contra hc
    rw [List.getElem?_eq_none (by omega)] at hy
    cases hy
  rw [List.getElem?_eq_getElem hi] at hx
  rw [List.getElem?_eq_getElem hj] at hy
  have hij2 : l[i] = l[j] := by
    rw [Option.some_inj.mp hx, Option.some_inj.mp hy]
  exact hij ((List.Nodup.getElem_inj_iff h).mp hij2)

/-- In a decomposition of `l.enum` the pivot carries index `|D|` and every
element of the prefix a smaller index. -/
theorem enum_prefix_fst {α : Type} {l : List α} {D rest : List (Nat × α)}
    {e : Nat × α} (h : l.enum = D ++ e :: rest) :
    e.1 = D.length ∧ ∀ e2 ∈ D, e2.1 < D.length := by
  constructor
  · have h1 : l.enum[D.length]? = some e := by
      rw [h, List.getElem?_append_right (Nat.le_refl D.length)]
      simp
    rw [List.getElem?_enum] at h1
    cases hx : l[D.length]? with
    | none =>
      rw [hx] at h1
      cases h1
    | some v =>
      rw [hx] at h1
      have h2 : (D.length, v) = e := Option.some_inj.mp h1
      rw [← h2]
  · intro e2 he2
    obtain ⟨j, hj⟩ := List.mem_iff_getElem?.mp he2
    have hjlen : j < D.length := by
      by_contra hc
      rw [List.getElem?_eq_none (by omega)] at hj
      cases hj
    have h1 : l.enum[j]? = some e2 := by
      rw [h, List.getElem?_append_left hjlen]
      exact hj
    rw [List.getElem?_enum] at h1
    cases hx : l[j]? with
    | none =>
      rw [hx] at h1
      cases h1
    | some v =>
      rw [hx] at h1
      have h2 : (j, v) = e2 := Option.some_inj.mp h1
      rw [← h2]
      exact hjlen

theorem getD_getD {α : Type} (o : Option α) (x : α) :
    o.getD (o.getD x) = o.getD x := by cases o <;> rfl

/-- Applying the same `updateModule` payload twice is the same as applying
it once. -/
theorem applyModuleUpdates_idem (u : ModuleUpdates) (m : ModuleRow) :
    applyModuleUpdates u (applyModuleUpdates u m) = applyModuleUpdates u m := by
  unfold applyModuleUpdates
  dsimp only
  rw [getD_getD, getD_getD, getD_getD, getD_getD, getD_getD, getD_getD,
    getD_getD, getD_getD]

/-! ## Strengthened well-formedness: uniqueness constraints and key bounds -/

/-- `DBWF` plus the `UNIQUE(module_id, week_number)` constraint on `weeks`,
per-page uniqueness of `question_number`, and freshness bounds on the
foreign keys of the child tables. -/
def DBWF2 (db : DB) : Prop :=
  DBWF db ∧
  (db.weeks.map (fun w => (w.module_id, w.week_number))).Nodup ∧
  (db.questions.map (fun q => (q.page_id, q.question_number))).Nodup ∧
  (∀ q ∈ db.questions, q.page_id < db.nextId) ∧
  (∀ p ∈ db.pages, p.week_id < db.nextId) ∧
  (∀ r ∈ db.resources, r.page_id < db.nextId) ∧
  (∀ v ∈ db.videos, v.page_id < db.nextId)

/-- `DBWF2` transfers along table equalities with a monotone id counter. -/
theorem DBWF2_of {db db2 : DB} (h : DBWF2 db)
    (hw : db2.weeks = db.weeks) (hp : db2.pages = db.pages)
    (hq : db2.questions = db.questions)
    (hr : db2.resources = db.resources) (hv : db2.videos = db.videos)
    (hn : db.nextId ≤ db2.nextId) : DBWF2 db2 := by
  obtain ⟨h1, h2, h3, h4, h5, h6, h7⟩ := h
  refine ⟨DBWF_of h1 hw hp hq hn, hw ▸ h2, hq ▸ h3, ?_, ?_, ?_, ?_⟩
  · intro q hq2
    exact lt_of_lt_of_le (h4 q (hq ▸ hq2)) hn
  · intro p hp2
    exact lt_of_lt_of_le (h5 p (hp ▸ hp2)) hn
  · intro r hr2
    exact lt_of_lt_of_le (h6 r (hr ▸ hr2)) hn
  · intro v hv2
    exact lt_of_lt_of_le (h7 v (hv ▸ hv2)) hn

theorem map_proj_eq {α β : Type} (l : List α) (f : α → α) (g : α → β)
    (hf : ∀ x, g (f x) = g x) : (l.map f).map g = l.map g := by
  rw [List.map_map]
  exact List.map_congr_left (fun x _ => hf x)

theorem updateModule_wf2 (db : DB) (mid : Nat) (u : ModuleUpdates)
    (h : DBWF2 db) : DBWF2 (updateModule db mid u) :=
  DBWF2_of h rfl rfl rfl rfl rfl (Nat.le_refl _)

theorem updateZoomInfo_wf2 (db : DB) (mid : Nat) (z : ZoomView)
    (h : DBWF2 db) : DBWF2 (updateZoomInfo db mid z) := by
  unfold updateZoomInfo
  dsimp only
  split
  · exact DBWF2_of h rfl rfl rfl rfl rfl (Nat.le_refl _)
  · exact DBWF2_of h rfl rfl rfl rfl rfl (Nat.le_refl _)

theorem syncZoomStep_wf2 (db : DB) (t a : Nat) (h : DBWF2 db) :
    DBWF2 (syncZoomStep db t a) := by
  unfold syncZoomStep
  cases getZoomInfo db t with
  | none => exact h
  | some tz => exact updateZoomInfo_wf2 db a tz h

theorem updateActiveWeekRow_wf2 (db : DB) (mid wn : Nat) (tw : WeekView)
    (h : DBWF2 db) : DBWF2 (updateActiveWeekRow db mid wn tw) := by
  obtain ⟨h1, h2, h3, h4, h5, h6, h7⟩ := h
  refine ⟨(updateActiveWeekRow_wfm db mid wn tw).1 h1, ?_, h3, h4, h5, h6, h7⟩
  show ((db.weeks.map _).map _).Nodup
  rw [map_proj_eq db.weeks (fun w =>
      if w.module_id = mid ∧ w.week_number = wn then
        { w with title := tw.title, description := tw.description,
                 unlock_date := tw.unlockDate }
      else w) (fun w => (w.module_id, w.week_number)) (fun w => by
    dsimp only
    by_cases hc : w.module_id = mid ∧ w.week_number = wn
    · rw [if_pos hc]
    · rw [if_neg hc])]
  exact h2

theorem updatePageRow_wf2 (db : DB) (pid : Nat) (title ty : String)
    (content : Option String) (h : DBWF2 db) :
    DBWF2 (updatePageRow db pid title ty content) := by
  obtain ⟨h1, h2, h3, h4, h5, h6, h7⟩ := h
  refine ⟨(updatePageRow_wfm db pid title ty content).1 h1,
    h2, h3, h4, ?_, h6, h7⟩
  intro p hp
  obtain ⟨p0, hp0, rfl⟩ := List.mem_map.mp hp
  by_cases hc : p0.id = pid
  · rw [if_pos hc]
    exact h5 p0 hp0
  · rw [if_neg hc]
    exact h5 p0 hp0

theorem updateQuestionText_wf2 (db : DB) (qid : Nat) (text : String)
    (h : DBWF2 db) : DBWF2 (updateQuestionText db qid text) := by
  obtain ⟨h1, h2, h3, h4, h5, h6, h7⟩ := h
  refine ⟨(updateQuestionText_wfm db qid text).1 h1, h2, ?_, ?_, h5, h6, h7⟩
  · show ((db.questions.map _).map _).Nodup
    rw [map_proj_eq db.questions (fun q =>
        if q.id = qid then { q with text := text } else q)
      (fun q => (q.page_id, q.question_number)) (fun q => by
      dsimp only
      by_cases hc : q.id = qid
      · rw [if_pos hc]
      · rw [if_neg hc])]
    exact h3
  · intro q hq
    obtain ⟨q0, hq0, rfl⟩ := List.mem_map.mp hq
    by_cases hc : q0.id = qid
    · rw [if_pos hc]
      exact h4 q0 hq0
    · rw [if_neg hc]
      exact h4 q0 hq0

/-- `DBWF2` transfer when only the media tables changed, with fresh bounds
provided for them. -/
theorem DBWF2_media {db db2 : DB} (h : DBWF2 db) (hwf : DBWF db2)
    (hw : db2.weeks = db.weeks) (hp : db2.pages = db.pages)
    (hq : db2.questions = db.questions)
    (hn : db.nextId ≤ db2.nextId)
    (hres : ∀ r ∈ db2.resources, r.page_id < db2.nextId)
    (hvid : ∀ v ∈ db2.videos, v.page_id < db2.nextId) : DBWF2 db2 := by
  obtain ⟨h1, h2, h3, h4, h5, h6, h7⟩ := h
  refine ⟨hwf, hw ▸ h2, hq ▸ h3, ?_, ?_, hres, hvid⟩
  · intro q hq2
    exact lt_of_lt_of_le (h4 q (hq ▸ hq2)) hn
  · intro p hp2
    exact lt_of_lt_of_le (h5 p (hp ▸ hp2)) hn

theorem syncResourcesOfPage_tables (db : DB) (pid : Nat)
    (rs : List ResourceView) :
    (syncResourcesOfPage db pid rs).pages = db.pages ∧
    (syncResourcesOfPage db pid rs).questions = db.questions ∧
    (syncResourcesOfPage db pid rs).videos = db.videos := by
  unfold syncResourcesOfPage insertResources
  dsimp only
  split <;> exact ⟨rfl, rfl, rfl⟩

theorem syncVideosOfPage_tables (db : DB) (pid : Nat) (vs : List VideoView) :
    (syncVideosOfPage db pid vs).pages = db.pages ∧
    (syncVideosOfPage db pid vs).questions = db.questions ∧
    (syncVideosOfPage db pid vs).resources = db.resources := by
  unfold syncVideosOfPage insertVideosSynced
  dsimp only
  split <;> exact ⟨rfl, rfl, rfl⟩

theorem syncResourcesOfPage_res_bound (db : DB) (pid : Nat)
    (rs : List ResourceView) (hpid : pid < db.nextId)
    (h : ∀ r ∈ db.resources, r.page_id < db.nextId) :
    ∀ r ∈ (syncResourcesOfPage db pid rs).resources,
      r.page_id < (syncResourcesOfPage db pid rs).nextId := by
  unfold syncResourcesOfPage insertResources
  dsimp only
  split
  · intro r hr
    show r.page_id < db.nextId + rs.length
    rcases List.mem_append.mp hr with hr2 | hr2
    · have := h r (List.mem_of_mem_filter hr2)
      omega
    · obtain ⟨e, _, he⟩ := List.mem_map.mp hr2
      obtain ⟨idx, rv⟩ := e
      rw [← he]
      show pid < db.nextId + rs.length
      omega
  · intro r hr
    show r.page_id < db.nextId
    exact h r (List.mem_of_mem_filter hr)

theorem syncVideosOfPage_vid_bound (db : DB) (pid : Nat)
    (vs : List VideoView) (hpid : pid < db.nextId)
    (h : ∀ v ∈ db.videos, v.page_id < db.nextId) :
    ∀ v ∈ (syncVideosOfPage db pid vs).videos,
      v.page_id < (syncVideosOfPage db pid vs).nextId := by
  unfold syncVideosOfPage insertVideosSynced
  dsimp only
  split
  · intro v hv
    show v.page_id < db.nextId + vs.length
    rcases List.mem_append.mp hv with hv2 | hv2
    · have := h v (List.mem_of_mem_filter hv2)
      omega
    · obtain ⟨e, _, he⟩ := List.mem_map.mp hv2
      obtain ⟨idx, vv⟩ := e
      rw [← he]
      show pid < db.nextId + vs.length
      omega
  · intro v hv
    show v.page_id < db.nextId
    exact h v (List.mem_of_mem_filter hv)

theorem syncResourcesOfPage_wf2 (db : DB) (pid : Nat) (rs : List ResourceView)
    (hpid : pid < db.nextId) (h : DBWF2 db) :
    DBWF2 (syncResourcesOfPage db pid rs) := by
  have ht := syncResourcesOfPage_tables db pid rs
  refine DBWF2_media h ((syncResourcesOfPage_wfm db pid rs).1 h.1)
    (syncResourcesOfPage_weeks db pid rs) ht.1 ht.2.1
    (syncResourcesOfPage_wfm db pid rs).2
    (syncResourcesOfPage_res_bound db pid rs hpid h.2.2.2.2.2.1) ?_
  rw [ht.2.2]
  intro v hv
  exact lt_of_lt_of_le (h.2.2.2.2.2.2 v hv)
    (syncResourcesOfPage_wfm db pid rs).2

theorem syncVideosOfPage_wf2 (db : DB) (pid : Nat) (vs : List VideoView)
    (hpid : pid < db.nextId) (h : DBWF2 db) :
    DBWF2 (syncVideosOfPage db pid vs) := by
  have ht := syncVideosOfPage_tables db pid vs
  refine DBWF2_media h ((syncVideosOfPage_wfm db pid vs).1 h.1)
    (syncVideosOfPage_weeks db pid vs) ht.1 ht.2.1
    (syncVideosOfPage_wfm db pid vs).2 ?_
    (syncVideosOfPage_vid_bound db pid vs hpid h.2.2.2.2.2.2)
  rw [ht.2.2]
  intro r hr
  exact lt_of_lt_of_le (h.2.2.2.2.2.1 r hr) (syncVideosOfPage_wfm db pid vs).2

theorem insertQuestionRows_wf2 (db : DB) (pid : Nat)
    (qs : List (Nat × QuestionView)) (hpid : pid < db.nextId)
    (hnums : (qs.map (fun e => e.1)).Nodup)
    (habs : ∀ e ∈ qs, ∀ q ∈ db.questions, q.page_id = pid →
      q.question_number ≠ e.1 + 1)
    (h : DBWF2 db) : DBWF2 (insertQuestionRows db pid qs) := by
  obtain ⟨h1, h2, h3, h4, h5, h6, h7⟩ := h
  by_cases hlen : qs.length > 0
  · have hif : insertQuestionRows db pid qs = { db with
        questions := db.questions ++ qs.enum.map (fun (j, e) =>
          { id := db.nextId + j, page_id := pid,
            question_number := e.1 + 1, text := e.2.text })
        nextId := db.nextId + qs.length } := by
      unfold insertQuestionRows
      rw [if_pos hlen]
    have hwf : DBWF (insertQuestionRows db pid qs) :=
      (insertQuestionRows_wfm db pid qs).1 h1
    rw [hif] at hwf ⊢
    refine ⟨hwf, h2, ?_, ?_, ?_, ?_, ?_⟩
    · show ((db.questions ++ _).map _).Nodup
      rw [List.map_append, List.nodup_append]
      have hpairs : ((qs.enum.map (fun (j, e) =>
          ({ id := db.nextId + j, page_id := pid,
             question_number := e.1 + 1, text := e.2.text } :
            QuestionRow))).map
            (fun q => (q.page_id, q.question_number))) =
          qs.map (fun e => (pid, e.1 + 1)) := by
        rw [List.map_map]
        have hco : ((fun q : QuestionRow => (q.page_id, q.question_number)) ∘
            (fun (je : Nat × (Nat × QuestionView)) =>
              ({ id := db.nextId + je.1, page_id := pid,
                 question_number := je.2.1 + 1, text := je.2.2.text } :
                QuestionRow))) =
            (fun e : Nat × QuestionView => (pid, e.1 + 1)) ∘ Prod.snd := by
          funext x
          obtain ⟨j, e⟩ := x
          rfl
        rw [show (fun (je : Nat × (Nat × QuestionView)) =>
            ({ id := db.nextId + je.1, page_id := pid,
               question_number := je.2.1 + 1, text := je.2.2.text } :
              QuestionRow)) = (fun (j, e) =>
            ({ id := db.nextId + j, page_id := pid,
               question_number := e.1 + 1, text := e.2.text } :
              QuestionRow)) from rfl] at hco
        rw [hco, ← List.map_map, List.enum_map_snd]
      rw [hpairs]
      refine ⟨h3, ?_, ?_⟩
      · refine nodup_map_of_nodup_map hnums ?_
        intro x _ y _ hf
        have := congrArg Prod.snd hf
        simpa using this
      · intro x hx hx2
        obtain ⟨q, hq, rfl⟩ := List.mem_map.mp hx
        obtain ⟨e, he, hpe⟩ := List.mem_map.mp hx2
        have h1e : q.page_id = pid := by
          have := congrArg Prod.fst hpe
          simpa using this.symm
        have h2e : q.question_number = e.1 + 1 := by
          have := congrArg Prod.snd hpe
          simpa using this.symm
        exact habs e he q hq h1e h2e
    · intro q hq
      show q.page_id < db.nextId + qs.length
      rcases List.mem_append.mp hq with hq2 | hq2
      · have := h4 q hq2
        omega
      · obtain ⟨e, _, he⟩ := List.mem_map.mp hq2
        obtain ⟨j, e2⟩ := e
        rw [← he]
        show pid < db.nextId + qs.length
        omega
    · intro p hp
      show p.week_id < db.nextId + qs.length
      have := h5 p hp
      omega
    · intro r hr
      show r.page_id < db.nextId + qs.length
      have := h6 r hr
      omega
    · intro v hv
      show v.page_id < db.nextId + qs.length
      have := h7 v hv
      omega
  · have hif : insertQuestionRows db pid qs = db := by
      unfold insertQuestionRows
      rw [if_neg hlen]
    rw [hif]
    exact ⟨h1, h2, h3, h4, h5, h6, h7⟩

theorem insertPageRow_wf2 (db : DB) (row : PageRow)
    (hid : row.id = db.nextId) (hwid : row.week_id < db.nextId)
    (h : DBWF2 db) : DBWF2 (insertPageRow db row) := by
  obtain ⟨h1, h2, h3, h4, h5, h6, h7⟩ := h
  refine ⟨(insertPageRow_wfm db row hid).1 h1, h2, h3, ?_, ?_, ?_, ?_⟩
  · intro q hq
    show q.page_id < db.nextId + 1
    have := h4 q hq
    omega
  · intro p hp
    show p.week_id < db.nextId + 1
    rcases List.mem_append.mp hp with hp2 | hp2
    · have := h5 p hp2
      omega
    · rw [List.mem_singleton] at hp2
      subst hp2
      omega
  · intro r hr
    show r.page_id < db.nextId + 1
    have := h6 r hr
    omega
  · intro v hv
    show v.page_id < db.nextId + 1
    have := h7 v hv
    omega

theorem insertQuestionsAt_wf2 (db : DB) (pid : Nat) (qs : List QuestionView)
    (hpid : pid < db.nextId) (habs : ∀ q ∈ db.questions, q.page_id ≠ pid)
    (h : DBWF2 db) : DBWF2 (insertQuestionsAt db pid qs) := by
  obtain ⟨h1, h2, h3, h4, h5, h6, h7⟩ := h
  by_cases hlen : qs.length > 0
  · have hif : insertQuestionsAt db pid qs = { db with
        questions := db.questions ++ qs.enum.map (fun e =>
          ⟨db.nextId + e.1, pid, e.1 + 1, e.2.text⟩)
        nextId := db.nextId + qs.length } := by
      unfold insertQuestionsAt
      rw [if_pos hlen]
    have hwf : DBWF (insertQuestionsAt db pid qs) :=
      (insertQuestionsAt_wfm db pid qs).1 h1
    rw [hif] at hwf ⊢
    refine ⟨hwf, h2, ?_, ?_, ?_, ?_, ?_⟩
    · show ((db.questions ++ _).map _).Nodup
      rw [List.map_append, List.nodup_append]
      have hpairs : ((qs.enum.map (fun e =>
          (⟨db.nextId + e.1, pid, e.1 + 1, e.2.text⟩ : QuestionRow))).map
            (fun q => (q.page_id, q.question_number))) =
          qs.enum.map (fun e => (pid, e.1 + 1)) := by
        rw [List.map_map]
        rfl
      rw [hpairs]
      refine ⟨h3, ?_, ?_⟩
      · have hfst : (qs.enum.map (fun e => e.1)).Nodup := by
          rw [show (fun (e : Nat × QuestionView) => e.1) =
            Prod.fst from rfl, List.enum_map_fst]
          exact List.nodup_range _
        refine nodup_map_of_nodup_map hfst ?_
        intro x _ y _ hf
        have := congrArg Prod.snd hf
        simpa using this
      · intro x hx hx2
        obtain ⟨q, hq, rfl⟩ := List.mem_map.mp hx
        obtain ⟨e, _, hpe⟩ := List.mem_map.mp hx2
        have h1e : q.page_id = pid := by
          have := congrArg Prod.fst hpe
          simpa using this.symm
        exact habs q hq h1e
    · intro q hq
      show q.page_id < db.nextId + qs.length
      rcases List.mem_append.mp hq with hq2 | hq2
      · have := h4 q hq2
        omega
      · obtain ⟨e, _, he⟩ := List.mem_map.mp hq2
        rw [← he]
        show pid < db.nextId + qs.length
        omega
    · intro p hp
      show p.week_id < db.nextId + qs.length
      have := h5 p hp
      omega
    · intro r hr
      show r.page_id < db.nextId + qs.length
      have := h6 r hr
      omega
    · intro v hv
      show v.page_id < db.nextId + qs.length
      have := h7 v hv
      omega
  · have hif : insertQuestionsAt db pid qs = db := by
      unfold insertQuestionsAt
      rw [if_neg hlen]
    rw [hif]
    exact ⟨h1, h2, h3, h4, h5, h6, h7⟩

theorem insertResources_wf2 (db : DB) (pid : Nat) (rs : List ResourceView)
    (hpid : pid < db.nextId) (h : DBWF2 db) :
    DBWF2 (insertResources db pid rs) := by
  obtain ⟨h1, h2, h3, h4, h5, h6, h7⟩ := h
  refine ⟨(insertResources_wfm db pid rs).1 h1, h2, h3, ?_, ?_, ?_, ?_⟩
  · intro q hq
    show q.page_id < db.nextId + rs.length
    have := h4 q hq
    omega
  · intro p hp
    show p.week_id < db.nextId + rs.length
    have := h5 p hp
    omega
  · intro r hr
    show r.page_id < db.nextId + rs.length
    rcases List.mem_append.mp hr with hr2 | hr2
    · have := h6 r hr2
      omega
    · obtain ⟨e, _, he⟩ := List.mem_map.mp hr2
      obtain ⟨idx, rv⟩ := e
      rw [← he]
      show pid < db.nextId + rs.length
      omega
  · intro v hv
    show v.page_id < db.nextId + rs.length
    have := h7 v hv
    omega

theorem insertVideosCreated_wf2 (db : DB) (pid : Nat) (vs : List VideoView)
    (hpid : pid < db.nextId) (h : DBWF2 db) :
    DBWF2 (insertVideosCreated db pid vs) := by
  obtain ⟨h1, h2, h3, h4, h5, h6, h7⟩ := h
  refine ⟨(insertVideosCreated_wfm db pid vs).1 h1, h2, h3, ?_, ?_, ?_, ?_⟩
  · intro q hq
    show q.page_id < db.nextId + vs.length
    have := h4 q hq
    omega
  · intro p hp
    show p.week_id < db.nextId + vs.length
    have := h5 p hp
    omega
  · intro r hr
    show r.page_id < db.nextId + vs.length
    have := h6 r hr
    omega
  · intro v hv
    show v.page_id < db.nextId + vs.length
    rcases List.mem_append.mp hv with hv2 | hv2
    · have := h7 v hv2
      omega
    · obtain ⟨e, _, he⟩ := List.mem_map.mp hv2
      obtain ⟨idx, vv⟩ := e
      rw [← he]
      show pid < db.nextId + vs.length
      omega

theorem createPage_wf2 (db : DB) (wid n : Nat) (pd : PageView)
    (hwid : wid < db.nextId) (h : DBWF2 db) :
    DBWF2 (createPage db wid n pd) := by
  unfold createPage
  dsimp only
  have w1 := insertPageRow_wf2 db ⟨db.nextId, wid, n, pd.title, pd.type,
    jsOrNull pd.content⟩ rfl hwid h
  have habs : ∀ q ∈ (insertPageRow db ⟨db.nextId, wid, n, pd.title, pd.type,
      jsOrNull pd.content⟩).questions, q.page_id ≠ db.nextId := by
    intro q hq
    have := h.2.2.2.1 q hq
    omega
  have w2 := insertQuestionsAt_wf2 _ db.nextId pd.questions
    (by show db.nextId < db.nextId + 1
        omega) habs w1
  have hb2 : db.nextId <
      (insertQuestionsAt (insertPageRow db ⟨db.nextId, wid, n, pd.title,
        pd.type, jsOrNull pd.content⟩) db.nextId pd.questions).nextId := by
    have hm := (insertQuestionsAt_wfm (insertPageRow db ⟨db.nextId, wid, n,
      pd.title, pd.type, jsOrNull pd.content⟩) db.nextId pd.questions).2
    have he : (insertPageRow db ⟨db.nextId, wid, n, pd.title, pd.type,
      jsOrNull pd.content⟩).nextId = db.nextId + 1 := rfl
    omega
  split
  · split
    · refine insertVideosCreated_wf2 _ db.nextId pd.videos
        (lt_of_lt_of_le hb2 (insertResources_wfm _ db.nextId pd.resources).2)
        (insertResources_wf2 _ db.nextId pd.resources hb2 w2)
    · exact insertVideosCreated_wf2 _ db.nextId pd.videos hb2 w2
  · split
    · exact insertResources_wf2 _ db.nextId pd.resources hb2 w2
    · exact w2

theorem createWeekWithNumber_wf2 (db : DB) (mid wn : Nat) (wd : WeekData)
    (hnone : ∀ w ∈ db.weeks, ¬(w.module_id = mid ∧ w.week_number = wn))
    (h : DBWF2 db) : DBWF2 (createWeekWithNumber db mid wn wd) := by
  obtain ⟨h1, h2, h3, h4, h5, h6, h7⟩ := h
  unfold createWeekWithNumber
  dsimp only
  have hA : DBWF2 { db with
      weeks := db.weeks ++ [⟨db.nextId, mid, wn, wd.title,
        jsOrNull wd.description, jsOrNull wd.unlockDate⟩]
      nextId := db.nextId + 1 } := by
    refine ⟨(insertWeekRow_wfm db ⟨db.nextId, mid, wn, wd.title,
      jsOrNull wd.description, jsOrNull wd.unlockDate⟩ rfl).1 h1,
      ?_, h3, ?_, ?_, ?_, ?_⟩
    · show ((db.weeks ++ _).map _).Nodup
      rw [List.map_append, List.nodup_append]
      refine ⟨h2, by simp, ?_⟩
      intro x hx hx2
      rw [show ([⟨db.nextId, mid, wn, wd.title, jsOrNull wd.description,
        jsOrNull wd.unlockDate⟩] : List WeekRow).map
          (fun w => (w.module_id, w.week_number)) = [(mid, wn)] from rfl,
        List.mem_singleton] at hx2
      obtain ⟨w, hw, rfl⟩ := List.mem_map.mp hx
      refine hnone w hw ⟨?_, ?_⟩
      · simpa using congrArg Prod.fst hx2
      · simpa using congrArg Prod.snd hx2
    · intro q hq
      show q.page_id < db.nextId + 1
      have := h4 q hq
      omega
    · intro p hp
      show p.week_id < db.nextId + 1
      have := h5 p hp
      omega
    · intro r hr
      show r.page_id < db.nextId + 1
      have := h6 r hr
      omega
    · intro v hv
      show v.page_id < db.nextId + 1
      have := h7 v hv
      omega
  refine (foldl_invariant (fun x y : DB =>
    (DBWF2 x ∧ db.nextId < x.nextId) → (DBWF2 y ∧ db.nextId < y.nextId))
    (fun b hb => hb) (fun p q r g1 g2 hb => g2 (g1 hb)) _ wd.pages.enum _
    ?_ ⟨hA, by show db.nextId < db.nextId + 1
               omega⟩).1
  intro b e _ hb
  exact ⟨createPage_wf2 b db.nextId (e.1 + 1) e.2 hb.2 hb.1,
    lt_of_lt_of_le hb.2 (createPage_wfm b db.nextId (e.1 + 1) e.2).2⟩

theorem updateQuestionText_qpairs (db : DB) (qid : Nat) (text : String) :
    (updateQuestionText db qid text).questions.map
      (fun q => (q.page_id, q.question_number)) =
    db.questions.map (fun q => (q.page_id, q.question_number)) := by
  show ((db.questions.map _).map _) = _
  rw [map_proj_eq db.questions (fun q =>
      if q.id = qid then { q with text := text } else q)
    (fun q => (q.page_id, q.question_number)) (fun q => by
    dsimp only
    by_cases hc : q.id = qid
    · rw [if_pos hc]
    · rw [if_neg hc])]

theorem reconcileQuestions_wf2 (db : DB) (pid : Nat) (tqs : List QuestionView)
    (hpid : pid < db.nextId) (h : DBWF2 db) :
    DBWF2 (reconcileQuestions db pid tqs) := by
  unfold reconcileQuestions reconcileQuestionsWith
  dsimp only
  have hP := (foldl_invariant (fun x y : DB =>
      (DBWF2 x ∧
       x.questions.map (fun q => (q.page_id, q.question_number)) =
         db.questions.map (fun q => (q.page_id, q.question_number)) ∧
       x.nextId = db.nextId) →
      (DBWF2 y ∧
       y.questions.map (fun q => (q.page_id, q.question_number)) =
         db.questions.map (fun q => (q.page_id, q.question_number)) ∧
       y.nextId = db.nextId))
    (fun b hb => hb) (fun p q r g1 g2 hb => g2 (g1 hb))
    (fun b e =>
      match (sortByKey (fun q => q.question_number)
          (db.questions.filter (fun q => q.page_id = pid))).find?
          (fun q => q.question_number = e.1 + 1) with
      | some existingQ => updateQuestionText b existingQ.id e.2.text
      | none => b)
    tqs.enum db (by
      intro b e _ hb
      dsimp only
      cases (sortByKey (fun q => q.question_number)
          (db.questions.filter (fun q => q.page_id = pid))).find?
          (fun q => q.question_number = e.1 + 1) with
      | none => exact hb
      | some q0 =>
        exact ⟨updateQuestionText_wf2 b q0.id e.2.text hb.1,
          (updateQuestionText_qpairs b q0.id e.2.text).trans hb.2.1,
          hb.2.2⟩)) ⟨h, rfl, rfl⟩
  obtain ⟨hw2, hpairs, hnext⟩ := hP
  apply insertQuestionRows_wf2
  · rw [hnext]
    exact hpid
  · have hsub : ((tqs.enum.filter (fun e =>
        ((sortByKey (fun q => q.question_number)
          (db.questions.filter (fun q => q.page_id = pid))).find?
          (fun q => q.question_number = e.1 + 1)).isNone)).map
        (fun e => e.1)).Sublist (tqs.enum.map (fun e => e.1)) :=
      List.Sublist.map _ (List.filter_sublist _)
    refine List.Nodup.sublist hsub ?_
    rw [show (fun (e : Nat × QuestionView) => e.1) = Prod.fst from rfl,
      List.enum_map_fst]
    exact List.nodup_range _
  · intro e he q hq hqp hqn
    obtain ⟨he1, he2⟩ := List.mem_filter.mp he
    have hnone : ∀ x ∈ sortByKey (fun q => q.question_number)
        (db.questions.filter (fun q => q.page_id = pid)),
        ¬ x.question_number = e.1 + 1 := by simpa using he2
    have hqmem : (q.page_id, q.question_number) ∈
        db.questions.map (fun q => (q.page_id, q.question_number)) := by
      rw [← hpairs]
      exact List.mem_map_of_mem _ hq
    obtain ⟨q0, hq0, hq0e⟩ := List.mem_map.mp hqmem
    have hq0p : q0.page_id = pid := by
      have := congrArg Prod.fst hq0e
      simpa [hqp] using this
    have hq0n : q0.question_number = e.1 + 1 := by
      have := congrArg Prod.snd hq0e
      simpa [hqn] using this
    have hq0mem : q0 ∈ sortByKey (fun q => q.question_number)
        (db.questions.filter (fun q => q.page_id = pid)) :=
      mem_sortByKey.mpr (List.mem_filter.mpr ⟨hq0, by simpa using hq0p⟩)
    exact hnone q0 hq0mem hq0n
  · exact hw2

theorem syncPageContent_wf2 (db : DB) (tp : PageView) (ap : PageRow)
    (hap : ap.id < db.nextId) (h : DBWF2 db) :
    DBWF2 (syncPageContent db tp ap) := by
  unfold syncPageContent
  dsimp only
  have m1 := (updatePageRow_wfm db ap.id tp.title tp.type tp.content).2
  have w1 := updatePageRow_wf2 db ap.id tp.title tp.type tp.content h
  have m2 := (syncResourcesOfPage_wfm
    (updatePageRow db ap.id tp.title tp.type tp.content) ap.id tp.resources).2
  have w2 := syncResourcesOfPage_wf2 _ ap.id tp.resources
    (lt_of_lt_of_le hap m1) w1
  have m3 := (syncVideosOfPage_wfm (syncResourcesOfPage
    (updatePageRow db ap.id tp.title tp.type tp.content) ap.id tp.resources)
    ap.id tp.videos).2
  have w3 := syncVideosOfPage_wf2 _ ap.id tp.videos
    (lt_of_lt_of_le hap (m1.trans m2)) w2
  exact reconcileQuestions_wf2 _ ap.id tp.questions
    (lt_of_lt_of_le hap ((m1.trans m2).trans m3)) w3

theorem syncWeekContent_wf2 (db : DB) (tw aw : WeekView) (a : Nat)
    (h : DBWF2 db) : DBWF2 (syncWeekContent db tw aw a) := by
  unfold syncWeekContent
  dsimp only
  have h0 := updateActiveWeekRow_wf2 db a aw.id tw h
  split
  · exact h0
  next weekRecord heq =>
    refine (foldl_invariant (fun x y : DB =>
      (DBWF2 x ∧ db.nextId ≤ x.nextId) → (DBWF2 y ∧ db.nextId ≤ y.nextId))
      (fun b hb => hb) (fun p q r g1 g2 hb => g2 (g1 hb)) _ tw.pages.enum _
      ?_ ⟨h0, Nat.le_refl _⟩).1
    intro b e _ hb
    cases hget : (sortByKey (fun p => p.page_number)
        (List.filter _ (updateActiveWeekRow db a aw.id tw).pages))[e.1]? with
    | none => exact hb
    | some ap =>
      have hmem := List.getElem?_mem hget
      have hap : ap ∈ db.pages := (List.mem_filter.mp
        (mem_sortByKey.mp hmem)).1
      have hlt : ap.id < db.nextId := h.1.2.2.2.2.1 ap hap
      exact ⟨syncPageContent_wf2 b e.2 ap (lt_of_lt_of_le hlt hb.2) hb.1,
        hb.2.trans (syncPageContent_wfm b e.2 ap).2⟩

/-! ## Value-level content of media rows, and the synced-week invariant -/

/-- The value-level content of a resource row (everything except the row id). -/
def resContent (r : ResourceRow) :
    Nat × String × Option String × Option String × Nat :=
  (r.page_id, r.title, r.url, r.description, r.sort_order)

/-- The value-level content of a video row: everything except the row id and
`duration` (which the sync insert never writes — see `insertVideosSynced`). -/
def vidContent (v : VideoRow) : Nat × String × String × Option String × Nat :=
  (v.page_id, v.title, v.url, v.description, v.sort_order)

/-- The resource contents sync materialises for a page from a template
resource list. -/
def resFromView (pid : Nat) (rs : List ResourceView) :
    List (Nat × String × Option String × Option String × Nat) :=
  rs.enum.map (fun e => (pid, e.2.title, jsOrNull e.2.url,
    jsOrNull e.2.description, e.1))

/-- The video contents sync materialises for a page from a template video
list (the `description` column is always `null` on both insert paths). -/
def vidFromView (pid : Nat) (vs : List VideoView) :
    List (Nat × String × String × Option String × Nat) :=
  vs.enum.map (fun e => (pid, e.2.title, e.2.url, (none : Option String), e.1))

/-- Week `tw` of the template is faithfully materialised for module `a` in
store `s`: a week row with the template's `week_number` and week fields
exists; at every template page index the active page (if any) carries the
template page's fields; every template question is present under that page
at its `question_number` with the template text; and the page's resource
and video contents are exactly the ones sync builds from the template. -/
def SyncedWeek (s : DB) (a : Nat) (tw : WeekView) : Prop :=
  ∃ wr ∈ s.weeks, wr.module_id = a ∧ wr.week_number = tw.id ∧
    wr.title = tw.title ∧ wr.description = tw.description ∧
    wr.unlock_date = tw.unlockDate ∧
    ∀ (i : Nat) (tp : PageView) (ap : PageRow), tw.pages[i]? = some tp →
      (sortByKey (fun p => p.page_number)
        (s.pages.filter (fun p => p.week_id = wr.id)))[i]? = some ap →
      (ap.title = tp.title ∧ ap.type = tp.type ∧ ap.content = tp.content ∧
       (∀ (qIdx : Nat) (tq : QuestionView), tp.questions[qIdx]? = some tq →
         ∃ qr ∈ s.questions, qr.page_id = ap.id ∧
           qr.question_number = qIdx + 1 ∧ qr.text = tq.text) ∧
       (s.resources.filter (fun r => r.page_id = ap.id)).map resContent =
         resFromView ap.id tp.resources ∧
       (s.videos.filter (fun v => v.page_id = ap.id)).map vidContent =
         vidFromView ap.id tp.videos)

/-- A template week view none of whose nullable fields is the empty string,
so the `|| null` normalisation of the create path is the identity on it. -/
def CleanWeekView (tw : WeekView) : Prop :=
  jsOrNull tw.description = tw.description ∧
  jsOrNull tw.unlockDate = tw.unlockDate ∧
  ∀ tp ∈ tw.pages, jsOrNull tp.content = tp.content

/-- Relation between the store after the first sync run (`db1`) and a store
reached during the second run: every table except `resources` and `videos`
is unchanged, and those two hold the same per-page value-level contents. -/
def SecondRun (db1 s : DB) : Prop :=
  s.modules = db1.modules ∧ s.zoom_info = db1.zoom_info ∧
  s.weeks = db1.weeks ∧ s.pages = db1.pages ∧ s.questions = db1.questions ∧
  s.discussion_posts = db1.discussion_posts ∧ s.progress = db1.progress ∧
  (∀ pid : Nat,
    (s.resources.filter (fun r => r.page_id = pid)).map resContent =
    (db1.resources.filter (fun r => r.page_id = pid)).map resContent) ∧
  (∀ pid : Nat,
    (s.videos.filter (fun v => v.page_id = pid)).map vidContent =
    (db1.videos.filter (fun v => v.page_id = pid)).map vidContent)

/-! ## View congruences -/

theorem getModule_congr {db cur : DB} {mid : Nat}
    (h : cur.modules.filter (fun m => m.id = mid) =
      db.modules.filter (fun m => m.id = mid)) :
    getModule cur mid = getModule db mid := by
  unfold getModule
  rw [h]

theorem getZoomInfo_congr {db cur : DB} {mid : Nat}
    (h : cur.zoom_info.find? (fun z => z.module_id = mid) =
      db.zoom_info.find? (fun z => z.module_id = mid)) :
    getZoomInfo cur mid = getZoomInfo db mid := by
  unfold getZoomInfo
  rw [h]

theorem getWeeks_congr {db cur : DB} {mid : Nat}
    (hw : cur.weeks.filter (fun w => w.module_id = mid) =
      db.weeks.filter (fun w => w.module_id = mid))
    (hrest : ∀ w ∈ db.weeks, w.module_id = mid → UntouchedWeek db w cur) :
    getWeeks cur mid = getWeeks db mid := by
  unfold getWeeks
  rw [hw]
  apply List.map_congr_left
  intro week hweek
  obtain ⟨hwmem, hwprop⟩ := List.mem_filter.mp (mem_sortByKey.mp hweek)
  obtain ⟨u1, u2, u3⟩ := hrest week hwmem (of_decide_eq_true hwprop)
  rw [u2]
  congr 1
  apply List.map_congr_left
  intro page hpage
  obtain ⟨hpmem, hpprop⟩ := List.mem_filter.mp (mem_sortByKey.mp hpage)
  obtain ⟨hq, hr, hv⟩ := u3 page hpmem (of_decide_eq_true hpprop)
  rw [hq, hr, hv]

theorem getWeeks_eq_tables {x y : DB} (mid : Nat)
    (hw : x.weeks = y.weeks) (hp : x.pages = y.pages)
    (hq : x.questions = y.questions) (hr : x.resources = y.resources)
    (hv : x.videos = y.videos) : getWeeks x mid = getWeeks y mid := by
  unfold getWeeks
  rw [hw, hp, hq, hr, hv]

theorem getZoomInfo_eq_tables {x y : DB} (mid : Nat)
    (hz : x.zoom_info = y.zoom_info) : getZoomInfo x mid = getZoomInfo y mid := by
  unfold getZoomInfo
  rw [hz]

/-! ## The module and zoom steps of a second run are no-ops -/

theorem singleRow_eq_some {α : Type} {l : List α} {x : α}
    (h : singleRow l = some x) : l = [x] := by
  cases l with
  | nil => exact Option.noConfusion h
  | cons a rest =>
    cases rest with
    | nil =>
      have h2 : a = x := Option.some_inj.mp h
      rw [h2]
    | cons b rest2 => exact Option.noConfusion h

/-- The camelCase view `getModule` builds from a `modules` row. -/
def moduleViewOf (m : ModuleRow) : ModuleView :=
  { id := m.id, title := m.title, description := m.description,
    instructor := m.instructor, duration := m.duration,
    participation := m.participation,
    timeExpectations := m.time_expectations, status := m.status,
    templateId := m.template_id, launchedAt := m.launched_at,
    archivedAt := m.archived_at }

theorem getModule_eq (db : DB) (mid : Nat) :
    getModule db mid =
      (singleRow (db.modules.filter (fun m => m.id = mid))).map
        moduleViewOf := by
  unfold getModule
  cases singleRow (db.modules.filter (fun m => m.id = mid)) with
  | none => rfl
  | some m => rfl

theorem getModule_filter_single {db : DB} {mid : Nat} {mv : ModuleView}
    (h : getModule db mid = some mv) :
    ∃ m0, db.modules.filter (fun m => m.id = mid) = [m0] ∧
      moduleViewOf m0 = mv := by
  rw [getModule_eq] at h
  cases hs : singleRow (db.modules.filter (fun m => m.id = mid)) with
  | none =>
    rw [hs] at h
    cases h
  | some m0 =>
    rw [hs] at h
    exact ⟨m0, singleRow_eq_some hs, Option.some_inj.mp h⟩

theorem getModule_updateModule_status {db : DB} {a : Nat} {av : ModuleView}
    (u : ModuleUpdates) (hu : u.status = none)
    (h : getModule db a = some av) :
    ∃ av2, getModule (updateModule db a u) a = some av2 ∧
      av2.status = av.status := by
  obtain ⟨m0, hfil, hview⟩ := getModule_filter_single h
  have hm0 : m0.id = a := by
    have hmem : m0 ∈ db.modules.filter (fun m => m.id = a) := by
      rw [hfil]
      exact List.mem_singleton_self m0
    exact of_decide_eq_true (List.mem_filter.mp hmem).2
  have hfil2 : (updateModule db a u).modules.filter (fun m => m.id = a) =
      [applyModuleUpdates u m0] := by
    show (db.modules.map _).filter _ = _
    rw [filter_map_comm (fun m _ => by
      by_cases hc : m.id = a
      · rw [if_pos hc]
        rfl
      · rw [if_neg hc]), hfil]
    rw [List.map_singleton, if_pos hm0]
  refine ⟨moduleViewOf (applyModuleUpdates u m0), ?_, ?_⟩
  · rw [getModule_eq, hfil2]
    rfl
  · show (applyModuleUpdates u m0).status = av.status
    rw [← hview]
    show u.status.getD m0.status = m0.status
    rw [hu]
    rfl

theorem updateModule_modules_idem (l : List ModuleRow) (a : Nat)
    (u : ModuleUpdates) :
    (l.map (fun m => if m.id = a then applyModuleUpdates u m else m)).map
      (fun m => if m.id = a then applyModuleUpdates u m else m) =
    l.map (fun m => if m.id = a then applyModuleUpdates u m else m) := by
  rw [List.map_map]
  apply List.map_congr_left
  intro m _
  show (if (if m.id = a then applyModuleUpdates u m else m).id = a then
      applyModuleUpdates u (if m.id = a then applyModuleUpdates u m else m)
    else (if m.id = a then applyModuleUpdates u m else m)) =
    (if m.id = a then applyModuleUpdates u m else m)
  by_cases hc : m.id = a
  · rw [if_pos hc, if_pos (show (applyModuleUpdates u m).id = a from hc),
      applyModuleUpdates_idem]
  · rw [if_neg hc, if_neg hc]

theorem updateModule_noop {db1 dbOrig : DB} {a : Nat} {u : ModuleUpdates}
    (hmods : db1.modules = dbOrig.modules.map (fun m =>
      if m.id = a then applyModuleUpdates u m else m)) :
    updateModule db1 a u = db1 := by
  show { db1 with modules := db1.modules.map _ } = db1
  rw [hmods, updateModule_modules_idem, ← hmods]

theorem updateZoomInfo_any (db : DB) (a : Nat) (tz : ZoomView) :
    (updateZoomInfo db a tz).zoom_info.any (fun z => z.module_id = a) =
      true := by
  unfold updateZoomInfo
  dsimp only
  split
  next hany =>
    rw [List.any_eq_true] at hany ⊢
    obtain ⟨z, hz, hza⟩ := hany
    have hza2 : z.module_id = a := of_decide_eq_true hza
    refine ⟨_, List.mem_map_of_mem _ hz, ?_⟩
    rw [if_pos hza2]
    simp
  next hany =>
    rw [List.any_eq_true]
    refine ⟨_, List.mem_append_right _ (List.mem_singleton_self _), ?_⟩
    simp

theorem updateZoomInfo_rows (db : DB) (a : Nat) (tz : ZoomView) :
    ∀ z ∈ (updateZoomInfo db a tz).zoom_info, z.module_id = a →
      z = { module_id := a, url := jsOrNull tz.url,
            meeting_id := jsOrNull tz.meetingId,
            passcode := jsOrNull tz.passcode, day := jsOrNull tz.day,
            time := jsOrNull tz.time,
            timezone := some (jsOrDefault "EST" tz.timezone) } := by
  unfold updateZoomInfo
  dsimp only
  split
  next hany =>
    intro z hz hza
    obtain ⟨z0, hz0, rfl⟩ := List.mem_map.mp hz
    by_cases hc : z0.module_id = a
    · rw [if_pos hc]
    · rw [if_neg hc] at hza ⊢
      exact absurd hza hc
  next hany =>
    intro z hz hza
    rcases List.mem_append.mp hz with hz2 | hz2
    · exfalso
      exact hany (List.any_eq_true.mpr ⟨z, hz2, by simpa using hza⟩)
    · rw [List.mem_singleton] at hz2
      exact hz2

theorem updateZoomInfo_noop {db1 : DB} {a : Nat} {tz : ZoomView}
    (hany : db1.zoom_info.any (fun z => z.module_id = a) = true)
    (hrows : ∀ z ∈ db1.zoom_info, z.module_id = a →
      z = { module_id := a, url := jsOrNull tz.url,
            meeting_id := jsOrNull tz.meetingId,
            passcode := jsOrNull tz.passcode, day := jsOrNull tz.day,
            time := jsOrNull tz.time,
            timezone := some (jsOrDefault "EST" tz.timezone) }) :
    updateZoomInfo db1 a tz = db1 := by
  unfold updateZoomInfo
  dsimp only
  have hmap : db1.zoom_info.map (fun z =>
      if z.module_id = a then
        { module_id := a, url := jsOrNull tz.url,
          meeting_id := jsOrNull tz.meetingId,
          passcode := jsOrNull tz.passcode, day := jsOrNull tz.day,
          time := jsOrNull tz.time,
          timezone := some (jsOrDefault "EST" tz.timezone) }
      else z) = db1.zoom_info := by
    apply map_eq_self
    intro z hz
    by_cases hc : z.module_id = a
    · rw [if_pos hc]
      exact (hrows z hz hc).symm
    · rw [if_neg hc]
  rw [if_pos hany, hmap]

theorem syncWeeksStep_zoom (db : DB) (a : Nat) (tws aws : List WeekView) :
    (syncWeeksStep db a tws aws).zoom_info = db.zoom_info := by
  unfold syncWeeksStep
  apply foldl_invariant (fun x y : DB => y.zoom_info = x.zoom_info)
    (fun _ => rfl) (fun x y z h1 h2 => by exact h2.trans h1)
  intro b tw _
  cases jsMapGet (fun aw => aw.id) tw.id aws with
  | some aw => exact (syncWeekContent_frame b tw aw a).2.2.2.1
  | none => exact createWeekWithNumber_zoom b a tw.id _

/-! ## Table-exactness of the page-level sync operations -/

theorem reconcileQuestionsWith_tables (db : DB) (pid : Nat)
    (exqs : List QuestionRow) (tqs : List QuestionView) :
    (reconcileQuestionsWith db pid exqs tqs).pages = db.pages ∧
    (reconcileQuestionsWith db pid exqs tqs).resources = db.resources ∧
    (reconcileQuestionsWith db pid exqs tqs).videos = db.videos ∧
    (reconcileQuestionsWith db pid exqs tqs).modules = db.modules ∧
    (reconcileQuestionsWith db pid exqs tqs).zoom_info = db.zoom_info := by
  unfold reconcileQuestionsWith
  have hins : ∀ (x : DB) (qs : List (Nat × QuestionView)),
      (insertQuestionRows x pid qs).pages = x.pages ∧
      (insertQuestionRows x pid qs).resources = x.resources ∧
      (insertQuestionRows x pid qs).videos = x.videos ∧
      (insertQuestionRows x pid qs).modules = x.modules ∧
      (insertQuestionRows x pid qs).zoom_info = x.zoom_info := by
    intro x qs
    unfold insertQuestionRows
    split <;> exact ⟨rfl, rfl, rfl, rfl, rfl⟩
  have hfold := foldl_invariant (fun x y : DB =>
      y.pages = x.pages ∧ y.resources = x.resources ∧ y.videos = x.videos ∧
      y.modules = x.modules ∧ y.zoom_info = x.zoom_info)
    (fun b => ⟨rfl, rfl, rfl, rfl, rfl⟩)
    (fun x y z h1 h2 => ⟨h2.1.trans h1.1, h2.2.1.trans h1.2.1,
      h2.2.2.1.trans h1.2.2.1, h2.2.2.2.1.trans h1.2.2.2.1,
      h2.2.2.2.2.trans h1.2.2.2.2⟩)
    (fun b e =>
      match exqs.find? (fun q => q.question_number = e.1 + 1) with
      | some existingQ => updateQuestionText b existingQ.id e.2.text
      | none => b) tqs.enum db (by
      intro b e _
      dsimp only
      cases exqs.find? (fun q => q.question_number = e.1 + 1) with
      | none => exact ⟨rfl, rfl, rfl, rfl, rfl⟩
      | some q0 => exact ⟨rfl, rfl, rfl, rfl, rfl⟩)
  obtain ⟨p1, p2, p3, p4, p5⟩ := hfold
  have hi := hins (tqs.enum.foldl (fun b e =>
      match exqs.find? (fun q => q.question_number = e.1 + 1) with
      | some existingQ => updateQuestionText b existingQ.id e.2.text
      | none => b) db) (tqs.enum.filter (fun e =>
      (exqs.find? (fun q => q.question_number = e.1 + 1)).isNone))
  exact ⟨hi.1.trans p1, hi.2.1.trans p2, hi.2.2.1.trans p3,
    hi.2.2.2.1.trans p4, hi.2.2.2.2.trans p5⟩

theorem syncPageContent_pages (db : DB) (tp : PageView) (ap : PageRow) :
    (syncPageContent db tp ap).pages = db.pages.map (fun p =>
      if p.id = ap.id then
        { p with title := tp.title, type := tp.type, content := tp.content }
      else p) := by
  unfold syncPageContent reconcileQuestions
  dsimp only
  rw [(reconcileQuestionsWith_tables _ _ _ _).1,
    (syncVideosOfPage_tables _ _ _).1, (syncResourcesOfPage_tables _ _ _).1]
  rfl

theorem syncPageContent_questions_eq (db : DB) (tp : PageView) (ap : PageRow) :
    (syncPageContent db tp ap).questions =
      (reconcileQuestions (syncVideosOfPage (syncResourcesOfPage
        (updatePageRow db ap.id tp.title tp.type tp.content)
        ap.id tp.resources) ap.id tp.videos) ap.id tp.questions).questions :=
  rfl

/-- Replacing the media of one page leaves any other page's resources
untouched. -/
theorem syncResourcesOfPage_res_other (db : DB) (pid pid2 : Nat)
    (rs : List ResourceView) (hne : pid2 ≠ pid) :
    (syncResourcesOfPage db pid rs).resources.filter
      (fun r => r.page_id = pid2) =
    db.resources.filter (fun r => r.page_id = pid2) := by
  unfold syncResourcesOfPage insertResources
  dsimp only
  have hdel : (db.resources.filter (fun r => ¬ r.page_id = pid)).filter
      (fun r => r.page_id = pid2) =
      db.resources.filter (fun r => r.page_id = pid2) := by
    apply filter_filter_subset
    intro x _ hx
    have hx2 : x.page_id = pid2 := of_decide_eq_true hx
    simpa using fun hc => hne (by omega)
  split
  · refine (filter_append_none ?_).trans hdel
    intro x hx
    obtain ⟨e, _, he⟩ := List.mem_map.mp hx
    obtain ⟨idx, rv⟩ := e
    rw [← he]
    simpa using fun hc => hne hc.symm
  · exact hdel

theorem syncVideosOfPage_vid_other (db : DB) (pid pid2 : Nat)
    (vs : List VideoView) (hne : pid2 ≠ pid) :
    (syncVideosOfPage db pid vs).videos.filter
      (fun v => v.page_id = pid2) =
    db.videos.filter (fun v => v.page_id = pid2) := by
  unfold syncVideosOfPage insertVideosSynced
  dsimp only
  have hdel : (db.videos.filter (fun v => ¬ v.page_id = pid)).filter
      (fun v => v.page_id = pid2) =
      db.videos.filter (fun v => v.page_id = pid2) := by
    apply filter_filter_subset
    intro x _ hx
    have hx2 : x.page_id = pid2 := of_decide_eq_true hx
    simpa using fun hc => hne (by omega)
  split
  · refine (filter_append_none ?_).trans hdel
    intro x hx
    obtain ⟨e, _, he⟩ := List.mem_map.mp hx
    obtain ⟨idx, vv⟩ := e
    rw [← he]
    simpa using fun hc => hne hc.symm
  · exact hdel

/-! ## Media contents established by the sync and create paths -/

theorem syncResourcesOfPage_spec (db : DB) (pid : Nat)
    (rs : List ResourceView) :
    ((syncResourcesOfPage db pid rs).resources.filter
      (fun r => r.page_id = pid)).map resContent = resFromView pid rs := by
  unfold syncResourcesOfPage insertResources
  dsimp only
  have hdel : (db.resources.filter (fun r => ¬ r.page_id = pid)).filter
      (fun r => r.page_id = pid) = [] := by
    apply List.filter_eq_nil_iff.mpr
    intro x hx hpx
    have h1 : ¬ x.page_id = pid :=
      of_decide_eq_true (List.mem_filter.mp hx).2
    exact h1 (of_decide_eq_true hpx)
  split
  · rw [List.filter_append, hdel, List.nil_append]
    have hkeep : (rs.enum.map (fun (idx, r) =>
        ({ id := db.nextId + idx, page_id := pid, title := r.title,
           url := jsOrNull r.url, description := jsOrNull r.description,
           sort_order := idx } : ResourceRow))).filter
          (fun r => r.page_id = pid) = rs.enum.map (fun (idx, r) =>
        ({ id := db.nextId + idx, page_id := pid, title := r.title,
           url := jsOrNull r.url, description := jsOrNull r.description,
           sort_order := idx } : ResourceRow)) := by
      apply List.filter_eq_self.mpr
      intro x hx
      obtain ⟨e, _, he⟩ := List.mem_map.mp hx
      obtain ⟨idx, rv⟩ := e
      rw [← he]
      simp
    rw [hkeep]
    unfold resFromView
    rw [List.map_map]
    apply List.map_congr_left
    intro e _
    obtain ⟨idx, rv⟩ := e
    rfl
  next hlen =>
    have hrs : rs = [] := List.length_eq_zero.mp (by omega)
    subst hrs
    rw [hdel]
    rfl

theorem syncVideosOfPage_spec (db : DB) (pid : Nat) (vs : List VideoView) :
    ((syncVideosOfPage db pid vs).videos.filter
      (fun v => v.page_id = pid)).map vidContent = vidFromView pid vs := by
  unfold syncVideosOfPage insertVideosSynced
  dsimp only
  have hdel : (db.videos.filter (fun v => ¬ v.page_id = pid)).filter
      (fun v => v.page_id = pid) = [] := by
    apply List.filter_eq_nil_iff.mpr
    intro x hx hpx
    have h1 : ¬ x.page_id = pid :=
      of_decide_eq_true (List.mem_filter.mp hx).2
    exact h1 (of_decide_eq_true hpx)
  split
  · rw [List.filter_append, hdel, List.nil_append]
    have hkeep : (vs.enum.map (fun (idx, v) =>
        ({ id := db.nextId + idx, page_id := pid, title := v.title,
           url := v.url, description := none, duration := none,
           sort_order := idx } : VideoRow))).filter
          (fun v => v.page_id = pid) = vs.enum.map (fun (idx, v) =>
        ({ id := db.nextId + idx, page_id := pid, title := v.title,
           url := v.url, description := none, duration := none,
           sort_order := idx } : VideoRow)) := by
      apply List.filter_eq_self.mpr
      intro x hx
      obtain ⟨e, _, he⟩ := List.mem_map.mp hx
      obtain ⟨idx, vv⟩ := e
      rw [← he]
      simp
    rw [hkeep]
    unfold vidFromView
    rw [List.map_map]
    apply List.map_congr_left
    intro e _
    obtain ⟨idx, vv⟩ := e
    rfl
  next hlen =>
    have hvs : vs = [] := List.length_eq_zero.mp (by omega)
    subst hvs
    rw [hdel]
    rfl

theorem insertResources_spec (db : DB) (pid : Nat) (rs : List ResourceView)
    (hclear : db.resources.filter (fun r => r.page_id = pid) = []) :
    ((insertResources db pid rs).resources.filter
      (fun r => r.page_id = pid)).map resContent = resFromView pid rs := by
  unfold insertResources
  dsimp only
  rw [List.filter_append, hclear, List.nil_append]
  have hkeep : (rs.enum.map (fun (idx, r) =>
      ({ id := db.nextId + idx, page_id := pid, title := r.title,
         url := jsOrNull r.url, description := jsOrNull r.description,
         sort_order := idx } : ResourceRow))).filter
        (fun r => r.page_id = pid) = rs.enum.map (fun (idx, r) =>
      ({ id := db.nextId + idx, page_id := pid, title := r.title,
         url := jsOrNull r.url, description := jsOrNull r.description,
         sort_order := idx } : ResourceRow)) := by
    apply List.filter_eq_self.mpr
    intro x hx
    obtain ⟨e, _, he⟩ := List.mem_map.mp hx
    obtain ⟨idx, rv⟩ := e
    rw [← he]
    simp
  rw [hkeep]
  unfold resFromView
  rw [List.map_map]
  apply List.map_congr_left
  intro e _
  obtain ⟨idx, rv⟩ := e
  rfl

theorem insertVideosCreated_spec (db : DB) (pid : Nat) (vs : List VideoView)
    (hclear : db.videos.filter (fun v => v.page_id = pid) = []) :
    ((insertVideosCreated db pid vs).videos.filter
      (fun v => v.page_id = pid)).map vidContent = vidFromView pid vs := by
  unfold insertVideosCreated
  dsimp only
  rw [List.filter_append, hclear, List.nil_append]
  have hkeep : (vs.enum.map (fun (idx, v) =>
      ({ id := db.nextId + idx, page_id := pid, title := v.title,
         url := v.url, description := none,
         duration := jsOrNull v.duration,
         sort_order := idx } : VideoRow))).filter
        (fun v => v.page_id = pid) = vs.enum.map (fun (idx, v) =>
      ({ id := db.nextId + idx, page_id := pid, title := v.title,
         url := v.url, description := none,
         duration := jsOrNull v.duration,
         sort_order := idx } : VideoRow)) := by
    apply List.filter_eq_self.mpr
    intro x hx
    obtain ⟨e, _, he⟩ := List.mem_map.mp hx
    obtain ⟨idx, vv⟩ := e
    rw [← he]
    simp
  rw [hkeep]
  unfold vidFromView
  rw [List.map_map]
  apply List.map_congr_left
  intro e _
  obtain ⟨idx, vv⟩ := e
  rfl

/-! ## The question update phase, characterised -/

/-- The update phase of question reconciliation is a keyed rewrite of the
questions table: ids, page ids and numbers are fixed, rows of other pages
are fixed entirely, and each processed template index has set its matched
row's text to the template text. -/
theorem reconcile_update_phase (db : DB) (pid : Nat)
    (exqs : List QuestionRow) (tqs : List QuestionView)
    (hexq : ∀ q ∈ exqs, q ∈ db.questions)
    (hexqp : ∀ q ∈ exqs, q.page_id = pid)
    (hnd : (db.questions.map (fun q => q.id)).Nodup) :
    ∃ gq : QuestionRow → QuestionRow,
      (∀ q, (gq q).id = q.id ∧ (gq q).page_id = q.page_id ∧
        (gq q).question_number = q.question_number) ∧
      (∀ q ∈ db.questions, q.page_id ≠ pid → gq q = q) ∧
      (tqs.enum.foldl (fun b e =>
        match exqs.find? (fun q => q.question_number = e.1 + 1) with
        | some existingQ => updateQuestionText b existingQ.id e.2.text
        | none => b) db).questions = db.questions.map gq ∧
      (∀ e ∈ tqs.enum, ∀ q0, exqs.find? (fun q =>
          q.question_number = e.1 + 1) = some q0 →
        (gq q0).text = e.2.text) := by
  refine foldl_establish (fun D s => ∃ gq : QuestionRow → QuestionRow,
      (∀ q, (gq q).id = q.id ∧ (gq q).page_id = q.page_id ∧
        (gq q).question_number = q.question_number) ∧
      (∀ q ∈ db.questions, q.page_id ≠ pid → gq q = q) ∧
      s.questions = db.questions.map gq ∧
      (∀ e ∈ D, ∀ q0, exqs.find? (fun q =>
          q.question_number = e.1 + 1) = some q0 →
        (gq q0).text = e.2.text))
    _ tqs.enum db ⟨id, fun q => ⟨rfl, rfl, rfl⟩, fun q _ _ => rfl,
      (List.map_id db.questions).symm, fun e he => absurd he
        (List.not_mem_nil e)⟩ ?_
  intro done x todo b' hl hP
  obtain ⟨gq, hkeys, hfixo, hmap, htexts⟩ := hP
  obtain ⟨hx1, hdone1⟩ := enum_prefix_fst hl
  cases hfind : exqs.find? (fun q => q.question_number = x.1 + 1) with
  | none =>
    refine ⟨gq, hkeys, hfixo, hmap, ?_⟩
    intro e he q0 hq0
    rcases List.mem_append.mp he with he2 | he2
    · exact htexts e he2 q0 hq0
    · rw [List.mem_singleton] at he2
      subst he2
      rw [hfind] at hq0
      cases hq0
  | some q0 =>
    have hq0mem : q0 ∈ db.questions :=
      hexq q0 (List.mem_of_find?_eq_some hfind)
    have hq0num : q0.question_number = x.1 + 1 := by
      have h2 := List.find?_some hfind
      simpa using h2
    refine ⟨fun q => if (gq q).id = q0.id then
        { gq q with text := x.2.text } else gq q, ?_, ?_, ?_, ?_⟩
    · intro q
      dsimp only
      by_cases hc : (gq q).id = q0.id
      · rw [if_pos hc]
        exact ⟨(hkeys q).1, (hkeys q).2.1, (hkeys q).2.2⟩
      · rw [if_neg hc]
        exact hkeys q
    · intro q hq hqp
      have hgq : gq q = q := hfixo q hq hqp
      have hne : ¬ (gq q).id = q0.id := by
        rw [hgq]
        intro hc
        have hq0q : q = q0 := nodup_map_mem_inj hnd hq hq0mem hc
        exact hqp (hq0q ▸ hexqp q0 (List.mem_of_find?_eq_some hfind))
      dsimp only
      rw [if_neg hne, hgq]
    · show (updateQuestionText b' q0.id x.2.text).questions = _
      show b'.questions.map _ = _
      rw [hmap, List.map_map]
      apply List.map_congr_left
      intro q _
      rfl
    · intro e he q1 hq1
      rcases List.mem_append.mp he with he2 | he2
      · have hold := htexts e he2 q1 hq1
        have hq1mem : q1 ∈ db.questions :=
          hexq q1 (List.mem_of_find?_eq_some hq1)
        have hq1num : q1.question_number = e.1 + 1 := by
          have h2 := List.find?_some hq1
          simpa using h2
        dsimp only
        rw [if_neg]
        · exact hold
        · rw [(hkeys q1).1]
          intro hc
          have hq1q0 : q1 = q0 := nodup_map_mem_inj hnd hq1mem hq0mem hc
          rw [hq1q0] at hq1num
          have he1 : e.1 < done.length := hdone1 e he2
          omega
      · rw [List.mem_singleton] at he2
        subst he2
        have : q1 = q0 := by
          rw [hfind] at hq1
          exact (Option.some_inj.mp hq1).symm
        subst this
        dsimp only
        rw [if_pos (hkeys q1).1]

theorem insertQuestionRows_mem_old {db : DB} {pid : Nat}
    {qs : List (Nat × QuestionView)} {q : QuestionRow}
    (h : q ∈ db.questions) : q ∈ (insertQuestionRows db pid qs).questions := by
  unfold insertQuestionRows
  split
  · exact List.mem_append_left _ h
  · exact h

theorem insertQuestionRows_mem_new {db : DB} {pid : Nat}
    {qs : List (Nat × QuestionView)} {j : Nat} {e : Nat × QuestionView}
    (h : qs[j]? = some e) :
    (⟨db.nextId + j, pid, e.1 + 1, e.2.text⟩ : QuestionRow) ∈
      (insertQuestionRows db pid qs).questions := by
  have hmem : e ∈ qs := by
    rw [List.mem_iff_getElem?]
    exact ⟨j, h⟩
  have hlen : qs.length > 0 := List.length_pos_of_mem hmem
  unfold insertQuestionRows
  split
  next =>
    refine List.mem_append_right _ ?_
    have henum : (j, e) ∈ qs.enum := List.mk_mem_enum_iff_getElem?.mpr h
    exact List.mem_map_of_mem (fun (j, e) =>
      ({ id := db.nextId + j, page_id := pid, question_number := e.1 + 1,
         text := e.2.text } : QuestionRow)) henum
  next hl => exact absurd hlen hl

theorem reconcileQuestions_questions_other (db : DB) (pid pid2 : Nat)
    (tqs : List QuestionView)
    (hnd : (db.questions.map (fun q => q.id)).Nodup) (hne : pid2 ≠ pid) :
    (reconcileQuestions db pid tqs).questions.filter
      (fun q => q.page_id = pid2) =
    db.questions.filter (fun q => q.page_id = pid2) := by
  unfold reconcileQuestions reconcileQuestionsWith
  dsimp only
  obtain ⟨gq, hkeys, hfixo, hmap, _⟩ := reconcile_update_phase db pid
    (sortByKey (fun q => q.question_number)
      (db.questions.filter (fun q => q.page_id = pid))) tqs
    (fun q hq => (List.mem_filter.mp (mem_sortByKey.mp hq)).1)
    (fun q hq => of_decide_eq_true
      (List.mem_filter.mp (mem_sortByKey.mp hq)).2) hnd
  have hins : ∀ (x : DB) (qs : List (Nat × QuestionView)),
      (insertQuestionRows x pid qs).questions.filter
        (fun q => q.page_id = pid2) =
      x.questions.filter (fun q => q.page_id = pid2) := by
    intro x qs
    unfold insertQuestionRows
    split
    · show ((x.questions ++ _).filter _) = _
      refine filter_append_none ?_
      intro y hy
      obtain ⟨e, _, he⟩ := List.mem_map.mp hy
      obtain ⟨j, e2⟩ := e
      rw [← he]
      simpa using fun hc => hne hc.symm
    · rfl
  rw [hins, hmap]
  refine filter_map_invariant _ _ _ ?_ ?_
  · intro x hx hpx
    refine hfixo x hx (fun hc => hne ?_)
    have hx2 : x.page_id = pid2 := of_decide_eq_true hpx
    omega
  · intro x _
    rw [(hkeys x).2.1]

theorem reconcileQuestions_spec (db : DB) (pid : Nat)
    (tqs : List QuestionView)
    (hnd : (db.questions.map (fun q => q.id)).Nodup) :
    ∀ (qIdx : Nat) (tq : QuestionView), tqs[qIdx]? = some tq →
      ∃ qr ∈ (reconcileQuestions db pid tqs).questions,
        qr.page_id = pid ∧ qr.question_number = qIdx + 1 ∧
        qr.text = tq.text := by
  unfold reconcileQuestions reconcileQuestionsWith
  dsimp only
  obtain ⟨gq, hkeys, hfixo, hmap, htexts⟩ := reconcile_update_phase db pid
    (sortByKey (fun q => q.question_number)
      (db.questions.filter (fun q => q.page_id = pid))) tqs
    (fun q hq => (List.mem_filter.mp (mem_sortByKey.mp hq)).1)
    (fun q hq => of_decide_eq_true
      (List.mem_filter.mp (mem_sortByKey.mp hq)).2) hnd
  intro qIdx tq hget
  have henum : (qIdx, tq) ∈ tqs.enum :=
    List.mk_mem_enum_iff_getElem?.mpr hget
  cases hfind : (sortByKey (fun q => q.question_number)
      (db.questions.filter (fun q => q.page_id = pid))).find?
      (fun q => q.question_number = qIdx + 1) with
  | some q0 =>
    have hq0s := List.mem_of_find?_eq_some hfind
    have hq0db : q0 ∈ db.questions :=
      (List.mem_filter.mp (mem_sortByKey.mp hq0s)).1
    have hq0pid : q0.page_id = pid := of_decide_eq_true
      (List.mem_filter.mp (mem_sortByKey.mp hq0s)).2
    have hq0num : q0.question_number = qIdx + 1 := by
      have h2 := List.find?_some hfind
      simpa using h2
    have htext : (gq q0).text = tq.text := htexts (qIdx, tq) henum q0 hfind
    refine ⟨gq q0, ?_, ?_, ?_, htext⟩
    · refine insertQuestionRows_mem_old ?_
      rw [hmap]
      exact List.mem_map_of_mem gq hq0db
    · rw [(hkeys q0).2.1]
      exact hq0pid
    · rw [(hkeys q0).2.2]
      exact hq0num
  | none =>
    have hin : (qIdx, tq) ∈ tqs.enum.filter (fun e =>
        ((sortByKey (fun q => q.question_number)
          (db.questions.filter (fun q => q.page_id = pid))).find?
          (fun q => q.question_number = e.1 + 1)).isNone) := by
      refine List.mem_filter.mpr ⟨henum, ?_⟩
      show ((sortByKey (fun q => q.question_number)
          (db.questions.filter (fun q => q.page_id = pid))).find?
          (fun q => q.question_number = qIdx + 1)).isNone = true
      rw [hfind]
      rfl
    obtain ⟨j, hj⟩ := List.mem_iff_getElem?.mp hin
    exact ⟨_, insertQuestionRows_mem_new hj, rfl, rfl, rfl⟩

theorem reconcileQuestions_noop (db : DB) (pid : Nat)
    (tqs : List QuestionView)
    (hnd : (db.questions.map (fun q => q.id)).Nodup)
    (hpairs : (db.questions.map
      (fun q => (q.page_id, q.question_number))).Nodup)
    (hhave : ∀ (qIdx : Nat) (tq : QuestionView), tqs[qIdx]? = some tq →
      ∃ qr ∈ db.questions, qr.page_id = pid ∧
        qr.question_number = qIdx + 1 ∧ qr.text = tq.text) :
    reconcileQuestions db pid tqs = db := by
  unfold reconcileQuestions reconcileQuestionsWith
  dsimp only
  have hone : ∀ e ∈ tqs.enum,
      ∀ q', (sortByKey (fun q => q.question_number)
          (db.questions.filter (fun q => q.page_id = pid))).find?
          (fun q => q.question_number = e.1 + 1) = some q' →
        q'.text = e.2.text ∧ q' ∈ db.questions := by
    intro e he q' hq'
    obtain ⟨qIdx, tq⟩ := e
    have hget : tqs[qIdx]? = some tq :=
      List.mk_mem_enum_iff_getElem?.mp he
    obtain ⟨qr, hqr, hqrp, hqrn, hqrt⟩ := hhave qIdx tq hget
    have hq's := List.mem_of_find?_eq_some hq'
    have hq'db : q' ∈ db.questions :=
      (List.mem_filter.mp (mem_sortByKey.mp hq's)).1
    have hq'pid : q'.page_id = pid := of_decide_eq_true
      (List.mem_filter.mp (mem_sortByKey.mp hq's)).2
    have hq'num : q'.question_number = qIdx + 1 := by
      have h2 := List.find?_some hq'
      simpa using h2
    have hqq : q' = qr := by
      refine nodup_map_mem_inj hpairs hq'db hqr ?_
      show (q'.page_id, q'.question_number) = (qr.page_id, qr.question_number)
      rw [hq'pid, hq'num, hqrp, hqrn]
    rw [hqq, hqrt]
    exact ⟨rfl, hqq ▸ hq'db⟩
  have hnotnone : ∀ e ∈ tqs.enum,
      ¬ (sortByKey (fun q => q.question_number)
          (db.questions.filter (fun q => q.page_id = pid))).find?
          (fun q => q.question_number = e.1 + 1) = none := by
    intro e he hnone
    obtain ⟨qIdx, tq⟩ := e
    have hget : tqs[qIdx]? = some tq :=
      List.mk_mem_enum_iff_getElem?.mp he
    obtain ⟨qr, hqr, hqrp, hqrn, hqrt⟩ := hhave qIdx tq hget
    have hqrs : qr ∈ sortByKey (fun q => q.question_number)
        (db.questions.filter (fun q => q.page_id = pid)) :=
      mem_sortByKey.mpr (List.mem_filter.mpr ⟨hqr, by simpa using hqrp⟩)
    exact List.find?_eq_none.mp hnone qr hqrs (by simpa using hqrn)
  have hFOLD : tqs.enum.foldl (fun b e =>
      match (sortByKey (fun q => q.question_number)
          (db.questions.filter (fun q => q.page_id = pid))).find?
          (fun q => q.question_number = e.1 + 1) with
        | some existingQ => updateQuestionText b existingQ.id e.2.text
        | none => b) db = db := by
    refine (foldl_invariant (fun x y : DB => x = db → y = db)
      (fun b hb => hb) (fun p q r g1 g2 hb => g2 (g1 hb)) _ tqs.enum db
      ?_) rfl
    intro b e he hb
    cases hfind : (sortByKey (fun q => q.question_number)
        (db.questions.filter (fun q => q.page_id = pid))).find?
        (fun q => q.question_number = e.1 + 1) with
    | none => exact hb
    | some q1 =>
      rw [hb]
      obtain ⟨hq1t, hq1db⟩ := hone e he q1 hfind
      have hmap : db.questions.map (fun q =>
          if q.id = q1.id then { q with text := e.2.text } else q) =
          db.questions := by
        apply map_eq_self
        intro q hq
        by_cases hc : q.id = q1.id
        · have hqq1 : q = q1 := nodup_map_mem_inj hnd hq hq1db hc
          subst hqq1
          rw [if_pos hc, ← hq1t]
        · rw [if_neg hc]
      show { db with questions := db.questions.map _ } = db
      rw [hmap]
  have hINS : tqs.enum.filter (fun e =>
      ((sortByKey (fun q => q.question_number)
        (db.questions.filter (fun q => q.page_id = pid))).find?
        (fun q => q.question_number = e.1 + 1)).isNone) = [] := by
    apply List.filter_eq_nil_iff.mpr
    intro e he hpe
    refine hnotnone e he ?_
    exact Option.isNone_iff_eq_none.mp (by simpa using hpe)
  rw [hFOLD, hINS]
  unfold insertQuestionRows
  rw [if_neg (by simp)]

theorem updatePageRow_noop {db : DB} {ap : PageRow} {title ty : String}
    {content : Option String}
    (hnd : (db.pages.map (fun p => p.id)).Nodup) (hap : ap ∈ db.pages)
    (h1 : ap.title = title) (h2 : ap.type = ty) (h3 : ap.content = content) :
    updatePageRow db ap.id title ty content = db := by
  have hmap : db.pages.map (fun p =>
      if p.id = ap.id then
        { p with title := title, type := ty, content := content }
      else p) = db.pages := by
    apply map_eq_self
    intro p hp
    by_cases hc : p.id = ap.id
    · have hpap : p = ap := nodup_map_mem_inj hnd hp hap hc
      subst hpap
      rw [if_pos hc, ← h1, ← h2, ← h3]
    · rw [if_neg hc]
  show { db with pages := db.pages.map _ } = db
  rw [hmap]

theorem SecondRun.srrefl (db1 : DB) : SecondRun db1 db1 :=
  ⟨rfl, rfl, rfl, rfl, rfl, rfl, rfl, fun _ => rfl, fun _ => rfl⟩

/-- Re-syncing a page whose fields, questions and media contents already
match the template page changes nothing except replacing the media rows by
rows with identical contents. -/
theorem syncPageContent_secondrun {db1 s : DB} {tp : PageView} {ap : PageRow}
    (hnd : (db1.pages.map (fun p => p.id)).Nodup)
    (hqnd : (db1.questions.map (fun q => q.id)).Nodup)
    (hqpairs : (db1.questions.map
      (fun q => (q.page_id, q.question_number))).Nodup)
    (hsr : SecondRun db1 s) (hap : ap ∈ db1.pages)
    (hf1 : ap.title = tp.title) (hf2 : ap.type = tp.type)
    (hf3 : ap.content = tp.content)
    (hq : ∀ (qIdx : Nat) (tq : QuestionView), tp.questions[qIdx]? = some tq →
      ∃ qr ∈ db1.questions, qr.page_id = ap.id ∧
        qr.question_number = qIdx + 1 ∧ qr.text = tq.text)
    (hres : (db1.resources.filter (fun r => r.page_id = ap.id)).map
      resContent = resFromView ap.id tp.resources)
    (hvid : (db1.videos.filter (fun v => v.page_id = ap.id)).map vidContent =
      vidFromView ap.id tp.videos) :
    SecondRun db1 (syncPageContent s tp ap) := by
  obtain ⟨s1, s2, s3, s4, s5, s6, s7, s8, s9⟩ := hsr
  unfold syncPageContent
  dsimp only
  have hstep1 : updatePageRow s ap.id tp.title tp.type tp.content = s := by
    refine updatePageRow_noop ?_ ?_ hf1 hf2 hf3
    · rw [s4]
      exact hnd
    · rw [s4]
      exact hap
  rw [hstep1]
  have hq3 : (syncVideosOfPage (syncResourcesOfPage s ap.id tp.resources)
      ap.id tp.videos).questions = db1.questions :=
    ((syncVideosOfPage_tables _ ap.id tp.videos).2.1).trans
      (((syncResourcesOfPage_tables s ap.id tp.resources).2.1).trans s5)
  have hnoop : reconcileQuestions (syncVideosOfPage
      (syncResourcesOfPage s ap.id tp.resources) ap.id tp.videos)
      ap.id tp.questions = syncVideosOfPage
      (syncResourcesOfPage s ap.id tp.resources) ap.id tp.videos := by
    refine reconcileQuestions_noop _ ap.id tp.questions ?_ ?_ ?_
    · rw [hq3]
      exact hqnd
    · rw [hq3]
      exact hqpairs
    · intro qIdx tq hget
      rw [hq3]
      exact hq qIdx tq hget
  rw [hnoop]
  refine ⟨?_, ?_, ?_, ?_, hq3, ?_, ?_, ?_, ?_⟩
  · exact ((syncVideosOfPage_frame _ ap.id tp.videos).2.2.1).trans
      (((syncResourcesOfPage_frame s ap.id tp.resources).2.2.1).trans s1)
  · exact ((syncVideosOfPage_frame _ ap.id tp.videos).2.2.2.1).trans
      (((syncResourcesOfPage_frame s ap.id tp.resources).2.2.2.1).trans s2)
  · exact ((syncVideosOfPage_weeks _ ap.id tp.videos)).trans
      ((syncResourcesOfPage_weeks s ap.id tp.resources).trans s3)
  · exact ((syncVideosOfPage_tables _ ap.id tp.videos).1).trans
      (((syncResourcesOfPage_tables s ap.id tp.resources).1).trans s4)
  · exact ((syncVideosOfPage_frame _ ap.id tp.videos).1).trans
      (((syncResourcesOfPage_frame s ap.id tp.resources).1).trans s6)
  · exact ((syncVideosOfPage_frame _ ap.id tp.videos).2.1).trans
      (((syncResourcesOfPage_frame s ap.id tp.resources).2.1).trans s7)
  · intro pid
    have hres3 : (syncVideosOfPage (syncResourcesOfPage s ap.id tp.resources)
        ap.id tp.videos).resources =
        (syncResourcesOfPage s ap.id tp.resources).resources :=
      (syncVideosOfPage_tables _ ap.id tp.videos).2.2
    rw [hres3]
    by_cases hc : pid = ap.id
    · rw [hc, syncResourcesOfPage_spec s ap.id tp.resources, hres]
    · rw [syncResourcesOfPage_res_other s ap.id pid tp.resources hc]
      exact s8 pid
  · intro pid
    by_cases hc : pid = ap.id
    · rw [hc, syncVideosOfPage_spec _ ap.id tp.videos, hvid]
    · rw [syncVideosOfPage_vid_other _ ap.id pid tp.videos hc,
        (syncResourcesOfPage_tables s ap.id tp.resources).2.2]
      exact s9 pid

/-- Re-syncing a week already faithfully materialised in `db1` keeps the
`SecondRun` relation. -/
theorem syncWeekContent_secondrun {db1 s : DB} {tw : WeekView}
    (aw : WeekView) {a : Nat}
    (hWF1 : DBWF2 db1) (hsr : SecondRun db1 s)
    (hsw : SyncedWeek db1 a tw) (hawid : aw.id = tw.id) :
    SecondRun db1 (syncWeekContent s tw aw a) := by
  obtain ⟨wr, hwrmem, hwrm, hwrn, hwrt, hwrd, hwru, hpages⟩ := hsw
  have hsrC := hsr
  obtain ⟨s1, s2, s3, s4, s5, s6, s7, s8, s9⟩ := hsr
  unfold syncWeekContent
  dsimp only
  have hfil : s.weeks.filter (fun w =>
      w.module_id = a ∧ w.week_number = aw.id) = [wr] := by
    rw [s3, hawid]
    refine filter_eq_single (List.Nodup.of_map _ hWF1.1.1) hwrmem ?_ ?_
    · simpa using ⟨hwrm, hwrn⟩
    · intro y hy hpy
      have hy2 : y.module_id = a ∧ y.week_number = tw.id :=
        of_decide_eq_true hpy
      refine nodup_map_mem_inj hWF1.2.1 hy hwrmem ?_
      show (y.module_id, y.week_number) = (wr.module_id, wr.week_number)
      rw [hy2.1, hy2.2, hwrm, hwrn]
  have hstep0 : updateActiveWeekRow s a aw.id tw = s := by
    have hmap : s.weeks.map (fun w =>
        if w.module_id = a ∧ w.week_number = aw.id then
          { w with title := tw.title, description := tw.description,
                   unlock_date := tw.unlockDate }
        else w) = s.weeks := by
      apply map_eq_self
      intro w hw
      by_cases hc : w.module_id = a ∧ w.week_number = aw.id
      · have hwwr : w = wr := by
          have hwin : w ∈ s.weeks.filter (fun w =>
              w.module_id = a ∧ w.week_number = aw.id) :=
            List.mem_filter.mpr ⟨hw, by simpa using hc⟩
          rw [hfil, List.mem_singleton] at hwin
          exact hwin
        subst hwwr
        rw [if_pos hc, ← hwrt, ← hwrd, ← hwru]
      · rw [if_neg hc]
    show { s with weeks := s.weeks.map _ } = s
    rw [hmap]
  rw [hstep0]
  have hsingle : singleRow (s.weeks.filter (fun w =>
      w.module_id = a ∧ w.week_number = aw.id)) = some wr := by
    rw [hfil]
    rfl
  split
  next heq =>
    rw [hsingle] at heq
    cases heq
  next weekRecord heq =>
    rw [hsingle] at heq
    have hwrr : weekRecord = wr := Option.some_inj.mp heq.symm
    subst hwrr
    refine foldl_invariant (fun x y : DB =>
      SecondRun db1 x → SecondRun db1 y)
      (fun b hb => hb) (fun p q r g1 g2 hb => g2 (g1 hb)) _ tw.pages.enum s
      ?_ hsrC
    intro b e he hb
    cases hget : (sortByKey (fun p => p.page_number)
        (s.pages.filter (fun p => p.week_id = weekRecord.id)))[e.1]? with
    | none => exact hb
    | some ap =>
      obtain ⟨i, tp⟩ := e
      have hgettw : tw.pages[i]? = some tp :=
        List.mk_mem_enum_iff_getElem?.mp he
      rw [s4] at hget
      obtain ⟨hf1, hf2, hf3, hqc, hresc, hvidc⟩ :=
        hpages i tp ap hgettw hget
      have hapmem : ap ∈ db1.pages := by
        have hm := List.mem_filter.mp (mem_sortByKey.mp
          (List.getElem?_mem hget))
        exact hm.1
      exact syncPageContent_secondrun hWF1.1.2.1 hWF1.1.2.2.1 hWF1.2.2.1
        hb hapmem hf1 hf2 hf3 hqc hresc hvidc

/-- A full second pass over the template weeks keeps the `SecondRun`
relation when every template week is already materialised and matched. -/
theorem secondrun_syncWeeksStep {db1 : DB} {a : Nat}
    {tws aws : List WeekView} (hWF1 : DBWF2 db1)
    (hsynced : ∀ tw ∈ tws, SyncedWeek db1 a tw)
    (hmatch : ∀ tw ∈ tws, ∃ aw,
      jsMapGet (fun aw => aw.id) tw.id aws = some aw) :
    SecondRun db1 (syncWeeksStep db1 a tws aws) := by
  unfold syncWeeksStep
  refine foldl_invariant (fun x y : DB =>
    SecondRun db1 x → SecondRun db1 y)
    (fun b hb => hb) (fun p q r g1 g2 hb => g2 (g1 hb)) _ tws db1 ?_
    (SecondRun.srrefl db1)
  intro b tw htw hb
  obtain ⟨aw, haw⟩ := hmatch tw htw
  cases hget : jsMapGet (fun aw => aw.id) tw.id aws with
  | none =>
    rw [hget] at haw
    cases haw
  | some aw2 =>
    exact syncWeekContent_secondrun aw2 hWF1 hb (hsynced tw htw)
      (jsMapGet_key hget)

/-! ## Characterisation of the create path (first run, unmatched weeks) -/

theorem createPage_pages (db : DB) (wid n : Nat) (pd : PageView) :
    (createPage db wid n pd).pages = db.pages ++
      [⟨db.nextId, wid, n, pd.title, pd.type, jsOrNull pd.content⟩] := by
  unfold createPage insertPageRow insertQuestionsAt insertResources
    insertVideosCreated
  dsimp only
  split <;> split <;> (try split) <;> rfl

theorem createPage_questions (db : DB) (wid n : Nat) (pd : PageView) :
    (createPage db wid n pd).questions =
      (insertQuestionsAt (insertPageRow db
        ⟨db.nextId, wid, n, pd.title, pd.type, jsOrNull pd.content⟩)
        db.nextId pd.questions).questions := by
  unfold createPage insertResources insertVideosCreated
  dsimp only
  split <;> split <;> rfl

theorem insertQuestionsAt_mem_new {db : DB} {pid : Nat}
    {qs : List QuestionView} {j : Nat} {tq : QuestionView}
    (h : qs[j]? = some tq) :
    (⟨db.nextId + j, pid, j + 1, tq.text⟩ : QuestionRow) ∈
      (insertQuestionsAt db pid qs).questions := by
  have hmem : tq ∈ qs := by
    rw [List.mem_iff_getElem?]
    exact ⟨j, h⟩
  have hlen : qs.length > 0 := List.length_pos_of_mem hmem
  unfold insertQuestionsAt
  split
  next =>
    refine List.mem_append_right _ ?_
    have henum : (j, tq) ∈ qs.enum := List.mk_mem_enum_iff_getElem?.mpr h
    exact List.mem_map_of_mem (fun e =>
      (⟨db.nextId + e.1, pid, e.1 + 1, e.2.text⟩ : QuestionRow)) henum
  next hl => exact absurd hlen hl

theorem createPage_questions_spec (db : DB) (wid n : Nat) (pd : PageView) :
    ∀ (qIdx : Nat) (tq : QuestionView), pd.questions[qIdx]? = some tq →
      ∃ qr ∈ (createPage db wid n pd).questions, qr.page_id = db.nextId ∧
        qr.question_number = qIdx + 1 ∧ qr.text = tq.text := by
  intro qIdx tq hget
  rw [createPage_questions]
  exact ⟨_, insertQuestionsAt_mem_new hget, rfl, rfl, rfl⟩

theorem createPage_questions_mono {db : DB} (wid n : Nat) (pd : PageView)
    {q : QuestionRow} (h : q ∈ db.questions) :
    q ∈ (createPage db wid n pd).questions := by
  rw [createPage_questions]
  unfold insertQuestionsAt
  split
  · exact List.mem_append_left _ h
  · exact h

theorem createPage_resources (db : DB) (wid n : Nat) (pd : PageView) :
    (createPage db wid n pd).resources =
      (if pd.resources.length > 0 then
        insertResources (insertQuestionsAt (insertPageRow db
          ⟨db.nextId, wid, n, pd.title, pd.type, jsOrNull pd.content⟩)
          db.nextId pd.questions) db.nextId pd.resources
      else insertQuestionsAt (insertPageRow db
          ⟨db.nextId, wid, n, pd.title, pd.type, jsOrNull pd.content⟩)
          db.nextId pd.questions).resources := by
  unfold createPage insertVideosCreated
  dsimp only
  split <;> rfl

theorem createPage_videos (db : DB) (wid n : Nat) (pd : PageView) :
    (createPage db wid n pd).videos =
      (if pd.videos.length > 0 then
        insertVideosCreated (if pd.resources.length > 0 then
          insertResources (insertQuestionsAt (insertPageRow db
            ⟨db.nextId, wid, n, pd.title, pd.type, jsOrNull pd.content⟩)
            db.nextId pd.questions) db.nextId pd.resources
        else insertQuestionsAt (insertPageRow db
            ⟨db.nextId, wid, n, pd.title, pd.type, jsOrNull pd.content⟩)
            db.nextId pd.questions) db.nextId pd.videos
      else (if pd.resources.length > 0 then
          insertResources (insertQuestionsAt (insertPageRow db
            ⟨db.nextId, wid, n, pd.title, pd.type, jsOrNull pd.content⟩)
            db.nextId pd.questions) db.nextId pd.resources
        else insertQuestionsAt (insertPageRow db
            ⟨db.nextId, wid, n, pd.title, pd.type, jsOrNull pd.content⟩)
            db.nextId pd.questions)).videos := by
  unfold createPage
  rfl

theorem createPage_res_spec (db : DB) (wid n : Nat) (pd : PageView)
    (hclear : ∀ r ∈ db.resources, r.page_id ≠ db.nextId) :
    ((createPage db wid n pd).resources.filter
      (fun r => r.page_id = db.nextId)).map resContent =
      resFromView db.nextId pd.resources := by
  rw [createPage_resources]
  have hdb2res : (insertQuestionsAt (insertPageRow db
      ⟨db.nextId, wid, n, pd.title, pd.type, jsOrNull pd.content⟩)
      db.nextId pd.questions).resources = db.resources := by
    unfold insertQuestionsAt insertPageRow
    dsimp only
    split <;> rfl
  have hnil : (insertQuestionsAt (insertPageRow db
      ⟨db.nextId, wid, n, pd.title, pd.type, jsOrNull pd.content⟩)
      db.nextId pd.questions).resources.filter
      (fun r => r.page_id = db.nextId) = [] := by
    rw [hdb2res]
    apply List.filter_eq_nil_iff.mpr
    intro x hx hpx
    exact hclear x hx (of_decide_eq_true hpx)
  split
  · exact insertResources_spec _ db.nextId pd.resources hnil
  next hlen =>
    have hres0 : pd.resources = [] := List.length_eq_zero.mp (by omega)
    rw [hnil, hres0]
    rfl

theorem createPage_res_other (db : DB) (wid n : Nat) (pd : PageView)
    (pid2 : Nat) (hne : pid2 ≠ db.nextId) :
    (createPage db wid n pd).resources.filter (fun r => r.page_id = pid2) =
      db.resources.filter (fun r => r.page_id = pid2) := by
  rw [createPage_resources]
  have hdb2res : (insertQuestionsAt (insertPageRow db
      ⟨db.nextId, wid, n, pd.title, pd.type, jsOrNull pd.content⟩)
      db.nextId pd.questions).resources = db.resources := by
    unfold insertQuestionsAt insertPageRow
    dsimp only
    split <;> rfl
  split
  · unfold insertResources
    dsimp only
    refine (filter_append_none ?_).trans (by rw [hdb2res])
    intro x hx
    obtain ⟨e, _, he⟩ := List.mem_map.mp hx
    obtain ⟨idx, rv⟩ := e
    rw [← he]
    simpa using fun hc => hne hc.symm
  · rw [hdb2res]

theorem createPage_vidbase (db : DB) (wid n : Nat) (pd : PageView) :
    (if pd.resources.length > 0 then
        insertResources (insertQuestionsAt (insertPageRow db
          ⟨db.nextId, wid, n, pd.title, pd.type, jsOrNull pd.content⟩)
          db.nextId pd.questions) db.nextId pd.resources
      else insertQuestionsAt (insertPageRow db
          ⟨db.nextId, wid, n, pd.title, pd.type, jsOrNull pd.content⟩)
          db.nextId pd.questions).videos = db.videos := by
  split
  · unfold insertResources insertQuestionsAt insertPageRow
    dsimp only
    split <;> rfl
  · unfold insertQuestionsAt insertPageRow
    dsimp only
    split <;> rfl

theorem createPage_vid_spec (db : DB) (wid n : Nat) (pd : PageView)
    (hclear : ∀ v ∈ db.videos, v.page_id ≠ db.nextId) :
    ((createPage db wid n pd).videos.filter
      (fun v => v.page_id = db.nextId)).map vidContent =
      vidFromView db.nextId pd.videos := by
  rw [createPage_videos]
  have hnil : (if pd.resources.length > 0 then
      insertResources (insertQuestionsAt (insertPageRow db
        ⟨db.nextId, wid, n, pd.title, pd.type, jsOrNull pd.content⟩)
        db.nextId pd.questions) db.nextId pd.resources
    else insertQuestionsAt (insertPageRow db
        ⟨db.nextId, wid, n, pd.title, pd.type, jsOrNull pd.content⟩)
        db.nextId pd.questions).videos.filter
      (fun v => v.page_id = db.nextId) = [] := by
    rw [createPage_vidbase]
    apply List.filter_eq_nil_iff.mpr
    intro x hx hpx
    exact hclear x hx (of_decide_eq_true hpx)
  split
  · exact insertVideosCreated_spec _ db.nextId pd.videos hnil
  next hlen =>
    have hvid0 : pd.videos = [] := List.length_eq_zero.mp (by omega)
    rw [hnil, hvid0]
    rfl

theorem createPage_vid_other (db : DB) (wid n : Nat) (pd : PageView)
    (pid2 : Nat) (hne : pid2 ≠ db.nextId) :
    (createPage db wid n pd).videos.filter (fun v => v.page_id = pid2) =
      db.videos.filter (fun v => v.page_id = pid2) := by
  rw [createPage_videos]
  split
  · unfold insertVideosCreated
    dsimp only
    refine (filter_append_none ?_).trans (by rw [createPage_vidbase])
    intro x hx
    obtain ⟨e, _, he⟩ := List.mem_map.mp hx
    obtain ⟨idx, vv⟩ := e
    rw [← he]
    simpa using fun hc => hne hc.symm
  · rw [createPage_vidbase]

theorem createPage_nextId_lt (db : DB) (wid n : Nat) (pd : PageView) :
    db.nextId < (createPage db wid n pd).nextId := by
  unfold createPage
  dsimp only
  have h1 : (insertPageRow db ⟨db.nextId, wid, n, pd.title, pd.type,
      jsOrNull pd.content⟩).nextId = db.nextId + 1 := rfl
  have h2 := (insertQuestionsAt_wfm (insertPageRow db ⟨db.nextId, wid, n,
    pd.title, pd.type, jsOrNull pd.content⟩) db.nextId pd.questions).2
  split
  · split
    · have h3 := (insertResources_wfm (insertQuestionsAt (insertPageRow db
        ⟨db.nextId, wid, n, pd.title, pd.type, jsOrNull pd.content⟩)
        db.nextId pd.questions) db.nextId pd.resources).2
      have h4 := (insertVideosCreated_wfm (insertResources
        (insertQuestionsAt (insertPageRow db
          ⟨db.nextId, wid, n, pd.title, pd.type, jsOrNull pd.content⟩)
          db.nextId pd.questions) db.nextId pd.resources)
        db.nextId pd.videos).2
      omega
    · have h4 := (insertVideosCreated_wfm (insertQuestionsAt (insertPageRow db
        ⟨db.nextId, wid, n, pd.title, pd.type, jsOrNull pd.content⟩)
        db.nextId pd.questions) db.nextId pd.videos).2
      omega
  · split
    · have h3 := (insertResources_wfm (insertQuestionsAt (insertPageRow db
        ⟨db.nextId, wid, n, pd.title, pd.type, jsOrNull pd.content⟩)
        db.nextId pd.questions) db.nextId pd.resources).2
      omega
    · omega

theorem insertWeekRow_wf2 (db : DB) (mid wn : Nat) (ti : String)
    (de ul : Option String)
    (hnone : ∀ w ∈ db.weeks, ¬(w.module_id = mid ∧ w.week_number = wn))
    (h : DBWF2 db) :
    DBWF2 { db with
      weeks := db.weeks ++ [⟨db.nextId, mid, wn, ti, de, ul⟩]
      nextId := db.nextId + 1 } := by
  obtain ⟨h1, h2, h3, h4, h5, h6, h7⟩ := h
  refine ⟨(insertWeekRow_wfm db ⟨db.nextId, mid, wn, ti, de, ul⟩ rfl).1 h1,
    ?_, h3, ?_, ?_, ?_, ?_⟩
  · show ((db.weeks ++ _).map _).Nodup
    rw [List.map_append, List.nodup_append]
    refine ⟨h2, by simp, ?_⟩
    intro x hx hx2
    rw [show ([(⟨db.nextId, mid, wn, ti, de, ul⟩ : WeekRow)] :
        List WeekRow).map (fun w => (w.module_id, w.week_number)) =
        [(mid, wn)] from rfl, List.mem_singleton] at hx2
    obtain ⟨w, hw, rfl⟩ := List.mem_map.mp hx
    refine hnone w hw ⟨?_, ?_⟩
    · simpa using congrArg Prod.fst hx2
    · simpa using congrArg Prod.snd hx2
  · intro q hq
    show q.page_id < db.nextId + 1
    have := h4 q hq
    omega
  · intro p hp
    show p.week_id < db.nextId + 1
    have := h5 p hp
    omega
  · intro r hr
    show r.page_id < db.nextId + 1
    have := h6 r hr
    omega
  · intro v hv
    show v.page_id < db.nextId + 1
    have := h7 v hv
    omega

theorem pairwise_of_index {α : Type} {l : List α} {f : α → Nat}
    (h : ∀ (j : Nat) (pr : α), l[j]? = some pr → f pr = j + 1) :
    l.Pairwise (fun a b => f a ≤ f b) := by
  rw [List.pairwise_iff_getElem]
  intro i j hi hj hij
  have h1 := h i (l.get ⟨i, hi⟩) (List.getElem?_eq_getElem hi)
  have h2 := h j (l.get ⟨j, hj⟩) (List.getElem?_eq_getElem hj)
  show f (l.get ⟨i, hi⟩) ≤ f (l.get ⟨j, hj⟩)
  omega

theorem jsMapGet_mem {α : Type} {key : α → Nat} {k : Nat} {l : List α}
    {x : α} (h : jsMapGet key k l = some x) : x ∈ l := by
  unfold jsMapGet at h
  exact (List.mem_filter.mp (List.mem_of_mem_getLast? h)).1

theorem nodup_split_ne {α : Type} {l D rest : List α} {x : α} {f : α → Nat}
    (hnd : (l.map f).Nodup) (h : l = D ++ x :: rest) :
    ∀ y ∈ D, f y ≠ f x := by
  subst h
  rw [List.map_append, List.map_cons, List.nodup_append] at hnd
  intro y hy hfy
  refine hnd.2.2 (List.mem_map_of_mem f hy) ?_
  rw [hfy]
  exact List.mem_cons_self _ _

theorem getWeeks_ids_nodup {db : DB} (mid : Nat)
    (hpairs : (db.weeks.map (fun w => (w.module_id, w.week_number))).Nodup) :
    ((getWeeks db mid).map (fun tv => tv.id)).Nodup := by
  unfold getWeeks
  rw [List.map_map]
  have hco : ∀ w : WeekRow, (((fun tv : WeekView => tv.id)) ∘ (fun week =>
      ({ id := week.week_number, moduleId := week.module_id,
         title := week.title, description := week.description,
         unlockDate := week.unlock_date,
         pages := (sortByKey (fun p => p.page_number)
          (db.pages.filter (fun p => p.week_id = week.id))).map (fun page =>
          { title := page.title, type := page.type, content := page.content
            questions := (sortByKey (fun q => q.question_number)
                (db.questions.filter (fun q => q.page_id = page.id))).map
                  (fun q => { id := q.question_number, text := q.text })
            resources := (sortByKey (fun r => r.sort_order)
                (db.resources.filter (fun r => r.page_id = page.id))).map
                  (fun r => { id := r.id, title := r.title, url := r.url,
                              description := r.description })
            videos := (sortByKey (fun v => v.sort_order)
                (db.videos.filter (fun v => v.page_id = page.id))).map
                  (fun v => { id := v.id, title := v.title, url := v.url,
                              duration := v.duration }) }) } : WeekView)))
        w = w.week_number := fun w => rfl
  rw [funext hco]
  have hperm := (sortByKey_perm (fun w : WeekRow => w.week_number)
    (db.weeks.filter (fun w => w.module_id = mid))).map
    (fun w : WeekRow => w.week_number)
  rw [hperm.nodup_iff]
  have hg : ((db.weeks.filter (fun w => w.module_id = mid)).map
      (fun w => (w.module_id, w.week_number))).Nodup :=
    List.Nodup.sublist (List.Sublist.map _ (List.filter_sublist _)) hpairs
  refine nodup_map_of_nodup_map hg ?_
  intro x hx y hy hf
  have hxm : x.module_id = mid :=
    of_decide_eq_true (List.mem_filter.mp hx).2
  have hym : y.module_id = mid :=
    of_decide_eq_true (List.mem_filter.mp hy).2
  show (x.module_id, x.week_number) = (y.module_id, y.week_number)
  rw [hxm, hym, hf]

/-- Creating a week from a clean template week view materialises that week
faithfully. -/
theorem createWeekWithNumber_synced {s : DB} {a : Nat} {tw : WeekView}
    (hWF : DBWF2 s) (hclean : CleanWeekView tw)
    (hnone : ∀ w ∈ s.weeks, ¬(w.module_id = a ∧ w.week_number = tw.id)) :
    SyncedWeek (createWeekWithNumber s a tw.id
      { title := tw.title, description := tw.description,
        unlockDate := tw.unlockDate, pages := tw.pages }) a tw := by
  obtain ⟨hc1, hc2, hc3⟩ := hclean
  have hterm : createWeekWithNumber s a tw.id
      { title := tw.title, description := tw.description,
        unlockDate := tw.unlockDate, pages := tw.pages } =
      tw.pages.enum.foldl (fun u e => createPage u s.nextId (e.1 + 1) e.2)
        { s with
          weeks := s.weeks ++ [⟨s.nextId, a, tw.id, tw.title,
            jsOrNull tw.description, jsOrNull tw.unlockDate⟩]
          nextId := s.nextId + 1 } := by
    unfold createWeekWithNumber
    rfl
  have hP := foldl_establish (fun D u =>
      DBWF2 u ∧ s.nextId < u.nextId ∧
      ∃ created : List PageRow,
        u.pages.filter (fun p => p.week_id = s.nextId) = created ∧
        created.length = D.length ∧
        ∀ (j : Nat) (e : Nat × PageView) (pr : PageRow), D[j]? = some e →
          created[j]? = some pr →
          (pr.week_id = s.nextId ∧ pr.page_number = e.1 + 1 ∧
           pr.id < u.nextId ∧ pr.title = e.2.title ∧ pr.type = e.2.type ∧
           pr.content = jsOrNull e.2.content ∧
           (∀ (qIdx : Nat) (tq : QuestionView),
             e.2.questions[qIdx]? = some tq →
             ∃ qr ∈ u.questions, qr.page_id = pr.id ∧
               qr.question_number = qIdx + 1 ∧ qr.text = tq.text) ∧
           (u.resources.filter (fun r => r.page_id = pr.id)).map resContent =
             resFromView pr.id e.2.resources ∧
           (u.videos.filter (fun v => v.page_id = pr.id)).map vidContent =
             vidFromView pr.id e.2.videos))
    (fun u e => createPage u s.nextId (e.1 + 1) e.2) tw.pages.enum
    { s with
      weeks := s.weeks ++ [⟨s.nextId, a, tw.id, tw.title,
        jsOrNull tw.description, jsOrNull tw.unlockDate⟩]
      nextId := s.nextId + 1 }
    ⟨insertWeekRow_wf2 s a tw.id tw.title (jsOrNull tw.description)
        (jsOrNull tw.unlockDate) hnone hWF,
      by show s.nextId < s.nextId + 1
         omega,
      [], by
        apply List.filter_eq_nil_iff.mpr
        intro p hp hpp
        have hb : p.week_id < s.nextId := hWF.2.2.2.2.1 p hp
        have hpw : p.week_id = s.nextId := of_decide_eq_true hpp
        omega,
      rfl, by
        intro j e pr hD hC
        rw [List.getElem?_nil] at hD
        cases hD⟩ ?_
  · rw [← hterm] at hP
    obtain ⟨hw2f, hltf, created, hfil, hlen, hcl⟩ := hP
    refine ⟨⟨s.nextId, a, tw.id, tw.title, jsOrNull tw.description,
      jsOrNull tw.unlockDate⟩, ?_, rfl, rfl, rfl, hc1, hc2, ?_⟩
    · rw [createWeekWithNumber_weeks]
      exact List.mem_append_right _ (List.mem_singleton_self _)
    · intro i tp ap hgtw hgsorted
      rw [show (⟨s.nextId, a, tw.id, tw.title, jsOrNull tw.description,
        jsOrNull tw.unlockDate⟩ : WeekRow).id = s.nextId from rfl]
        at hgsorted
      have hpw : created.Pairwise
          (fun p q => p.page_number ≤ q.page_number) := by
        apply pairwise_of_index
        intro j pr hj
        have hjlen : j < created.length := by
          by_contra hc
          rw [List.getElem?_eq_none (by omega)] at hj
          cases hj
        have hjenum : j < tw.pages.enum.length := by
          rw [hlen] at hjlen
          exact hjlen
        cases hE : tw.pages.enum[j]? with
        | none =>
          rw [List.getElem?_eq_getElem hjenum] at hE
          cases hE
        | some e =>
          have hnum := (hcl j e pr hE hj).2.1
          rw [List.getElem?_enum] at hE
          cases hx : tw.pages[j]? with
          | none =>
            rw [hx] at hE
            cases hE
          | some v =>
            rw [hx] at hE
            have he : (j, v) = e := Option.some_inj.mp hE
            rw [hnum, ← he]
      have hsorted : sortByKey (fun p => p.page_number)
          ((createWeekWithNumber s a tw.id
            { title := tw.title, description := tw.description,
              unlockDate := tw.unlockDate, pages := tw.pages }).pages.filter
            (fun p => p.week_id = s.nextId)) = created := by
        rw [hfil]
        exact sortByKey_eq_self hpw
      rw [hsorted] at hgsorted
      have hE : tw.pages.enum[i]? = some (i, tp) := by
        rw [List.getElem?_enum, hgtw]
        rfl
      obtain ⟨c1, c2, c3, c4, c5, c6, c7, c8, c9⟩ :=
        hcl i (i, tp) ap hE hgsorted
      have htpmem : tp ∈ tw.pages := List.getElem?_mem hgtw
      refine ⟨c4, c5, ?_, c7, c8, c9⟩
      rw [c6, hc3 tp htpmem]
  · intro D x todo u hl hPD
    obtain ⟨hw2, hlt, created, hfil, hlen, hcl⟩ := hPD
    refine ⟨createPage_wf2 u s.nextId (x.1 + 1) x.2 hlt hw2,
      lt_of_lt_of_le hlt (createPage_wfm u s.nextId (x.1 + 1) x.2).2,
      created ++ [⟨u.nextId, s.nextId, x.1 + 1, x.2.title, x.2.type,
        jsOrNull x.2.content⟩], ?_, ?_, ?_⟩
    · rw [createPage_pages, List.filter_append, hfil]
      congr 1
      apply List.filter_eq_self.mpr
      intro y hy
      rw [List.mem_singleton] at hy
      subst hy
      simp
    · rw [List.length_append, List.length_append, hlen]
      rfl
    · intro j e pr hD hC
      by_cases hj : j < D.length
      · rw [List.getElem?_append_left hj] at hD
        rw [List.getElem?_append_left (by omega : j < created.length)] at hC
        obtain ⟨c1, c2, c3, c4, c5, c6, c7, c8, c9⟩ := hcl j e pr hD hC
        have hne : pr.id ≠ u.nextId := by omega
        refine ⟨c1, c2, lt_of_lt_of_le c3
          (createPage_wfm u s.nextId (x.1 + 1) x.2).2, c4, c5, c6,
          ?_, ?_, ?_⟩
        · intro qIdx tq hget
          obtain ⟨qr, hqr, p1, p2, p3⟩ := c7 qIdx tq hget
          exact ⟨qr, createPage_questions_mono s.nextId (x.1 + 1) x.2 hqr,
            p1, p2, p3⟩
        · rw [createPage_res_other u s.nextId (x.1 + 1) x.2 pr.id hne]
          exact c8
        · rw [createPage_vid_other u s.nextId (x.1 + 1) x.2 pr.id hne]
          exact c9
      · have hjlt : j < D.length + 1 := by
          by_contra hc
          rw [List.getElem?_eq_none (by
            rw [List.length_append]
            simpa using by omega)] at hD
          cases hD
        have hje : j = D.length := by omega
        subst hje
        rw [List.getElem?_append_right (Nat.le_refl D.length)] at hD
        have hex : e = x := by
          simp only [Nat.sub_self] at hD
          simpa using hD.symm
        subst hex
        have hC2 : (created ++ [(⟨u.nextId, s.nextId, e.1 + 1, e.2.title,
            e.2.type, jsOrNull e.2.content⟩ : PageRow)])[D.length]? =
            some (⟨u.nextId, s.nextId, e.1 + 1, e.2.title, e.2.type,
              jsOrNull e.2.content⟩ : PageRow) := by
          rw [List.getElem?_append_right
            (by omega : created.length ≤ D.length), hlen]
          simp
        rw [hC2] at hC
        have hpr : pr = ⟨u.nextId, s.nextId, e.1 + 1, e.2.title, e.2.type,
            jsOrNull e.2.content⟩ := (Option.some_inj.mp hC).symm
        subst hpr
        refine ⟨rfl, rfl, createPage_nextId_lt u s.nextId (e.1 + 1) e.2,
          rfl, rfl, rfl, ?_, ?_, ?_⟩
        · exact createPage_questions_spec u s.nextId (e.1 + 1) e.2
        · refine createPage_res_spec u s.nextId (e.1 + 1) e.2 ?_
          intro r hr
          have := hw2.2.2.2.2.2.1 r hr
          omega
        · refine createPage_vid_spec u s.nextId (e.1 + 1) e.2 ?_
          intro v hv
          have := hw2.2.2.2.2.2.2 v hv
          omega

/-! ## Effect of one page sync, packaged at the `syncPageContent` level -/

theorem syncPageContent_questions_spec (db : DB) (tp : PageView)
    (ap : PageRow) (hnd : (db.questions.map (fun q => q.id)).Nodup) :
    ∀ (qIdx : Nat) (tq : QuestionView), tp.questions[qIdx]? = some tq →
      ∃ qr ∈ (syncPageContent db tp ap).questions, qr.page_id = ap.id ∧
        qr.question_number = qIdx + 1 ∧ qr.text = tq.text := by
  unfold syncPageContent
  dsimp only
  intro qIdx tq hget
  refine reconcileQuestions_spec _ ap.id tp.questions ?_ qIdx tq hget
  have hq3 : (syncVideosOfPage (syncResourcesOfPage (updatePageRow db ap.id
      tp.title tp.type tp.content) ap.id tp.resources) ap.id
      tp.videos).questions = db.questions := by
    rw [(syncVideosOfPage_tables _ _ _).2.1,
      (syncResourcesOfPage_tables _ _ _).2.1]
    rfl
  rw [hq3]
  exact hnd

theorem syncPageContent_res_spec (db : DB) (tp : PageView) (ap : PageRow) :
    ((syncPageContent db tp ap).resources.filter
      (fun r => r.page_id = ap.id)).map resContent =
      resFromView ap.id tp.resources := by
  unfold syncPageContent reconcileQuestions
  dsimp only
  rw [(reconcileQuestionsWith_tables _ _ _ _).2.1,
    (syncVideosOfPage_tables _ _ _).2.2]
  exact syncResourcesOfPage_spec _ ap.id tp.resources

theorem syncPageContent_vid_spec (db : DB) (tp : PageView) (ap : PageRow) :
    ((syncPageContent db tp ap).videos.filter
      (fun v => v.page_id = ap.id)).map vidContent =
      vidFromView ap.id tp.videos := by
  unfold syncPageContent reconcileQuestions
  dsimp only
  rw [(reconcileQuestionsWith_tables _ _ _ _).2.2.1]
  exact syncVideosOfPage_spec _ ap.id tp.videos

theorem syncPageContent_questions_other (db : DB) (tp : PageView)
    (ap : PageRow) (pid2 : Nat)
    (hnd : (db.questions.map (fun q => q.id)).Nodup) (hne : pid2 ≠ ap.id) :
    (syncPageContent db tp ap).questions.filter (fun q => q.page_id = pid2) =
      db.questions.filter (fun q => q.page_id = pid2) := by
  unfold syncPageContent
  dsimp only
  have hq3 : (syncVideosOfPage (syncResourcesOfPage (updatePageRow db ap.id
      tp.title tp.type tp.content) ap.id tp.resources) ap.id
      tp.videos).questions = db.questions := by
    rw [(syncVideosOfPage_tables _ _ _).2.1,
      (syncResourcesOfPage_tables _ _ _).2.1]
    rfl
  refine (reconcileQuestions_questions_other _ ap.id pid2 tp.questions ?_
    hne).trans ?_
  · rw [hq3]
    exact hnd
  · rw [hq3]

theorem syncPageContent_res_other (db : DB) (tp : PageView) (ap : PageRow)
    (pid2 : Nat) (hne : pid2 ≠ ap.id) :
    (syncPageContent db tp ap).resources.filter
      (fun r => r.page_id = pid2) =
      db.resources.filter (fun r => r.page_id = pid2) := by
  unfold syncPageContent reconcileQuestions
  dsimp only
  rw [(reconcileQuestionsWith_tables _ _ _ _).2.1,
    (syncVideosOfPage_tables _ _ _).2.2]
  exact syncResourcesOfPage_res_other _ ap.id pid2 tp.resources hne

theorem syncPageContent_vid_other (db : DB) (tp : PageView) (ap : PageRow)
    (pid2 : Nat) (hne : pid2 ≠ ap.id) :
    (syncPageContent db tp ap).videos.filter (fun v => v.page_id = pid2) =
      db.videos.filter (fun v => v.page_id = pid2) := by
  unfold syncPageContent reconcileQuestions
  dsimp only
  rw [(reconcileQuestionsWith_tables _ _ _ _).2.2.1]
  refine (syncVideosOfPage_vid_other _ ap.id pid2 tp.videos hne).trans ?_
  rw [(syncResourcesOfPage_tables _ _ _).2.2]
  rfl

/-- Syncing a template week onto the unique active week row carrying its
week number materialises the template week faithfully. -/
theorem syncWeekContent_synced {s : DB} {tw aw : WeekView} {a : Nat}
    {wr0 : WeekRow} (hWF : DBWF2 s) (hawid : aw.id = tw.id)
    (hfil : s.weeks.filter (fun w =>
      w.module_id = a ∧ w.week_number = aw.id) = [wr0]) :
    SyncedWeek (syncWeekContent s tw aw a) a tw := by
  have hwr0mem : wr0 ∈ s.weeks ∧
      (wr0.module_id = a ∧ wr0.week_number = aw.id) := by
    have h1 : wr0 ∈ s.weeks.filter (fun w =>
        w.module_id = a ∧ w.week_number = aw.id) := by
      rw [hfil]
      exact List.mem_singleton_self wr0
    exact ⟨(List.mem_filter.mp h1).1,
      of_decide_eq_true (List.mem_filter.mp h1).2⟩
  have hWF0 : DBWF2 (updateActiveWeekRow s a aw.id tw) :=
    updateActiveWeekRow_wf2 s a aw.id tw hWF
  have h0fil : (updateActiveWeekRow s a aw.id tw).weeks.filter (fun w =>
      w.module_id = a ∧ w.week_number = aw.id) =
      [{ wr0 with title := tw.title, description := tw.description, unlock_date := tw.unlockDate }] := by
    show (s.weeks.map _).filter _ = _
    rw [filter_map_comm (fun w _ => by
      by_cases hc : w.module_id = a ∧ w.week_number = aw.id
      · rw [if_pos hc]
      · rw [if_neg hc]), hfil, List.map_singleton, if_pos hwr0mem.2]
  have hsingle : singleRow ((updateActiveWeekRow s a aw.id tw).weeks.filter
      (fun w => w.module_id = a ∧ w.week_number = aw.id)) =
      some { wr0 with title := tw.title, description := tw.description, unlock_date := tw.unlockDate } := by
    rw [h0fil]
    rfl
  unfold syncWeekContent
  dsimp only
  split
  next heq =>
    rw [hsingle] at heq
    cases heq
  next weekRecord heq =>
    have hwmem : weekRecord ∈ (updateActiveWeekRow s a aw.id tw).weeks :=
      (List.mem_filter.mp (singleRow_mem heq)).1
    rw [hsingle] at heq
    have hwrr : weekRecord = { wr0 with title := tw.title, description := tw.description, unlock_date := tw.unlockDate } :=
      Option.some_inj.mp heq.symm
    have hw1 : weekRecord.module_id = a := by
      rw [hwrr]
      exact hwr0mem.2.1
    have hw2n : weekRecord.week_number = tw.id := by
      rw [hwrr]
      show wr0.week_number = tw.id
      rw [hwr0mem.2.2, hawid]
    have hw3 : weekRecord.title = tw.title := by rw [hwrr]
    have hw4 : weekRecord.description = tw.description := by rw [hwrr]
    have hw5 : weekRecord.unlock_date = tw.unlockDate := by rw [hwrr]
    have hapsnd : ((sortByKey (fun p => p.page_number)
        ((updateActiveWeekRow s a aw.id tw).pages.filter
          (fun p => p.week_id = weekRecord.id))).map
        (fun p => p.id)).Nodup := by
      rw [((sortByKey_perm (fun p : PageRow => p.page_number) _).map
        (fun p : PageRow => p.id)).nodup_iff]
      exact List.Nodup.sublist (List.Sublist.map _ (List.filter_sublist _))
        hWF0.1.2.1
    have hP := foldl_establish (fun D u =>
        DBWF2 u ∧ (updateActiveWeekRow s a aw.id tw).nextId ≤ u.nextId ∧
        u.weeks = (updateActiveWeekRow s a aw.id tw).weeks ∧
        ∃ g : PageRow → PageRow,
          (∀ r, (g r).id = r.id ∧ (g r).week_id = r.week_id ∧
            (g r).page_number = r.page_number) ∧
          u.pages = (updateActiveWeekRow s a aw.id tw).pages.map g ∧
          ∀ e ∈ D, ∀ ap : PageRow, (sortByKey (fun p => p.page_number)
              ((updateActiveWeekRow s a aw.id tw).pages.filter
                (fun p => p.week_id = weekRecord.id)))[e.1]? = some ap →
            ((g ap).title = e.2.title ∧ (g ap).type = e.2.type ∧
             (g ap).content = e.2.content ∧
             (∀ (qIdx : Nat) (tq : QuestionView),
               e.2.questions[qIdx]? = some tq →
               ∃ qr ∈ u.questions, qr.page_id = ap.id ∧
                 qr.question_number = qIdx + 1 ∧ qr.text = tq.text) ∧
             (u.resources.filter (fun r => r.page_id = ap.id)).map
               resContent = resFromView ap.id e.2.resources ∧
             (u.videos.filter (fun v => v.page_id = ap.id)).map vidContent =
               vidFromView ap.id e.2.videos))
      (fun db e =>
        match (sortByKey (fun p => p.page_number)
            ((updateActiveWeekRow s a aw.id tw).pages.filter
              (fun p => p.week_id = weekRecord.id)))[e.1]? with
        | none => db
        | some activePage => syncPageContent db e.2 activePage)
      tw.pages.enum (updateActiveWeekRow s a aw.id tw)
      ⟨hWF0, Nat.le_refl _, rfl, id, fun r => ⟨rfl, rfl, rfl⟩,
        (List.map_id _).symm, fun e he => absurd he (List.not_mem_nil e)⟩
      ?_
    · obtain ⟨hu1, hu2, hu3, g, hkeys, hmap, hclauses⟩ := hP
      refine ⟨weekRecord, hu3 ▸ hwmem, hw1, hw2n, hw3, hw4, hw5, ?_⟩
      intro i tp ap2 hgtw hg2
      have hfilterg : (tw.pages.enum.foldl (fun db e =>
          match (sortByKey (fun p => p.page_number)
              ((updateActiveWeekRow s a aw.id tw).pages.filter
                (fun p => p.week_id = weekRecord.id)))[e.1]? with
          | none => db
          | some activePage => syncPageContent db e.2 activePage)
          (updateActiveWeekRow s a aw.id tw)).pages.filter
            (fun p => p.week_id = weekRecord.id) =
          ((updateActiveWeekRow s a aw.id tw).pages.filter
            (fun p => p.week_id = weekRecord.id)).map g := by
        rw [hmap]
        refine filter_map_comm ?_
        intro p _
        dsimp only
        rw [(hkeys p).2.1]
      rw [hfilterg, sortByKey_map_comm (fun p => (hkeys p).2.2),
        List.getElem?_map] at hg2
      cases hx : (sortByKey (fun p => p.page_number)
          ((updateActiveWeekRow s a aw.id tw).pages.filter
            (fun p => p.week_id = weekRecord.id)))[i]? with
      | none =>
        rw [hx] at hg2
        cases hg2
      | some ap =>
        rw [hx] at hg2
        have hap2 : ap2 = g ap := (Option.some_inj.mp hg2).symm
        subst hap2
        have henum : (i, tp) ∈ tw.pages.enum :=
          List.mk_mem_enum_iff_getElem?.mpr hgtw
        obtain ⟨c1, c2, c3, c4, c5, c6⟩ := hclauses (i, tp) henum ap hx
        refine ⟨c1, c2, c3, ?_, ?_, ?_⟩
        · intro qIdx tq hget2
          rw [(hkeys ap).1]
          exact c4 qIdx tq hget2
        · rw [(hkeys ap).1]
          exact c5
        · rw [(hkeys ap).1]
          exact c6
    · intro D x todo u hl hE
      dsimp only
      obtain ⟨hu1, hu2, hu3, g, hkeys, hmap, hclauses⟩ := hE
      cases hget : (sortByKey (fun p => p.page_number)
          ((updateActiveWeekRow s a aw.id tw).pages.filter
            (fun p => p.week_id = weekRecord.id)))[x.1]? with
      | none =>
        refine ⟨hu1, hu2, hu3, g, hkeys, hmap, ?_⟩
        intro e he ap hap
        rcases List.mem_append.mp he with he2 | he2
        · exact hclauses e he2 ap hap
        · rw [List.mem_singleton] at he2
          subst he2
          rw [hget] at hap
          cases hap
      | some ap =>
        have hapmem2 := List.mem_filter.mp (mem_sortByKey.mp
          (List.getElem?_mem hget))
        have hapid : ap.id < (updateActiveWeekRow s a aw.id tw).nextId :=
          hWF0.1.2.2.2.2.1 ap hapmem2.1
        have hapidu : ap.id < u.nextId := lt_of_lt_of_le hapid hu2
        refine ⟨syncPageContent_wf2 u x.2 ap hapidu hu1,
          hu2.trans (syncPageContent_wfm u x.2 ap).2,
          (syncPageContent_weeks u x.2 ap).trans hu3,
          fun r => if (g r).id = ap.id then
            { g r with title := x.2.title, type := x.2.type, content := x.2.content }
          else g r, ?_, ?_, ?_⟩
        · intro r
          dsimp only
          by_cases hc : (g r).id = ap.id
          · rw [if_pos hc]
            exact ⟨(hkeys r).1, (hkeys r).2.1, (hkeys r).2.2⟩
          · rw [if_neg hc]
            exact hkeys r
        · rw [syncPageContent_pages, hmap, List.map_map]
          apply List.map_congr_left
          intro r _
          rfl
        · intro e he ap2 hap2
          rcases List.mem_append.mp he with he2 | he2
          · obtain ⟨c1, c2, c3, c4, c5, c6⟩ := hclauses e he2 ap2 hap2
            have hx1 : x.1 = D.length := (enum_prefix_fst hl).1
            have he1 : e.1 < D.length := (enum_prefix_fst hl).2 e he2
            have hidne : ap2.id ≠ ap.id := by
              refine nodup_getElem_ne hapsnd
                (show e.1 ≠ x.1 by omega) ?_ ?_
              · rw [List.getElem?_map, hap2]
                rfl
              · rw [List.getElem?_map, hget]
                rfl
            have hgne : ¬ (g ap2).id = ap.id := by
              rw [(hkeys ap2).1]
              exact hidne
            refine ⟨?_, ?_, ?_, ?_, ?_, ?_⟩
            · dsimp only
              rw [if_neg hgne]
              exact c1
            · dsimp only
              rw [if_neg hgne]
              exact c2
            · dsimp only
              rw [if_neg hgne]
              exact c3
            · intro qIdx tq hget2
              obtain ⟨qr, hqr, p1, p2, p3⟩ := c4 qIdx tq hget2
              have hqrf : qr ∈ (syncPageContent u x.2 ap).questions.filter
                  (fun q => q.page_id = ap2.id) := by
                rw [syncPageContent_questions_other u x.2 ap ap2.id
                  hu1.1.2.2.1 hidne]
                exact List.mem_filter.mpr ⟨hqr, by simpa using p1⟩
              exact ⟨qr, (List.mem_filter.mp hqrf).1, p1, p2, p3⟩
            · rw [syncPageContent_res_other u x.2 ap ap2.id hidne]
              exact c5
            · rw [syncPageContent_vid_other u x.2 ap ap2.id hidne]
              exact c6
          · rw [List.mem_singleton] at he2
            subst he2
            rw [hget] at hap2
            have hap2e : ap2 = ap := (Option.some_inj.mp hap2).symm
            subst hap2e
            have hgid : (g ap2).id = ap2.id := (hkeys ap2).1
            refine ⟨?_, ?_, ?_, ?_, ?_, ?_⟩
            · dsimp only
              rw [if_pos hgid]
            · dsimp only
              rw [if_pos hgid]
            · dsimp only
              rw [if_pos hgid]
            · exact syncPageContent_questions_spec u e.2 ap2 hu1.1.2.2.1
            · exact syncPageContent_res_spec u e.2 ap2
            · exact syncPageContent_vid_spec u e.2 ap2

/-- A materialised week stays materialised while its zone is untouched. -/
theorem SyncedWeek_transfer {s cur : DB} {a : Nat} {tw : WeekView}
    (h : SyncedWeek s a tw)
    (hu : ∀ wr ∈ s.weeks, wr.module_id = a → wr.week_number = tw.id →
      UntouchedWeek s wr cur) : SyncedWeek cur a tw := by
  obtain ⟨wr, hmem, h1, h2, h3, h4, h5, hpages⟩ := h
  obtain ⟨u1, u2, u3⟩ := hu wr hmem h1 h2
  refine ⟨wr, u1, h1, h2, h3, h4, h5, ?_⟩
  intro i tp ap hg1 hg2
  rw [u2] at hg2
  obtain ⟨f1, f2, f3, hq, hres, hvid⟩ := hpages i tp ap hg1 hg2
  have hapmem : ap ∈ s.pages ∧ ap.week_id = wr.id := by
    have hm := List.mem_filter.mp (mem_sortByKey.mp (List.getElem?_mem hg2))
    exact ⟨hm.1, of_decide_eq_true hm.2⟩
  obtain ⟨hqf, hrf, hvf⟩ := u3 ap hapmem.1 hapmem.2
  refine ⟨f1, f2, f3, ?_, ?_, ?_⟩
  · intro qIdx tq hget
    obtain ⟨qr, hqr, p1, p2, p3⟩ := hq qIdx tq hget
    have hqr2 : qr ∈ cur.questions.filter (fun q => q.page_id = ap.id) := by
      rw [hqf]
      exact List.mem_filter.mpr ⟨hqr, by simpa using p1⟩
    exact ⟨qr, (List.mem_filter.mp hqr2).1, p1, p2, p3⟩
  · rw [hrf]
    exact hres
  · rw [hvf]
    exact hvid

/-- What the weeks pass of the first run establishes: strengthened
well-formedness, the untouched template zone, and a faithful
materialisation of every template week. -/
theorem syncWeeksStep_establish {db db2s : DB} {t a : Nat}
    {tws aws : List WeekView}
    (hWForig : DBWF2 db) (hta : t ≠ a)
    (htws : tws = getWeeks db t) (haws : aws = getWeeks db a)
    (hclean : ∀ tw ∈ tws, CleanWeekView tw)
    (hW2s : DBWF2 db2s) (hnext2s : db.nextId ≤ db2s.nextId)
    (hw2s : db2s.weeks = db.weeks) (hp2s : db2s.pages = db.pages)
    (hq2s : db2s.questions = db.questions)
    (hr2s : db2s.resources = db.resources)
    (hv2s : db2s.videos = db.videos)
    (htpl : UntouchedTpl db t db2s) :
    DBWF2 (syncWeeksStep db2s a tws aws) ∧
    UntouchedTpl db t (syncWeeksStep db2s a tws aws) ∧
    ∀ tw ∈ tws, SyncedWeek (syncWeeksStep db2s a tws aws) a tw := by
  have htwsnd : (tws.map (fun tv => tv.id)).Nodup := by
    rw [htws]
    exact getWeeks_ids_nodup t hWForig.2.1
  unfold syncWeeksStep
  have hP := foldl_establish (fun D u =>
      DBWF2 u ∧ db.nextId ≤ u.nextId ∧ UntouchedTpl db t u ∧
      (∀ tw2 ∈ D, SyncedWeek u a tw2) ∧
      (∀ wr ∈ db.weeks, wr.module_id = a →
        (∀ tw2 ∈ D, tw2.id ≠ wr.week_number) → UntouchedWeek db wr u) ∧
      (∀ n : Nat, (∀ tw2 ∈ D, tw2.id ≠ n) →
        u.weeks.filter (fun w => w.module_id = a ∧ w.week_number = n) =
        db.weeks.filter (fun w => w.module_id = a ∧ w.week_number = n)))
    (fun db2 templateWeek =>
      match jsMapGet (fun aw => aw.id) templateWeek.id aws with
      | some activeWeek =>
          syncWeekContent db2 templateWeek activeWeek a
      | none =>
          createWeekWithNumber db2 a templateWeek.id
            { title := templateWeek.title
              description := templateWeek.description
              unlockDate := templateWeek.unlockDate
              pages := templateWeek.pages })
    tws db2s
    ⟨hW2s, hnext2s, htpl,
      fun tw2 h => absurd h (List.not_mem_nil tw2),
      fun wr hw hm _ => ⟨hw2s.symm ▸ hw, by rw [hp2s],
        fun p hp hpw => ⟨by rw [hq2s], by rw [hr2s], by rw [hv2s]⟩⟩,
      fun n _ => by rw [hw2s]⟩
    ?_
  · exact ⟨hP.1, hP.2.2.1, hP.2.2.2.1⟩
  · intro D x todo u hl hPD
    dsimp only
    obtain ⟨hu1, hu2, hu3, hS, hUW, hF⟩ := hPD
    have hxne : ∀ tw2 ∈ D, tw2.id ≠ x.id := fun tw2 h2 =>
      nodup_split_ne htwsnd hl tw2 h2
    have hxmem : x ∈ tws := by
      rw [hl]
      exact List.mem_append_right _ (List.mem_cons_self _ _)
    cases hm : jsMapGet (fun aw => aw.id) x.id aws with
    | some aw =>
      have hawid : aw.id = x.id := jsMapGet_key hm
      have hawmem : aw ∈ aws := jsMapGet_mem hm
      obtain ⟨wr0, hwr0db, hwr0m, hwr0n⟩ := getWeeks_mem (haws ▸ hawmem)
      have hdbfil : db.weeks.filter (fun w =>
          w.module_id = a ∧ w.week_number = aw.id) = [wr0] := by
        refine filter_eq_single (List.Nodup.of_map _ hWForig.1.1) hwr0db
          (by simpa using ⟨hwr0m, hwr0n⟩) ?_
        intro y hy hpy
        have hy2 := of_decide_eq_true hpy
        refine nodup_map_mem_inj hWForig.2.1 hy hwr0db ?_
        show (y.module_id, y.week_number) = (wr0.module_id, wr0.week_number)
        rw [hy2.1, hy2.2, hwr0m, hwr0n]
      have hufil : u.weeks.filter (fun w =>
          w.module_id = a ∧ w.week_number = aw.id) = [wr0] := by
        refine (hF aw.id ?_).trans hdbfil
        intro tw2 h2
        rw [hawid]
        exact hxne tw2 h2
      refine ⟨syncWeekContent_wf2 u x aw a hu1,
        hu2.trans (syncWeekContent_wfm u x aw a).2,
        syncWeekContent_tpl hu1.1 hu3 x aw a hta, ?_, ?_, ?_⟩
      · intro tw2 h2
        rcases List.mem_append.mp h2 with h3 | h3
        · refine SyncedWeek_transfer (hS tw2 h3) ?_
          intro wr hwr hwrm hwrn
          refine syncWeekContent_untouched hu1.1
            (UntouchedWeek.uwrefl u wr hwr) x aw a (Or.inr ?_)
          rw [hawid, hwrn]
          exact (hxne tw2 h3).symm
        · rw [List.mem_singleton] at h3
          subst h3
          exact syncWeekContent_synced hu1 hawid hufil
      · intro wr hw hm2 hne2
        have hne3 : ∀ tw2 ∈ D, tw2.id ≠ wr.week_number := fun tw2 h2 =>
          hne2 tw2 (List.mem_append_left _ h2)
        have hnex : x.id ≠ wr.week_number :=
          hne2 x (List.mem_append_right _ (List.mem_singleton_self x))
        refine syncWeekContent_untouched hu1.1 (hUW wr hw hm2 hne3) x aw a
          (Or.inr ?_)
        rw [hawid]
        exact hnex
      · intro n hn
        have hnD : ∀ tw2 ∈ D, tw2.id ≠ n := fun tw2 h2 =>
          hn tw2 (List.mem_append_left _ h2)
        have hnx : x.id ≠ n :=
          hn x (List.mem_append_right _ (List.mem_singleton_self x))
        rw [syncWeekContent_weeks]
        show ((u.weeks.map _).filter _) = _
        refine (filter_map_invariant _ _ _ ?_ ?_).trans (hF n hnD)
        · intro w hw hpw
          have hw2 := of_decide_eq_true hpw
          rw [if_neg]
          intro hc
          refine hnx ?_
          rw [← hawid, ← hc.2, hw2.2]
        · intro w hw
          by_cases hc : w.module_id = a ∧ w.week_number = aw.id <;>
            simp [hc]
    | none =>
      have hdbnone : ∀ w ∈ db.weeks,
          ¬(w.module_id = a ∧ w.week_number = x.id) := by
        intro w hw hc
        obtain ⟨tvw, htvw, htvid⟩ := mem_getWeeks_of_row hw hc.1
        refine jsMapGet_none hm tvw (haws ▸ htvw) ?_
        rw [htvid, hc.2]
      have husnone : ∀ w ∈ u.weeks,
          ¬(w.module_id = a ∧ w.week_number = x.id) := by
        intro w hw hc
        have hfe := hF x.id hxne
        have hdbf : db.weeks.filter (fun w =>
            w.module_id = a ∧ w.week_number = x.id) = [] :=
          List.filter_eq_nil_iff.mpr (fun w2 hw2 hp2 =>
            hdbnone w2 hw2 (of_decide_eq_true hp2))
        have hwmem : w ∈ u.weeks.filter (fun w =>
            w.module_id = a ∧ w.week_number = x.id) :=
          List.mem_filter.mpr ⟨hw, by simpa using hc⟩
        rw [hfe, hdbf] at hwmem
        cases hwmem
      refine ⟨createWeekWithNumber_wf2 u a x.id _ husnone hu1,
        hu2.trans (createWeekWithNumber_wfm u a x.id _).2,
        createWeekWithNumber_tpl hWForig.1 hu3 hu2 a x.id _ hta, ?_, ?_, ?_⟩
      · intro tw2 h2
        rcases List.mem_append.mp h2 with h3 | h3
        · refine SyncedWeek_transfer (hS tw2 h3) ?_
          intro wr hwr hwrm hwrn
          exact createWeekWithNumber_untouched hu1.1 hwr
            (UntouchedWeek.uwrefl u wr hwr) (Nat.le_refl _) a x.id _
        · rw [List.mem_singleton] at h3
          subst h3
          exact createWeekWithNumber_synced hu1 (hclean tw2 hxmem) husnone
      · intro wr hw hm2 hne2
        have hne3 : ∀ tw2 ∈ D, tw2.id ≠ wr.week_number := fun tw2 h2 =>
          hne2 tw2 (List.mem_append_left _ h2)
        exact createWeekWithNumber_untouched hWForig.1 hw
          (hUW wr hw hm2 hne3) hu2 a x.id _
      · intro n hn
        have hnD : ∀ tw2 ∈ D, tw2.id ≠ n := fun tw2 h2 =>
          hn tw2 (List.mem_append_left _ h2)
        have hnx : x.id ≠ n :=
          hn x (List.mem_append_right _ (List.mem_singleton_self x))
        rw [createWeekWithNumber_weeks]
        refine (filter_append_none ?_).trans (hF n hnD)
        intro y hy
        rw [List.mem_singleton] at hy
        subst hy
        simpa using hnx

/-! ## Reduction of a successful run and the general second-run theorem -/

theorem updateZoomInfo_tables (db : DB) (a : Nat) (tz : ZoomView) :
    (updateZoomInfo db a tz).weeks = db.weeks ∧
    (updateZoomInfo db a tz).pages = db.pages ∧
    (updateZoomInfo db a tz).questions = db.questions ∧
    (updateZoomInfo db a tz).resources = db.resources ∧
    (updateZoomInfo db a tz).videos = db.videos ∧
    (updateZoomInfo db a tz).discussion_posts = db.discussion_posts ∧
    (updateZoomInfo db a tz).progress = db.progress ∧
    (updateZoomInfo db a tz).nextId = db.nextId := by
  refine ⟨?_, ?_, ?_, ?_, ?_, ?_, ?_, ?_⟩ <;>
    (unfold updateZoomInfo; dsimp only; split <;> rfl)

theorem syncZoomStep_tables (db : DB) (t a : Nat) :
    (syncZoomStep db t a).weeks = db.weeks ∧
    (syncZoomStep db t a).pages = db.pages ∧
    (syncZoomStep db t a).questions = db.questions ∧
    (syncZoomStep db t a).resources = db.resources ∧
    (syncZoomStep db t a).videos = db.videos ∧
    (syncZoomStep db t a).discussion_posts = db.discussion_posts ∧
    (syncZoomStep db t a).progress = db.progress ∧
    (syncZoomStep db t a).nextId = db.nextId := by
  unfold syncZoomStep
  cases getZoomInfo db t with
  | none => exact ⟨rfl, rfl, rfl, rfl, rfl, rfl, rfl, rfl⟩
  | some tz => exact updateZoomInfo_tables db a tz

/-- When all four preconditions hold, `syncToActiveModule` reduces to a
success result paired with the `syncModuleContent` pipeline. -/
theorem syncToActiveModule_success_eq {db : DB} {t a : Nat}
    {tv av : ModuleView}
    (ht : getModule db t = some tv) (htd : tv.status = "draft")
    (ha : getModule db a = some av) (hal : av.status = "launched") :
    syncToActiveModule db t a =
      (opSuccess "Template synced to active module successfully",
       syncModuleContent db t a tv) := by
  unfold syncToActiveModule
  rw [ht]
  dsimp only
  rw [if_neg (by simp [htd])]
  rw [ha]
  dsimp only
  rw [if_neg (by simp [hal])]

/-- C3, amended (general form).  Sync is idempotent except for resource and
video row identities: for every store satisfying the row-uniqueness
invariants, every template/active pair passing the preconditions, and
template weeks whose nullable fields survive the `|| null` normalisation
(empty strings are already stored as null), both runs succeed, and the
second run leaves the modules, zoom-info, weeks, pages, questions,
discussion-posts and progress tables exactly as the first run left them,
while the resource and video tables keep the same per-page row contents
(title, url, description, sort order — video duration excluded, which is
the C9 bug) even though those rows are deleted and re-inserted with fresh
ids (the id change is C3's counterexample). -/
theorem C3_sync_second_run_noop (db : DB) (t a : Nat)
    (tv av : ModuleView) (db1 db2 : DB)
    (hWF : DBWF2 db)
    (ht : getModule db t = some tv) (htd : tv.status = "draft")
    (ha : getModule db a = some av) (hal : av.status = "launched")
    (hclean : ∀ tw ∈ getWeeks db t, CleanWeekView tw)
    (h1 : db1 = (syncToActiveModule db t a).2)
    (h2 : db2 = (syncToActiveModule db1 t a).2) :
    (syncToActiveModule db t a).1.success = true ∧
    (syncToActiveModule db1 t a).1.success = true ∧
    db2.modules = db1.modules ∧ db2.zoom_info = db1.zoom_info ∧
    db2.weeks = db1.weeks ∧ db2.pages = db1.pages ∧
    db2.questions = db1.questions ∧
    db2.discussion_posts = db1.discussion_posts ∧
    db2.progress = db1.progress ∧
    (∀ pid : Nat,
      (db2.resources.filter (fun r => r.page_id = pid)).map resContent =
      (db1.resources.filter (fun r => r.page_id = pid)).map resContent) ∧
    (∀ pid : Nat,
      (db2.videos.filter (fun v => v.page_id = pid)).map vidContent =
      (db1.videos.filter (fun v => v.page_id = pid)).map vidContent) := by
  have hta : t ≠ a := by
    intro hcon
    subst hcon
    rw [ht] at ha
    have htva : tv = av := Option.some_inj.mp ha
    rw [htva, hal] at htd
    exact absurd htd (by decide)
  have hrun1 := syncToActiveModule_success_eq ht htd ha hal
  have hdb1 : db1 = syncWeeksStep (syncZoomStep (syncModuleInfoStep db a tv) t a) a (getWeeks (syncZoomStep (syncModuleInfoStep db a tv) t a) t) (getWeeks (syncZoomStep (syncModuleInfoStep db a tv) t a) a) := by
    rw [h1, hrun1]
    rfl
  have htab := syncZoomStep_tables (syncModuleInfoStep db a tv) t a
  have hw2s : (syncZoomStep (syncModuleInfoStep db a tv) t a).weeks =
      db.weeks := htab.1
  have hp2s : (syncZoomStep (syncModuleInfoStep db a tv) t a).pages =
      db.pages := htab.2.1
  have hq2s : (syncZoomStep (syncModuleInfoStep db a tv) t a).questions =
      db.questions := htab.2.2.1
  have hr2s : (syncZoomStep (syncModuleInfoStep db a tv) t a).resources =
      db.resources := htab.2.2.2.1
  have hv2s : (syncZoomStep (syncModuleInfoStep db a tv) t a).videos =
      db.videos := htab.2.2.2.2.1
  have hn2s : db.nextId ≤
      (syncZoomStep (syncModuleInfoStep db a tv) t a).nextId :=
    le_of_eq htab.2.2.2.2.2.2.2.symm
  have htws2s : getWeeks (syncZoomStep (syncModuleInfoStep db a tv) t a) t =
      getWeeks db t := getWeeks_eq_tables t hw2s hp2s hq2s hr2s hv2s
  have haws2s : getWeeks (syncZoomStep (syncModuleInfoStep db a tv) t a) a =
      getWeeks db a := getWeeks_eq_tables a hw2s hp2s hq2s hr2s hv2s
  have hW2s : DBWF2 (syncZoomStep (syncModuleInfoStep db a tv) t a) :=
    syncZoomStep_wf2 (syncModuleInfoStep db a tv) t a
      (updateModule_wf2 db a _ hWF)
  have htpl2s : UntouchedTpl db t
      (syncZoomStep (syncModuleInfoStep db a tv) t a) :=
    syncZoomStep_tpl (updateModule_tpl (UntouchedTpl.refl db t) a _ hta)
      t a hta
  have hest := syncWeeksStep_establish hWF hta htws2s haws2s
    (by rw [htws2s]; exact hclean) hW2s hn2s hw2s hp2s hq2s hr2s hv2s htpl2s
  rw [← hdb1] at hest
  obtain ⟨hWF1, htpl1, hsynced0⟩ := hest
  have hsynced : ∀ tw ∈ getWeeks db t, SyncedWeek db1 a tw := by
    rw [htws2s] at hsynced0
    exact hsynced0
  have hmodt1 : getModule db1 t = some tv := (getModule_congr htpl1.1).trans ht
  have hmods1 : db1.modules = db.modules.map (fun m => if m.id = a then applyModuleUpdates { title := some tv.title, description := some tv.description, instructor := some tv.instructor, duration := some tv.duration, participation := some tv.participation, timeExpectations := some tv.timeExpectations } m else m) := by
    rw [hdb1, syncWeeksStep_modules, syncZoomStep_modules]
    rfl
  obtain ⟨av2, hg2, hs2⟩ := getModule_updateModule_status { title := some tv.title, description := some tv.description, instructor := some tv.instructor, duration := some tv.duration, participation := some tv.participation, timeExpectations := some tv.timeExpectations } rfl ha
  have hmoda1g : getModule db1 a = some av2 := by
    refine (getModule_congr ?_).trans hg2
    rw [hmods1]
    rfl
  have hav2l : av2.status = "launched" := hs2.trans hal
  have hrun2 := syncToActiveModule_success_eq hmodt1 htd hmoda1g hav2l
  have hstep1 : syncModuleInfoStep db1 a tv = db1 := updateModule_noop hmods1
  have hzoomt1 : getZoomInfo db1 t = getZoomInfo db t :=
    getZoomInfo_congr htpl1.2.1
  have hstep2 : syncZoomStep db1 t a = db1 := by
    unfold syncZoomStep
    rw [hzoomt1]
    cases hz0 : getZoomInfo db t with
    | none => rfl
    | some tz =>
      show updateZoomInfo db1 a tz = db1
      have hXz : getZoomInfo (syncModuleInfoStep db a tv) t = some tz :=
        (getZoomInfo_eq_tables t rfl).trans hz0
      have hzchar : db1.zoom_info =
          (updateZoomInfo (syncModuleInfoStep db a tv) a tz).zoom_info := by
        rw [hdb1, syncWeeksStep_zoom]
        unfold syncZoomStep
        rw [hXz]
      refine updateZoomInfo_noop ?_ ?_
      · rw [hzchar]
        exact updateZoomInfo_any (syncModuleInfoStep db a tv) a tz
      · rw [hzchar]
        exact updateZoomInfo_rows (syncModuleInfoStep db a tv) a tz
  have hwkst1 : getWeeks db1 t = getWeeks db t :=
    getWeeks_congr htpl1.2.2.1 htpl1.2.2.2
  have hdb2 : db2 = syncWeeksStep db1 a (getWeeks db t) (getWeeks db1 a) := by
    rw [h2, hrun2]
    show syncModuleContent db1 t a tv = _
    unfold syncModuleContent
    dsimp only
    rw [hstep1, hstep2, hwkst1]
  have hmatch : ∀ tw ∈ getWeeks db t, ∃ aw,
      jsMapGet (fun aw => aw.id) tw.id (getWeeks db1 a) = some aw := by
    intro tw htw
    obtain ⟨wr, hwrm, hwrmod, hwrnum, hrest⟩ := hsynced tw htw
    obtain ⟨tvw, htvw, htvid⟩ := mem_getWeeks_of_row hwrm hwrmod
    cases hg : jsMapGet (fun aw => aw.id) tw.id (getWeeks db1 a) with
    | none =>
      exact absurd (htvid.trans hwrnum) (jsMapGet_none hg tvw htvw)
    | some aw => exact ⟨aw, rfl⟩
  have hsr : SecondRun db1 db2 := by
    rw [hdb2]
    exact secondrun_syncWeeksStep hWF1 hsynced hmatch
  obtain ⟨s1, s2, s3, s4, s5, s6, s7, s8, s9⟩ := hsr
  refine ⟨?_, ?_, s1, s2, s3, s4, s5, s6, s7, s8, s9⟩
  · rw [hrun1]
    rfl
  · rw [hrun2]
    rfl

/-- Witness for C3's amended general theorem at the concrete store `dbEx`
(template module 1, active module 2): every hypothesis holds and both runs
succeed with the second run a no-op up to media row identities. -/
theorem C3_sync_second_run_noop_witness :
    (syncToActiveModule dbEx 1 2).1.success = true ∧
    (syncToActiveModule (syncToActiveModule dbEx 1 2).2 1 2).1.success =
      true ∧
    (syncToActiveModule (syncToActiveModule dbEx 1 2).2 1 2).2.modules =
      (syncToActiveModule dbEx 1 2).2.modules ∧
    (syncToActiveModule (syncToActiveModule dbEx 1 2).2 1 2).2.zoom_info =
      (syncToActiveModule dbEx 1 2).2.zoom_info ∧
    (syncToActiveModule (syncToActiveModule dbEx 1 2).2 1 2).2.weeks =
      (syncToActiveModule dbEx 1 2).2.weeks ∧
    (syncToActiveModule (syncToActiveModule dbEx 1 2).2 1 2).2.pages =
      (syncToActiveModule dbEx 1 2).2.pages ∧
    (syncToActiveModule (syncToActiveModule dbEx 1 2).2 1 2).2.questions =
      (syncToActiveModule dbEx 1 2).2.questions ∧
    (syncToActiveModule (syncToActiveModule dbEx 1 2).2 1
        2).2.discussion_posts =
      (syncToActiveModule dbEx 1 2).2.discussion_posts ∧
    (syncToActiveModule (syncToActiveModule dbEx 1 2).2 1 2).2.progress =
      (syncToActiveModule dbEx 1 2).2.progress ∧
    (∀ pid : Nat,
      ((syncToActiveModule (syncToActiveModule dbEx 1 2).2 1
          2).2.resources.filter (fun r => r.page_id = pid)).map resContent =
      ((syncToActiveModule dbEx 1 2).2.resources.filter
        (fun r => r.page_id = pid)).map resContent) ∧
    (∀ pid : Nat,
      ((syncToActiveModule (syncToActiveModule dbEx 1 2).2 1
          2).2.videos.filter (fun v => v.page_id = pid)).map vidContent =
      ((syncToActiveModule dbEx 1 2).2.videos.filter
        (fun v => v.page_id = pid)).map vidContent) :=
  C3_sync_second_run_noop dbEx 1 2 dbExTemplateView dbExActiveView
    (syncToActiveModule dbEx 1 2).2
    (syncToActiveModule (syncToActiveModule dbEx 1 2).2 1 2).2
    (by unfold DBWF2 DBWF; decide) (by decide) rfl (by decide) rfl
    (by unfold CleanWeekView; decide) rfl rfl

end Lectern
